import Mathlib

/-!
# systemsdashboard: a shallow embedding of the aggregation core

The development embeds, function by function, the parts of the repository that the
specification talks about:

* `backend/services/deviceService.js` (class `DeviceService`), namespace `DeviceService`;
* `backend/server.js` (`extractCredentials`, `collectSystemMetrics`, `getCpuPowerInfo`),
  namespace `Server`;
* `src/api/systemApi.js` (the authorization header built by `addDevice`), namespace `SystemApi`;
* `src/hooks/useSystemData.js` (the polling hook), namespace `UseSystemData`;
* `src/contexts/DashboardContext.jsx` (the dashboard reducer and its calls on `localStorage`),
  namespace `DashboardContext`.

JavaScript strings are Lean strings, `undefined`/`null` are `none`, a thrown error is
`Except.error`, and everything the program does to the outside world (HTTP requests, shell
commands, telemetry probes) is answered by an explicit `World` and recorded in a trace.
-/

set_option autoImplicit false

/-! ## JavaScript values -/

namespace JS

/-- Truthiness of an optional string: `undefined`, `null` and `''` are falsy. -/
def truthy : Option String → Bool
  | none => false
  | some s => s != ""

/-- The value of `a || b` on optional strings. -/
def orElse (a b : Option String) : Option String :=
  if truthy a then a else b

/-- How a template literal prints an optional string: `undefined` prints as `undefined`. -/
def render : Option String → String
  | none => "undefined"
  | some s => s

/-- The method `String.prototype.startsWith`. -/
def startsWith (s p : String) : Bool :=
  p.data.isPrefixOf s.data

/-- An `Error` object as the code inspects it: `error.message` and, for a failed HTTP call,
`error.response?.data?.message`. -/
structure Error where
  message : String
  responseMessage : Option String := none
deriving DecidableEq, Repr

/-- The expression `new Error(msg)`. -/
def Error.new (msg : String) : Error := { message := msg, responseMessage := none }

/-- A JSON-like value, for the payloads the code passes through without looking into them. -/
inductive Val where
  | undefined : Val
  | null : Val
  | bool (b : Bool) : Val
  | num (n : Int) : Val
  | str (s : String) : Val
  | arr (items : List Val) : Val
  | obj (fields : List (String × Val)) : Val

/-- The fields of an object literal with a spread: a later property of the same name replaces the
earlier value and keeps its position, a new one is appended. -/
def setField (fields : List (String × Val)) (k : String) (v : Val) : List (String × Val) :=
  if fields.any (fun f => f.1 == k) then
    fields.map (fun f => if f.1 == k then (k, v) else f)
  else fields ++ [(k, v)]

/-- Spreading `src` into an object being built: `{ ...fields, ...src }`. -/
def spread (fields src : List (String × Val)) : List (String × Val) :=
  src.foldl (fun acc f => setField acc f.1 f.2) fields

/-- Property lookup `o[k]` on the field list of an object. -/
def getField (fields : List (String × Val)) (k : String) : Option Val :=
  (fields.find? (fun f => f.1 == k)).map (fun f => f.2)

/-- Whether the field list of an object has the property `k`. -/
def hasField (fields : List (String × Val)) (k : String) : Bool :=
  fields.any (fun f => f.1 == k)

/-- Truthiness of a value: `undefined`, `null`, `false`, `0` and `''` are falsy. -/
def valTruthy : Val → Bool
  | .undefined => false
  | .null => false
  | .bool b => b
  | .num n => n != 0
  | .str s => s != ""
  | .arr _ => true
  | .obj _ => true

/-- Reading a property of a value, `v[k]`: a `TypeError` on `undefined` and `null`, the field of an
object, and `undefined` on everything else. -/
def prop (v : Val) (k : String) : Except Error Val :=
  match v with
  | .undefined => .error (Error.new ("Cannot read properties of undefined (reading '" ++ k ++ "')"))
  | .null => .error (Error.new ("Cannot read properties of null (reading '" ++ k ++ "')"))
  | .obj fields => .ok ((getField fields k).getD .undefined)
  | _ => .ok .undefined

/-- White space and line terminators, the characters `String.prototype.trim` removes. -/
def isWhiteSpace (c : Char) : Bool :=
  c.toNat = 0x09 || c.toNat = 0x0A || c.toNat = 0x0B || c.toNat = 0x0C || c.toNat = 0x0D ||
  c.toNat = 0x20 || c.toNat = 0xA0 || c.toNat = 0x1680 ||
  (0x2000 ≤ c.toNat && c.toNat ≤ 0x200A) || c.toNat = 0x2028 || c.toNat = 0x2029 ||
  c.toNat = 0x202F || c.toNat = 0x205F || c.toNat = 0x3000 || c.toNat = 0xFEFF

/-- The method `String.prototype.trim`. -/
def trim (s : String) : String :=
  String.mk (((s.data.dropWhile isWhiteSpace).reverse.dropWhile isWhiteSpace).reverse)

/-- The method `String.prototype.split` with a one-character separator, on character lists:
the pieces between the separators, `['']` for the empty string. -/
def splitChars (sep : Char) : List Char → List (List Char)
  | [] => [[]]
  | c :: cs =>
    if c = sep then [] :: splitChars sep cs
    else
      match splitChars sep cs with
      | [] => [[c]]
      | piece :: pieces => (c :: piece) :: pieces

/-- The method `String.prototype.includes`. -/
def includes (s part : String) : Bool :=
  s.data.tails.any (fun tail => part.data.isPrefixOf tail)

/-- An optional string as a value: `undefined` when absent. -/
def ofOption : Option String → Val
  | none => .undefined
  | some s => .str s

/-- The properties a spread `...v` contributes: the fields of an object, the characters of a
string and the items of an array under their indices, nothing for any other value. -/
def spreadOf : Val → List (String × Val)
  | .obj fields => fields
  | .str text => text.data.enum.map (fun ic => (toString ic.1, Val.str (String.singleton ic.2)))
  | .arr items => items.enum.map (fun iv => (toString iv.1, iv.2))
  | _ => []

/-- Spreading a string into an object literal: one property per index, holding the character. -/
def spreadString (s : String) : List (String × Val) :=
  s.data.enum.map (fun ic => (toString ic.1, Val.str (String.singleton ic.2)))

/-- The receiver of `.map(...)`: the items of an array, a `TypeError` on anything else. -/
def asArray (v : Val) : Except Error (List Val) :=
  match v with
  | .arr items => .ok items
  | .undefined => .error (Error.new "Cannot read properties of undefined (reading 'map')")
  | .null => .error (Error.new "Cannot read properties of null (reading 'map')")
  | _ => .error (Error.new "nodes.map is not a function")

/-- The method `String.prototype.split` with a one-character separator. -/
def split (s : String) (sep : Char) : List String :=
  (splitChars sep s.data).map String.mk

/-- The rest of a destructuring `{ [k]: removed, ...rest } = fields`: the fields without the
property `k`. -/
def rest (fields : List (String × Val)) (k : String) : List (String × Val) :=
  fields.filter (fun f => f.1 != k)

mutual
/-- The string conversion of a value, as a template literal and a computed property name apply
it: `String(v)`. An array prints its items separated by commas, an object as
`[object Object]`. -/
def toText : Val → String
  | .undefined => "undefined"
  | .null => "null"
  | .bool b => if b then "true" else "false"
  | .num n => toString n
  | .str s => s
  | .arr items => joinText items
  | .obj _ => "[object Object]"
/-- The method `Array.prototype.join` with its default separator. -/
def joinText : List Val → String
  | [] => ""
  | [v] => itemText v
  | v :: vs => itemText v ++ "," ++ joinText vs
/-- The text of one item in a joined array: empty for `undefined` and `null`. -/
def itemText : Val → String
  | .undefined => ""
  | .null => ""
  | .bool b => if b then "true" else "false"
  | .num n => toString n
  | .str s => s
  | .arr items => joinText items
  | .obj _ => "[object Object]"
end

end JS

/-! ## backend/services/deviceService.js -/

namespace DeviceService

/-- The `credentials` record of a device descriptor. -/
structure Credentials where
  tokenId : Option String := none
  tokenSecret : Option String := none
  username : Option String := none
  password : Option String := none
  realm : Option String := none
deriving DecidableEq, Repr

/-- A device descriptor (`config` / `deviceConfig`). -/
structure DeviceConfig where
  id : Option String := none
  type : Option String := none
  address : Option String := none
  node : Option String := none
  credentials : Option Credentials := none
deriving DecidableEq, Repr

/-- The address rewrite at the end of the `proxmox` branch of `validateConfig`:
`config.address.startsWith('http') ? config.address : 'https://' + config.address`. -/
def normalizeAddress (address : String) : String :=
  if JS.startsWith address "http" then address else "https://" ++ address

/-- The method `validateConfig(config)`. The descriptor is mutated in place and returned; here the
returned record is the descriptor after the mutation. -/
def validateConfig (config : Option DeviceConfig) : Except JS.Error DeviceConfig :=
  match config with
  | none => .error (JS.Error.new "Device configuration is required")
  | some config =>
    if !JS.truthy config.type then
      .error (JS.Error.new "Device type is required")
    else if !JS.truthy config.address && config.type != some "host" then
      .error (JS.Error.new "Device address is required")
    else if config.type == some "proxmox" then
      match config.credentials with
      | none => .error (JS.Error.new "Proxmox credentials are required")
      | some credentials =>
        if !JS.truthy credentials.tokenId && !JS.truthy credentials.username then
          .error (JS.Error.new "Either API token or username/password is required")
        else if JS.truthy credentials.tokenId && !JS.truthy credentials.tokenSecret then
          .error (JS.Error.new "Token secret is required when using API token")
        else if JS.truthy credentials.username && !JS.truthy credentials.password then
          .error (JS.Error.new "Password is required when using username authentication")
        else
          .ok { config with address := config.address.map normalizeAddress }
    else
      .ok config

end DeviceService

namespace DeviceService

/-- An axios client as the service uses it: the handle identity of the object, the `baseURL` it
was created with and the two default headers the service may attach. -/
structure Client where
  handle : Nat
  baseURL : Option String
  authorization : Option String := none
  cookie : Option String := none
deriving DecidableEq, Repr

/-- What the service does to the outside world, in the order it does it. A request is recorded
together with whether it resolved; a POST also with the ticket its response carried. -/
inductive Effect where
  | clientCreate (baseURL : Option String)
  | httpPost (baseURL : Option String) (path : String) (resolved : Bool) (ticket : Option String)
  | httpGet (baseURL : Option String) (path : String) (resolved : Bool)
  | exec (cmd : String) (resolved : Bool)
  | telemetry (probe : String) (resolved : Bool)
deriving DecidableEq, Repr

/-- The outside world: the answers of the remote cluster API, of the command runner and of the
telemetry provider. The first argument of every answer is the number of effects performed so far,
so that the same request may be answered differently at different times. `race` decides which of
several failed members of a `Promise.all` failed first, `jsonParse` is `JSON.parse` and `toText`
is the string conversion of a template literal applied to a payload value. -/
structure World where
  post : Nat → Client → String → List (String × String) → Except JS.Error (Option String)
  get : Nat → Client → String → Except JS.Error JS.Val
  exec : Nat → String → Except JS.Error String
  si : Nat → String → Except JS.Error JS.Val
  race : Nat → Nat
  jsonParse : String → Except JS.Error JS.Val
  toText : JS.Val → String

/-- The mutable state of the `DeviceService` singleton: the `clients` map (insertion ordered),
the number of client objects allocated so far, and the trace of effects. -/
structure Service where
  clients : List (String × Client) := []
  allocated : Nat := 0
  trace : List Effect := []

/-- The call `this.clients.get(key)` (and `has(key)`, when it is `some`). -/
def clientsGet (clients : List (String × Client)) (key : String) : Option Client :=
  (clients.find? (fun e => e.1 == key)).map (fun e => e.2)

/-- The call `this.clients.set(key, client)`. -/
def clientsSet (clients : List (String × Client)) (key : String) (client : Client) :
    List (String × Client) :=
  if clients.any (fun e => e.1 == key) then
    clients.map (fun e => if e.1 == key then (key, client) else e)
  else clients ++ [(key, client)]

/-- The result of `Promise.all`: all the values when every member resolved, and otherwise the
error of the member that rejected first, as the world's `race` picks it. The result has as many
values as there were members, so a destructuring of it into that many names cannot fail; the
collectors below carry a case for any other length only to be total. -/
def promiseAll {α : Type} (w : World) (t : Nat) (results : List (Except JS.Error α)) :
    Except JS.Error (List α) :=
  let errors := results.filterMap (fun r => match r with | .error e => some e | .ok _ => none)
  match errors.get? (w.race t % errors.length) with
  | some e => .error e
  | none => .ok (results.filterMap (fun r => match r with | .ok a => some a | .error _ => none))

/-- The shared shape of the `catch` blocks of `createProxmoxClient` and `executeProxmoxCommand`:
an error that carries a message of the remote API is replaced by a new error with the given
prefix, any other error is thrown again unchanged. -/
def rethrow (pre : String) (e : JS.Error) : JS.Error :=
  if JS.truthy e.responseMessage then JS.Error.new (pre ++ JS.render e.responseMessage) else e

/-- The method `getProxmoxTicket(client, credentials)`. -/
def getProxmoxTicket (w : World) (s : Service) (client : Client) (credentials : Credentials) :
    Except JS.Error String × Service :=
  let body := [("username", JS.render credentials.username),
               ("password", JS.render credentials.password),
               ("realm", JS.render (JS.orElse credentials.realm (some "pam")))]
  let response := w.post s.trace.length client "/api2/json/access/ticket" body
  let generic :=
    JS.Error.new "Proxmox authentication failed: Invalid credentials or server unreachable"
  match response with
  | .ok ticket =>
    let s := { s with trace := s.trace ++
      [Effect.httpPost client.baseURL "/api2/json/access/ticket" true ticket] }
    if !JS.truthy ticket then (.error generic, s) else (.ok (JS.render ticket), s)
  | .error e =>
    let s := { s with trace := s.trace ++
      [Effect.httpPost client.baseURL "/api2/json/access/ticket" false none] }
    if JS.truthy e.responseMessage then
      (.error (JS.Error.new ("Proxmox authentication failed: " ++ JS.render e.responseMessage)), s)
    else (.error generic, s)

/-- The cache key of `createProxmoxClient`: the address, a dash, and `tokenId || username`. -/
def clientKey (config : DeviceConfig) : String :=
  JS.render config.address ++ "-" ++
    JS.render (JS.orElse (config.credentials.bind (fun c => c.tokenId))
      (config.credentials.bind (fun c => c.username)))

/-- The version probe at the end of `createProxmoxClient`, followed by the insertion in the
cache. -/
def probeAndStore (w : World) (s : Service) (key : String) (client : Client) :
    Except JS.Error Client × Service :=
  match w.get s.trace.length client "/api2/json/version" with
  | .error e =>
    (.error (rethrow "Failed to create Proxmox client: " e),
      { s with trace := s.trace ++ [Effect.httpGet client.baseURL "/api2/json/version" false] })
  | .ok _ =>
    (.ok client,
      { s with trace := s.trace ++ [Effect.httpGet client.baseURL "/api2/json/version" true],
               clients := clientsSet s.clients key client })

/-- The method `createProxmoxClient(config)`. -/
def createProxmoxClient (w : World) (s : Service) (config : Option DeviceConfig) :
    Except JS.Error Client × Service :=
  match validateConfig config with
  | .error e => (.error (rethrow "Failed to create Proxmox client: " e), s)
  | .ok config =>
    let key := clientKey config
    match clientsGet s.clients key with
    | some cached => (.ok cached, s)
    | none =>
      let client : Client := { handle := s.allocated, baseURL := config.address }
      let s := { s with allocated := s.allocated + 1,
                        trace := s.trace ++ [Effect.clientCreate config.address] }
      match config.credentials with
      | none =>
        (.error (JS.Error.new "Cannot read properties of undefined (reading 'tokenId')"), s)
      | some credentials =>
        if JS.truthy credentials.tokenId && JS.truthy credentials.tokenSecret then
          let header := "PVEAPIToken=" ++ JS.render credentials.tokenId ++ "=" ++
            JS.render credentials.tokenSecret
          probeAndStore w s key { client with authorization := some header }
        else if JS.truthy credentials.username && JS.truthy credentials.password then
          match getProxmoxTicket w s client credentials with
          | (.error e, s) => (.error (rethrow "Failed to create Proxmox client: " e), s)
          | (.ok ticket, s) =>
            probeAndStore w s key { client with cookie := some ("PVEAuthCookie=" ++ ticket) }
        else probeAndStore w s key client

/-- One `client.get(path)`: the world's answer (`response.data`), recorded in the trace. -/
def httpGet (w : World) (s : Service) (client : Client) (path : String) :
    Except JS.Error JS.Val × Service :=
  match w.get s.trace.length client path with
  | .error e => (.error e, { s with trace := s.trace ++ [Effect.httpGet client.baseURL path false] })
  | .ok data => (.ok data, { s with trace := s.trace ++ [Effect.httpGet client.baseURL path true] })

/-- The expression `response.data.data` on an answer. -/
def payload (data : JS.Val) : Except JS.Error JS.Val :=
  JS.prop data "data"

/-- The callback of `nodes.map(async node => ...)` in `executeProxmoxCommand`: the VM and container
inventories of one node, or the entry with the `error` field when either fetch fails. -/
def nodeResources (w : World) (s : Service) (client : Client) (node : JS.Val) : JS.Val × Service :=
  let name := (JS.prop node "node").toOption.getD JS.Val.undefined
  let t := s.trace.length
  let (vms, s) := httpGet w s client ("/api2/json/nodes/" ++ w.toText name ++ "/qemu")
  let (containers, s) := httpGet w s client ("/api2/json/nodes/" ++ w.toText name ++ "/lxc")
  let failed (e : JS.Error) : JS.Val :=
    JS.Val.obj [("node", name), ("error", JS.Val.str e.message), ("vms", JS.Val.arr []),
      ("containers", JS.Val.arr [])]
  match promiseAll w t [vms, containers] with
  | .error e => (failed e, s)
  | .ok _ =>
    match vms.bind payload, containers.bind payload with
    | .ok v, .ok c => (JS.Val.obj [("node", name), ("vms", v), ("containers", c)], s)
    | .error e, _ => (failed e, s)
    | .ok _, .error e => (failed e, s)

/-- The fan-out `Promise.all(nodes.map(...))`: the callbacks start in the order of the node list,
and none of them rejects. -/
def allNodeResources (w : World) (client : Client) : Service → List JS.Val → List JS.Val × Service
  | s, [] => ([], s)
  | s, node :: nodes =>
    let (entry, s) := nodeResources w s client node
    let (entries, s) := allNodeResources w client s nodes
    (entry :: entries, s)

/-- The branch of `executeProxmoxCommand` without a requested node. -/
def clusterOverview (w : World) (s : Service) (client : Client) : Except JS.Error JS.Val × Service :=
  match httpGet w s client "/api2/json/nodes" with
  | (.error e, s) => (.error e, s)
  | (.ok data, s) =>
    match (payload data).bind JS.asArray with
    | .error e => (.error e, s)
    | .ok nodes =>
      match nodes.mapM (fun n => JS.prop n "node") with
      | .error e => (.error e, s)
      | .ok _ =>
        let (resources, s) := allNodeResources w client s nodes
        (.ok (JS.Val.obj [("nodes", JS.Val.arr nodes), ("resources", JS.Val.arr resources)]), s)

/-- The branch of `executeProxmoxCommand` for a requested node: four concurrent fetches. -/
def nodeDetails (w : World) (s : Service) (client : Client) (node : String) :
    Except JS.Error JS.Val × Service :=
  let t := s.trace.length
  let (nodeStatus, s) := httpGet w s client ("/api2/json/nodes/" ++ node ++ "/status")
  let (rrddata, s) := httpGet w s client ("/api2/json/nodes/" ++ node ++ "/rrddata?timeframe=hour")
  let (vms, s) := httpGet w s client ("/api2/json/nodes/" ++ node ++ "/qemu")
  let (containers, s) := httpGet w s client ("/api2/json/nodes/" ++ node ++ "/lxc")
  match promiseAll w t [nodeStatus, rrddata, vms, containers] with
  | .error e => (.error e, s)
  | .ok _ =>
    match nodeStatus.bind payload, rrddata.bind payload, vms.bind payload,
        containers.bind payload with
    | .ok st, .ok rrd, .ok v, .ok c =>
      (.ok (JS.Val.obj [("node", JS.Val.str node), ("status", st), ("rrddata", rrd), ("vms", v),
        ("containers", c)]), s)
    | .error e, _, _, _ => (.error e, s)
    | .ok _, .error e, _, _ => (.error e, s)
    | .ok _, .ok _, .error e, _ => (.error e, s)
    | .ok _, .ok _, .ok _, .error e => (.error e, s)

/-- The method `executeProxmoxCommand(config)`. -/
def executeProxmoxCommand (w : World) (s : Service) (config : Option DeviceConfig) :
    Except JS.Error JS.Val × Service :=
  match validateConfig config with
  | .error e => (.error (rethrow "Proxmox API error: " e), s)
  | .ok config =>
    match createProxmoxClient w s (some config) with
    | (.error e, s) => (.error (rethrow "Proxmox API error: " e), s)
    | (.ok client, s) =>
      match httpGet w s client "/api2/json/version" with
      | (.error e, s) => (.error (rethrow "Proxmox API error: " e), s)
      | (.ok _, s) =>
        if !JS.truthy config.node then
          match clusterOverview w s client with
          | (.error e, s) => (.error (rethrow "Proxmox API error: " e), s)
          | (.ok data, s) => (.ok data, s)
        else
          match nodeDetails w s client (JS.render config.node) with
          | (.error e, s) => (.error (rethrow "Proxmox API error: " e), s)
          | (.ok data, s) => (.ok data, s)

/-- The object literal `{ type: tag, ...data }`. -/
def tagged (tag : String) (data : JS.Val) : JS.Val :=
  match data with
  | .obj fields => JS.Val.obj (JS.spread [("type", JS.Val.str tag)] fields)
  | .str text => JS.Val.obj (JS.spread [("type", JS.Val.str tag)] (JS.spreadString text))
  | _ => JS.Val.obj [("type", JS.Val.str tag)]

/-- The method `getProxmoxMetrics(config)`. -/
def getProxmoxMetrics (w : World) (s : Service) (config : Option DeviceConfig) :
    Except JS.Error JS.Val × Service :=
  match validateConfig config with
  | .error e => (.error e, s)
  | .ok config =>
    match executeProxmoxCommand w s (some config) with
    | (.error e, s) => (.error e, s)
    | (.ok data, s) => (.ok (tagged "proxmox" data), s)

/-- The call `execAsync(cmd)`, reduced to the `stdout` of its result and recorded in the trace. -/
def execAsync (w : World) (s : Service) (cmd : String) : Except JS.Error String × Service :=
  match w.exec s.trace.length cmd with
  | .error e => (.error e, { s with trace := s.trace ++ [Effect.exec cmd false] })
  | .ok stdout => (.ok stdout, { s with trace := s.trace ++ [Effect.exec cmd true] })

/-- The method `executeRemoteCommand(host, command)`. -/
def executeRemoteCommand (w : World) (s : Service) (host : Option String) (command : String) :
    Except JS.Error String × Service :=
  match execAsync w s ("ssh " ++ JS.render host ++ " '" ++ command ++ "'") with
  | (.ok stdout, s) => (.ok (JS.trim stdout), s)
  | (.error e, s) =>
    (.error (JS.Error.new
      ("Failed to execute command on " ++ JS.render host ++ ": " ++ e.message)), s)

/-- The method `executeDockerCommand(host, command)`. -/
def executeDockerCommand (w : World) (s : Service) (host : Option String) (command : String) :
    Except JS.Error String × Service :=
  let cmd := if host = some "localhost" then "docker " ++ command
    else "ssh " ++ JS.render host ++ " 'docker " ++ command ++ "'"
  match execAsync w s cmd with
  | (.ok stdout, s) => (.ok (JS.trim stdout), s)
  | (.error e, s) =>
    (.error (JS.Error.new ("Failed to execute Docker command: " ++ e.message)), s)

/-- The method `getVMMetrics(host)`: four remote probes started together. -/
def getVMMetrics (w : World) (s : Service) (host : Option String) :
    Except JS.Error JS.Val × Service :=
  let t := s.trace.length
  let (cpu, s) := executeRemoteCommand w s host "top -bn1 | grep 'Cpu(s)'"
  let (mem, s) := executeRemoteCommand w s host "free -m"
  let (disk, s) := executeRemoteCommand w s host "df -h"
  let (net, s) := executeRemoteCommand w s host "netstat -i"
  match promiseAll w t [cpu, mem, disk, net] with
  | .ok [cpu, mem, disk, net] =>
    (.ok (JS.Val.obj [("type", JS.Val.str "vm"), ("cpu", JS.Val.str cpu),
      ("memory", JS.Val.str mem), ("disk", JS.Val.str disk), ("network", JS.Val.str net)]), s)
  | .ok _ => (.error (JS.Error.new "undefined is not iterable"), s)
  | .error e => (.error e, s)

/-- The command text of `getLXCMetrics`, a template literal over three lines. -/
def lxcCommand (host : Option String) : String :=
  "\n        lxc-info -n " ++ JS.render host ++ " -s && \n        lxc-info -n " ++
    JS.render host ++ " -S && \n        lxc-info -n " ++ JS.render host ++ " -p\n      "

/-- The method `getLXCMetrics(host)`. -/
def getLXCMetrics (w : World) (s : Service) (host : Option String) :
    Except JS.Error JS.Val × Service :=
  match executeRemoteCommand w s host (lxcCommand host) with
  | (.error e, s) => (.error e, s)
  | (.ok metrics, s) => (.ok (tagged "lxc" (JS.Val.str metrics)), s)

/-- The expression `output.split('\n').map(line => JSON.parse(line))`. -/
def parseLines (w : World) (output : String) : Except JS.Error (List JS.Val) :=
  (JS.split output '\n').mapM w.jsonParse

/-- The method `getDockerMetrics(host)`. -/
def getDockerMetrics (w : World) (s : Service) (host : Option String) :
    Except JS.Error JS.Val × Service :=
  let t := s.trace.length
  let (containers, s) := executeDockerCommand w s host "ps -a --format \"\x7b\x7bjson .\x7d\x7d\""
  let (stats, s) :=
    executeDockerCommand w s host "stats --no-stream --format \"\x7b\x7bjson .\x7d\x7d\""
  match promiseAll w t [containers, stats] with
  | .ok [containers, stats] =>
    match parseLines w containers with
    | .error e => (.error e, s)
    | .ok containers =>
      match parseLines w stats with
      | .error e => (.error e, s)
      | .ok stats =>
        (.ok (JS.Val.obj [("type", JS.Val.str "docker"), ("containers", JS.Val.arr containers),
          ("stats", JS.Val.arr stats)]), s)
  | .ok _ => (.error (JS.Error.new "undefined is not iterable"), s)
  | .error e => (.error e, s)

/-- One call of the telemetry provider (`si.cpu()`, `si.mem()`, ...), recorded in the trace. -/
def telemetry (w : World) (s : Service) (probe : String) : Except JS.Error JS.Val × Service :=
  match w.si s.trace.length probe with
  | .error e => (.error e, { s with trace := s.trace ++ [Effect.telemetry probe false] })
  | .ok v => (.ok v, { s with trace := s.trace ++ [Effect.telemetry probe true] })

/-- The method `getLocalMetrics()`. -/
def getLocalMetrics (w : World) (s : Service) : Except JS.Error JS.Val × Service :=
  let t := s.trace.length
  let (cpu, s) := telemetry w s "cpu"
  let (mem, s) := telemetry w s "mem"
  let (disk, s) := telemetry w s "fsSize"
  let (net, s) := telemetry w s "networkStats"
  match promiseAll w t [cpu, mem, disk, net] with
  | .ok [cpu, mem, disk, net] =>
    (.ok (JS.Val.obj [("type", JS.Val.str "host"), ("cpu", cpu), ("memory", mem), ("disk", disk),
      ("network", net)]), s)
  | .ok _ => (.error (JS.Error.new "undefined is not iterable"), s)
  | .error e => (.error e, s)

/-- The method `getMetrics(deviceConfig)`. Its `catch` block reads `deviceConfig.id` for the log
line before it throws the error again, which is itself a `TypeError` on an absent descriptor. -/
def getMetrics (w : World) (s : Service) (deviceConfig : Option DeviceConfig) :
    Except JS.Error JS.Val × Service :=
  match validateConfig deviceConfig with
  | .error e =>
    match deviceConfig with
    | none => (.error (JS.Error.new "Cannot read properties of undefined (reading 'id')"), s)
    | some _ => (.error e, s)
  | .ok deviceConfig =>
    if deviceConfig.type = some "proxmox" then getProxmoxMetrics w s (some deviceConfig)
    else if deviceConfig.type = some "vm" then getVMMetrics w s deviceConfig.address
    else if deviceConfig.type = some "lxc" then getLXCMetrics w s deviceConfig.address
    else if deviceConfig.type = some "docker" then getDockerMetrics w s deviceConfig.address
    else if deviceConfig.address = some "localhost" then getLocalMetrics w s
    else getVMMetrics w s deviceConfig.address

/-! ### Vocabulary of the specification for the device service -/

/-- A malformed descriptor, in the words of the specification: the descriptor is absent, or its
type is missing or empty, or its address is missing or empty while the type is not `host`, or the
type is `proxmox` and the credentials are absent, name neither a token id nor a username, name a
token id without a secret, or name a username without a password. -/
def Malformed (config : Option DeviceConfig) : Prop :=
  match config with
  | none => True
  | some c =>
    JS.truthy c.type = false ∨
    (JS.truthy c.address = false ∧ c.type ≠ some "host") ∨
    (c.type = some "proxmox" ∧
      match c.credentials with
      | none => True
      | some cr =>
        (JS.truthy cr.tokenId = false ∧ JS.truthy cr.username = false) ∨
        (JS.truthy cr.tokenId = true ∧ JS.truthy cr.tokenSecret = false) ∨
        (JS.truthy cr.username = true ∧ JS.truthy cr.password = false))

/-- The identity a session is bound to: the token id, or the username when there is no token
id. -/
def identity (config : DeviceConfig) : Option String :=
  JS.orElse (config.credentials.bind (fun c => c.tokenId))
    (config.credentials.bind (fun c => c.username))

/-- A ticket exchange that failed: the POST to the ticket endpoint was rejected, or its response
carried no ticket. -/
def Effect.failedTicketExchange : Effect → Bool
  | .httpPost _ path resolved ticket =>
    path == "/api2/json/access/ticket" && !(resolved && JS.truthy ticket)
  | _ => false

/-- A version probe that failed. -/
def Effect.failedProbe : Effect → Bool
  | .httpGet _ path resolved => path == "/api2/json/version" && !resolved
  | _ => false

/-- The effects a call added to the trace, given the states before and after it. -/
def newEffects (before after : Service) : List Effect :=
  after.trace.drop before.trace.length

/-- A POST request; the only one the service sends is the ticket exchange. -/
def Effect.isPost : Effect → Bool
  | .httpPost _ _ _ _ => true
  | _ => false

/-- An effect that reaches out of the process: anything but a call of the local telemetry
provider. -/
def Effect.isRemote : Effect → Bool
  | .telemetry _ _ => false
  | _ => true

/-- The tag of the collector `getMetrics` runs for a descriptor: the type itself for `proxmox`,
`vm`, `lxc` and `docker`; for `host` and every other type, `host` when the address is exactly
`localhost` and `vm` otherwise. -/
def collectorTag (config : DeviceConfig) : String :=
  if config.type = some "proxmox" then "proxmox"
  else if config.type = some "vm" then "vm"
  else if config.type = some "lxc" then "lxc"
  else if config.type = some "docker" then "docker"
  else if config.address = some "localhost" then "host"
  else "vm"

/-- An inventory that could be read: the request resolved and its body has a readable `data`. -/
def readable (response : Except JS.Error JS.Val) : Bool :=
  match response.bind payload with
  | .ok _ => true
  | .error _ => false

/-- The command line of a remote probe, as `executeRemoteCommand` builds it. -/
def sshCommand (host : Option String) (command : String) : String :=
  "ssh " ++ JS.render host ++ " '" ++ command ++ "'"

/-- The command line of a Docker probe, as `executeDockerCommand` builds it. -/
def dockerCommand (host : Option String) (command : String) : String :=
  if host = some "localhost" then "docker " ++ command
  else "ssh " ++ JS.render host ++ " 'docker " ++ command ++ "'"

/-- The four probes of the remote-VM collector. -/
def vmProbes : List String :=
  ["top -bn1 | grep 'Cpu(s)'", "free -m", "df -h", "netstat -i"]

/-- The two probes of the Docker collector: the inventory listing and the resource stats. -/
def dockerProbes : List String :=
  ["ps -a --format \"\x7b\x7bjson .\x7d\x7d\"", "stats --no-stream --format \"\x7b\x7bjson .\x7d\x7d\""]

/-- The four probes of the local collector. -/
def localProbes : List String := ["cpu", "mem", "fsSize", "networkStats"]

/-- A list of effects that consists of exactly these commands, in this order. -/
def Runs (effects : List Effect) (commands : List String) : Prop :=
  List.Forall₂ (fun e cmd => ∃ resolved, e = Effect.exec cmd resolved) effects commands

/-- A list of effects that consists of exactly these telemetry probes, in this order. -/
def Probes (effects : List Effect) (probes : List String) : Prop :=
  List.Forall₂ (fun e probe => ∃ resolved, e = Effect.telemetry probe resolved) effects probes

/-- An effect on the cluster API: the construction of a client, or a request. -/
def Effect.isCluster : Effect → Bool
  | .clientCreate _ => true
  | .httpPost _ _ _ _ => true
  | .httpGet _ _ _ => true
  | _ => false

/-- The trace after a call is the trace before it followed by effects that all satisfy `p`. -/
def Adds (p : Effect → Bool) (before after : Service) : Prop :=
  ∃ added, after.trace = before.trace ++ added ∧ ∀ e ∈ added, p e = true

/-- The entry of `resources` the specification prescribes for a node, given the answers to the
two inventory requests: `{node, vms, containers}` when both inventories could be read, and
`{node, error, vms: [], containers: []}` with some message otherwise. -/
def EntryFor (node : JS.Val) (vms containers : Except JS.Error JS.Val) (entry : JS.Val) : Prop :=
  if readable vms = true ∧ readable containers = true then
    ∃ v c, vms.bind payload = .ok v ∧ containers.bind payload = .ok c ∧
      entry = JS.Val.obj [("node", (JS.prop node "node").toOption.getD JS.Val.undefined),
        ("vms", v), ("containers", c)]
  else
    ∃ message,
      entry = JS.Val.obj [("node", (JS.prop node "node").toOption.getD JS.Val.undefined),
        ("error", JS.Val.str message), ("vms", JS.Val.arr []), ("containers", JS.Val.arr [])]

/-- The path of the VM inventory request for a node entry. -/
def qemuPath (w : World) (node : JS.Val) : String :=
  "/api2/json/nodes/" ++ w.toText ((JS.prop node "node").toOption.getD JS.Val.undefined) ++ "/qemu"

/-- The path of the container inventory request for a node entry. -/
def lxcPath (w : World) (node : JS.Val) : String :=
  "/api2/json/nodes/" ++ w.toText ((JS.prop node "node").toOption.getD JS.Val.undefined) ++ "/lxc"

/-- A world in which the node list has two nodes and every inventory of `pve2` is refused. -/
def halfDeadWorld : World where
  post := fun _ _ _ _ => .ok (some "T")
  get := fun _ _ path =>
    if path = "/api2/json/nodes" then
      .ok (JS.Val.obj [("data", JS.Val.arr [JS.Val.obj [("node", JS.Val.str "pve1")],
        JS.Val.obj [("node", JS.Val.str "pve2")]])])
    else if JS.includes path "pve2" then .error (JS.Error.new "timeout of 10000ms exceeded")
    else .ok (JS.Val.obj [("data", JS.Val.arr [])])
  exec := fun _ _ => .ok ""
  si := fun _ _ => .ok JS.Val.null
  race := fun _ => 0
  jsonParse := fun _ => .error (JS.Error.new "Unexpected token")
  toText := fun v => match v with
    | .str text => text
    | _ => "undefined"

/-- A world in which every command prints the two lines `1` and `2`, which are JSON. -/
def dockerWorld : World where
  post := fun _ _ _ _ => .ok (some "T")
  get := fun _ _ _ => .ok (JS.Val.obj [("data", JS.Val.arr [])])
  exec := fun _ _ => .ok "1\n2\n"
  si := fun _ _ => .ok JS.Val.null
  race := fun _ => 0
  jsonParse := fun line =>
    if line = "1" then .ok (JS.Val.num 1)
    else if line = "2" then .ok (JS.Val.num 2)
    else .error (JS.Error.new "Unexpected end of JSON input")
  toText := fun _ => "undefined"

/-- A client for the examples. -/
def someClient : Client := { handle := 0, baseURL := some "https://10.0.0.5" }

/-- The form that `getProxmoxTicket` posts to the ticket endpoint. -/
def ticketForm (credentials : Credentials) : List (String × String) :=
  [("username", JS.render credentials.username),
   ("password", JS.render credentials.password),
   ("realm", JS.render (JS.orElse credentials.realm (some "pam")))]

/-- The descriptor with the secrets of its credentials replaced: another token secret and another
password, everything else as it was. -/
def withSecrets (config : DeviceConfig) (tokenSecret password : Option String) : DeviceConfig :=
  let credentials := config.credentials.map
    (fun c => { c with tokenSecret := tokenSecret, password := password })
  { config with credentials := credentials }

/-! ### Concrete worlds and descriptors for the examples -/

/-- A world in which every request is refused. -/
def deadWorld : World where
  post := fun _ _ _ _ => .error (JS.Error.new "connect ECONNREFUSED")
  get := fun _ _ _ => .error (JS.Error.new "connect ECONNREFUSED")
  exec := fun _ _ => .error (JS.Error.new "Command failed")
  si := fun _ _ => .error (JS.Error.new "unavailable")
  race := fun _ => 0
  jsonParse := fun _ => .error (JS.Error.new "Unexpected token")
  toText := fun _ => "undefined"

/-- A world in which the cluster API answers every request and hands out the ticket `T`. -/
def liveWorld : World where
  post := fun _ _ _ _ => .ok (some "T")
  get := fun _ _ _ => .ok (JS.Val.obj [("data", JS.Val.arr [])])
  exec := fun _ _ => .ok ""
  si := fun _ _ => .ok JS.Val.null
  race := fun _ => 0
  jsonParse := fun _ => .error (JS.Error.new "Unexpected token")
  toText := fun _ => "undefined"

/-- A world whose cluster API rejects the ticket request with a message of its own. -/
def rejectingWorld : World where
  post := fun _ _ _ _ =>
    .error ⟨"Request failed with status code 401", some "authentication failure"⟩
  get := fun _ _ _ => .error (JS.Error.new "connect ECONNREFUSED")
  exec := fun _ _ => .error (JS.Error.new "Command failed")
  si := fun _ _ => .error (JS.Error.new "unavailable")
  race := fun _ => 0
  jsonParse := fun _ => .error (JS.Error.new "Unexpected token")
  toText := fun _ => "undefined"

/-- A world with the cluster of the scenarios: one node `pve1` that runs the virtual machine 100
and no container. Every path of the API is answered with its own payload. -/
def pveWorld : World where
  post := fun _ _ _ _ => .ok (some "T")
  get := fun _ _ path =>
    if path = "/api2/json/nodes" then
      .ok (JS.Val.obj [("data", JS.Val.arr [JS.Val.obj [("node", JS.Val.str "pve1")]])])
    else if path = "/api2/json/nodes/pve1/status" then
      .ok (JS.Val.obj [("data", JS.Val.obj [("uptime", JS.Val.num 86400)])])
    else if path = "/api2/json/nodes/pve1/rrddata?timeframe=hour" then
      .ok (JS.Val.obj [("data", JS.Val.arr [JS.Val.obj [("cpu", JS.Val.num 3)]])])
    else if path = "/api2/json/nodes/pve1/qemu" then
      .ok (JS.Val.obj [("data", JS.Val.arr [JS.Val.obj [("vmid", JS.Val.num 100)]])])
    else if path = "/api2/json/nodes/pve1/lxc" then
      .ok (JS.Val.obj [("data", JS.Val.arr [])])
    else if path = "/api2/json/version" then
      .ok (JS.Val.obj [("data", JS.Val.obj [("version", JS.Val.str "8.1")])])
    else .error (JS.Error.new "Request failed with status code 404")
  exec := fun _ _ => .ok ""
  si := fun _ _ => .ok JS.Val.null
  race := fun _ => 0
  jsonParse := fun _ => .error (JS.Error.new "Unexpected token")
  toText := fun v => match v with
    | .str text => text
    | _ => "undefined"

/-- The cluster descriptor of the scenarios of the specification. -/
def scenarioConfig : DeviceConfig :=
  { type := some "proxmox", address := some "10.0.0.5",
    credentials := some { tokenId := some "u@pam!t", tokenSecret := some "abc" } }

/-- The cluster descriptor of the scenarios with the node `pve1` requested. -/
def scenarioNodeConfig : DeviceConfig :=
  { type := some "proxmox", address := some "10.0.0.5", node := some "pve1",
    credentials := some { tokenId := some "u@pam!t", tokenSecret := some "abc" } }

/-- A cluster descriptor whose host name begins with the letters `http`. -/
def httpbinConfig : DeviceConfig :=
  { type := some "proxmox", address := some "httpbin.local:8006",
    credentials := some { tokenId := some "u@pam!t", tokenSecret := some "abc" } }

/-- A descriptor with both forms of credentials filled in. -/
def bothFormsConfig : DeviceConfig :=
  { type := some "proxmox", address := some "10.0.0.5",
    credentials := some { tokenId := some "u@pam!t", tokenSecret := some "abc",
                          username := some "alice", password := some "secret" } }

/-- The local host. -/
def localHostConfig : DeviceConfig :=
  { type := some "host", address := some "localhost" }

/-- A remote host that is not a virtual machine by type. -/
def remoteHostConfig : DeviceConfig :=
  { type := some "host", address := some "10.0.0.9" }

/-- A descriptor that authenticates with a username and a password. -/
def passwordConfig : DeviceConfig :=
  { type := some "proxmox", address := some "10.0.0.5",
    credentials := some { username := some "alice", password := some "secret" } }

end DeviceService

/-! ## The runtime's `Buffer`: base64 and UTF-8 -/

namespace Node

/-- The value of a base64 digit. The decoder of `Buffer.from(text, 'base64')` accepts the standard
alphabet and the URL-safe one. -/
def unbase64 (c : Char) : Option Nat :=
  let n := c.toNat
  if 65 ≤ n ∧ n ≤ 90 then some (n - 65)
  else if 97 ≤ n ∧ n ≤ 122 then some (n - 97 + 26)
  else if 48 ≤ n ∧ n ≤ 57 then some (n - 48 + 52)
  else if n = 43 ∨ n = 45 then some 62
  else if n = 47 ∨ n = 95 then some 63
  else none

/-- Bytes out of six-bit groups: four groups give three bytes, a tail of three gives two, a tail
of two gives one, and a single trailing group gives nothing. -/
def sextetsToBytes : List Nat → List Nat
  | a :: b :: c :: d :: rest =>
    (a * 4 + b / 16) :: ((b % 16) * 16 + c / 4) :: ((c % 4) * 64 + d) :: sextetsToBytes rest
  | [a, b, c] => [a * 4 + b / 16, (b % 16) * 16 + c / 4]
  | [a, b] => [a * 4 + b / 16]
  | _ => []

/-- The call `Buffer.from(text, 'base64')`: decoding never fails; it stops at the first `=` and
skips every character that is not a base64 digit. -/
def base64Decode (text : List Char) : List Nat :=
  sextetsToBytes ((text.takeWhile (fun c => c != '=')).filterMap unbase64)

/-- The replacement character U+FFFD. -/
def replacement : Char := Char.ofNat 0xFFFD

/-- The bounds on the second byte of a three-byte sequence that starts with `b0`. -/
def second3 (b0 b1 : Nat) : Bool :=
  (if b0 = 0xE0 then 0xA0 else 0x80) ≤ b1 && b1 ≤ (if b0 = 0xED then 0x9F else 0xBF)

/-- The bounds on the second byte of a four-byte sequence that starts with `b0`. -/
def second4 (b0 b1 : Nat) : Bool :=
  (if b0 = 0xF0 then 0x90 else 0x80) ≤ b1 && b1 ≤ (if b0 = 0xF4 then 0x8F else 0xBF)

/-- A continuation byte. -/
def continuation (b : Nat) : Bool := 0x80 ≤ b && b ≤ 0xBF

/-- The call `buffer.toString('utf-8')`: decoding never fails; every maximal ill-formed part
becomes one U+FFFD. -/
def utf8Decode : List Nat → List Char
  | [] => []
  | b0 :: rest =>
    if b0 < 0x80 then Char.ofNat b0 :: utf8Decode rest
    else if 0xC2 ≤ b0 ∧ b0 ≤ 0xDF then
      match rest with
      | [] => [replacement]
      | b1 :: rest1 =>
        if continuation b1 then
          Char.ofNat ((b0 - 0xC0) * 64 + (b1 - 0x80)) :: utf8Decode rest1
        else replacement :: utf8Decode (b1 :: rest1)
    else if 0xE0 ≤ b0 ∧ b0 ≤ 0xEF then
      match rest with
      | [] => [replacement]
      | b1 :: rest1 =>
        if second3 b0 b1 then
          match rest1 with
          | [] => [replacement]
          | b2 :: rest2 =>
            if continuation b2 then
              Char.ofNat ((b0 - 0xE0) * 4096 + (b1 - 0x80) * 64 + (b2 - 0x80)) :: utf8Decode rest2
            else replacement :: utf8Decode (b2 :: rest2)
        else replacement :: utf8Decode (b1 :: rest1)
    else if 0xF0 ≤ b0 ∧ b0 ≤ 0xF4 then
      match rest with
      | [] => [replacement]
      | b1 :: rest1 =>
        if second4 b0 b1 then
          match rest1 with
          | [] => [replacement]
          | b2 :: rest2 =>
            if continuation b2 then
              match rest2 with
              | [] => [replacement]
              | b3 :: rest3 =>
                if continuation b3 then
                  Char.ofNat ((b0 - 0xF0) * 262144 + (b1 - 0x80) * 4096 + (b2 - 0x80) * 64 +
                    (b3 - 0x80)) :: utf8Decode rest3
                else replacement :: utf8Decode (b3 :: rest3)
            else replacement :: utf8Decode (b2 :: rest2)
        else replacement :: utf8Decode (b1 :: rest1)
    else replacement :: utf8Decode rest

/-- The base64 digit of a six-bit value, standard alphabet. -/
def base64Digit (n : Nat) : Char :=
  if n < 26 then Char.ofNat (65 + n)
  else if n < 52 then Char.ofNat (97 + (n - 26))
  else if n < 62 then Char.ofNat (48 + (n - 52))
  else if n = 62 then '+'
  else '/'

/-- Standard base64 with padding, as `btoa` and `buffer.toString('base64')` produce it. -/
def base64Encode : List Nat → List Char
  | a :: b :: c :: rest =>
    base64Digit (a / 4) :: base64Digit ((a % 4) * 16 + b / 16) ::
      base64Digit ((b % 16) * 4 + c / 64) :: base64Digit (c % 64) :: base64Encode rest
  | [a, b] => [base64Digit (a / 4), base64Digit ((a % 4) * 16 + b / 16),
      base64Digit ((b % 16) * 4), '=']
  | [a] => [base64Digit (a / 4), base64Digit ((a % 4) * 16), '=', '=']
  | [] => []

/-- The UTF-8 bytes of one character. -/
def utf8EncodeChar (c : Char) : List Nat :=
  let n := c.toNat
  if n < 0x80 then [n]
  else if n < 0x800 then [0xC0 + n / 64, 0x80 + n % 64]
  else if n < 0x10000 then [0xE0 + n / 4096, 0x80 + (n / 64) % 64, 0x80 + n % 64]
  else [0xF0 + n / 262144, 0x80 + (n / 4096) % 64, 0x80 + (n / 64) % 64, 0x80 + n % 64]

/-- The UTF-8 bytes of a text. -/
def utf8Encode (text : List Char) : List Nat :=
  text.flatMap utf8EncodeChar

end Node

/-! ## backend/server.js -/

namespace Server

open DeviceService (Credentials)

/-- The line terminators, which the `.` of a regular expression does not match. -/
def isLineTerminator (c : Char) : Bool :=
  c.toNat = 0x0A || c.toNat = 0x0D || c.toNat = 0x2028 || c.toNat = 0x2029

/-- The literal part of the token pattern. -/
def tokenLiteral : List Char := "PVEAPIToken=".data

/-- A match of `/PVEAPIToken=([^=]+)=(.+)/` that starts at the head of the input. After the
literal, `[^=]+` can only stop at the first `=`, so the first group is the run of characters up
to it (at least one); the greedy `.+` then takes every character up to the first line terminator
(at least one). -/
def matchTokenHere (input : List Char) : Option (List Char × List Char) :=
  if tokenLiteral.isPrefixOf input then
    let rest := input.drop tokenLiteral.length
    let tokenId := rest.takeWhile (fun c => c != '=')
    match rest.dropWhile (fun c => c != '=') with
    | [] => none
    | _ :: tail =>
      let tokenSecret := tail.takeWhile (fun c => !isLineTerminator c)
      if tokenId.isEmpty || tokenSecret.isEmpty then none else some (tokenId, tokenSecret)
  else none

/-- The call `authHeader.match(/PVEAPIToken=([^=]+)=(.+)/)`: the leftmost match, as its two
groups. -/
def tokenMatch : List Char → Option (List Char × List Char)
  | [] => none
  | c :: cs =>
    match matchTokenHere (c :: cs) with
    | some groups => some groups
    | none => tokenMatch cs

/-- The function `extractCredentials(authHeader)`; `none` is `null`. Nothing in the `try` block
can throw, so the `catch` block is not represented, except for the `TypeError` of
`Buffer.from(undefined, ...)`, which it would turn into `null`. -/
def extractCredentials (authHeader : Option String) : Option Credentials :=
  match authHeader with
  | none => none
  | some header =>
    if header = "" then none
    else
      match tokenMatch header.data with
      | some (tokenId, tokenSecret) =>
        some { tokenId := some (String.mk tokenId), tokenSecret := some (String.mk tokenSecret) }
      | none =>
        if JS.startsWith header "Basic " then
          match (JS.split header ' ').get? 1 with
          | none => none
          | some base64Credentials =>
            let decoded := String.mk (Node.utf8Decode (Node.base64Decode base64Credentials.data))
            let parts := JS.split decoded ':'
            some { username := parts.get? 0, password := parts.get? 1, realm := some "pam" }
        else none

/-- A module-level cache, `{ data, timestamp }`. -/
structure Cache where
  data : JS.Val := JS.Val.null
  timestamp : Int := 0

/-- The host side of the server: the telemetry provider, the shell, and the two pieces of
formatting this model does not look into: `formatTdp` is `(parseInt(tdp) / 1000000).toFixed(1)`,
and `assemble` builds the properties of the `metrics` object literal after `time` from the nine
provider results and the power information (it may throw, as a property read on a missing part
does). -/
structure Host where
  si : Nat → String → Except JS.Error JS.Val
  execCommand : Nat → String → String
  formatTdp : String → String
  uptime : String
  assemble : List JS.Val → JS.Val → Except JS.Error (List (String × JS.Val))

/-- The module state of the server: the two caches, and the log of the provider and shell calls
made so far. -/
structure State where
  metricsCache : Cache := {}
  cpuPowerCache : Cache := {}
  calls : List String := []

/-- The constant `CACHE_DURATION`. -/
def CACHE_DURATION : Int := 2000

/-- The function `getCpuPowerInfo()`, called at time `now`. `execCommand` never rejects, so the
`catch` block is not represented. -/
def getCpuPowerInfo (h : Host) (now : Int) (s : State) : JS.Val × State :=
  if JS.valTruthy s.cpuPowerCache.data && decide (now - s.cpuPowerCache.timestamp < 5000) then
    (s.cpuPowerCache.data, s)
  else
    let c1 := "cat /sys/devices/system/cpu/cpu0/cpufreq/scaling_governor"
    let c2 := "cat /sys/class/powercap/intel-rapl/intel-rapl:0/constraint_0_power_limit_uw"
    let governor := h.execCommand s.calls.length c1
    let tdp := h.execCommand (s.calls.length + 1) c2
    let data := JS.Val.obj [
      ("cpuGovernor", JS.Val.str (if governor != "" then governor else "unknown")),
      ("tdpCurrent", JS.Val.str (if tdp != "" then h.formatTdp tdp else "0"))]
    (data, { s with calls := s.calls ++ ["exec " ++ c1, "exec " ++ c2],
                    cpuPowerCache := { data := data, timestamp := now } })

/-- The nine calls of the telemetry provider in `collectSystemMetrics`, in the order of the
array handed to `Promise.all`. -/
def providers : List String :=
  ["cpu", "cpuTemperature", "mem", "fsSize", "networkStats", "processes", "battery", "disksIO",
    "currentLoad"]

/-- The function `collectSystemMetrics()`. `now` is the value of its `Date.now()` and `now₂` the
value of the `Date.now()` inside `getCpuPowerInfo`. When several providers reject, the error
thrown is one of theirs; the model takes the first in the order of the array. -/
def collectSystemMetrics (h : Host) (now now₂ : Int) (s : State) :
    Except JS.Error JS.Val × State :=
  if JS.valTruthy s.metricsCache.data && decide (now - s.metricsCache.timestamp < CACHE_DURATION)
  then (.ok s.metricsCache.data, s)
  else
    let results := providers.enum.map (fun ip => h.si (s.calls.length + ip.1) ip.2)
    let s := { s with calls := s.calls ++ providers.map (fun p => "si." ++ p) }
    let (cpuPowerInfo, s) := getCpuPowerInfo h now₂ s
    match results.mapM id with
    | .error e => (.error e, s)
    | .ok values =>
      match h.assemble values cpuPowerInfo with
      | .error e => (.error e, s)
      | .ok fields =>
        let metrics := JS.Val.obj (("time", JS.Val.obj [("current", JS.Val.num now),
          ("uptime", JS.Val.str h.uptime)]) :: fields)
        (.ok metrics, { s with metricsCache := { data := metrics, timestamp := now } })

/-! ### Vocabulary of the specification for the server -/

/-- An authorization value that contains the token pattern `PVEAPIToken=<id>=<secret>`: somewhere
in it the literal is followed by a non-empty id without `=`, an `=`, and a non-empty secret
without a line terminator. -/
def ContainsTokenPattern (header : String) : Prop :=
  ∃ before tokenId tokenSecret after : List Char,
    header.data = before ++ (tokenLiteral ++ (tokenId ++ '=' :: (tokenSecret ++ after))) ∧
    tokenId ≠ [] ∧ '=' ∉ tokenId ∧
    tokenSecret ≠ [] ∧ ∀ c ∈ tokenSecret, isLineTerminator c = false

/-- The header `Basic <base64 of username:password>`, the text taken in UTF-8, which is how the
server reads it. -/
def basicHeader (username password : String) : String :=
  "Basic " ++ String.mk (Node.base64Encode (Node.utf8Encode (username ++ ":" ++ password).data))

/-- A host on which every provider answers and the `metrics` literal has no property after
`time`. -/
def quietHost : Host where
  si := fun _ _ => .ok JS.Val.null
  execCommand := fun _ _ => ""
  formatTdp := fun _ => "0.0"
  uptime := "0h 0m"
  assemble := fun _ _ => .ok []

/-- A server whose metrics cache was filled at time 0. -/
def filledAtZero : State :=
  { metricsCache := { data := JS.Val.obj [], timestamp := 0 } }

end Server

/-! ## src/api/systemApi.js -/

namespace SystemApi

open DeviceService (Credentials)

/-- The browser's `btoa`: base64 of a string of characters up to U+00FF, one byte each; an
`InvalidCharacterError` on any other string. -/
def btoa (text : String) : Except JS.Error String :=
  if text.data.all (fun c => c.toNat ≤ 255) then
    .ok (String.mk (Node.base64Encode (text.data.map Char.toNat)))
  else .error (JS.Error.new "InvalidCharacterError")

/-- The authorization header `authToken` that `addDevice` builds from `deviceConfig.credentials`
(the same lines appear in `testDeviceConnection` and in the dashboard context). -/
def authToken (credentials : Option Credentials) : Except JS.Error String :=
  match credentials with
  | none => .ok ""
  | some c =>
    if JS.truthy c.tokenId && JS.truthy c.tokenSecret then
      .ok ("PVEAPIToken=" ++ JS.render c.tokenId ++ "=" ++ JS.render c.tokenSecret)
    else if JS.truthy c.username && JS.truthy c.password then
      match btoa (JS.render c.username ++ ":" ++ JS.render c.password) with
      | .error e => .error e
      | .ok encoded => .ok ("Basic " ++ encoded)
    else .ok ""

end SystemApi

/-! ## src/hooks/useSystemData.js -/

namespace UseSystemData

/-- An entry of `state.devices.list`, as far as the hook reads it. -/
structure Device where
  id : String
  name : Option String := none
  type : Option String := none
  address : Option String := none
deriving DecidableEq, Repr

/-- What the hook polls: the active device (possibly `undefined`) and the selected node. These
are the values an `updateData` closure captures. -/
structure Target where
  activeDevice : Option Device := none
  selectedNode : Option String := none
deriving DecidableEq, Repr

/-- A call of one of the API functions whose promise has not settled yet: the fetch is in flight.
`controller` is the `AbortController` created just before the call; no API function is given its
signal. -/
structure Request where
  id : Nat
  target : Target
  api : String
  controller : Nat
deriving DecidableEq, Repr

/-- The constant `MIN_INTERVAL`. -/
def MIN_INTERVAL : Int := 2000

/-- The constant `MAX_RETRIES`. -/
def MAX_RETRIES : Nat := 3

/-- The hook instance: its React state, its refs, the closure and timers of the effect that is
currently live, and the surroundings (clock, fetches in flight, aborted controllers, and the
calls made to `setDeviceError`). -/
structure Hook where
  systemData : JS.Val := JS.Val.null
  error : Option String := none
  loading : Bool := true
  lastUpdate : Int := 0
  retryCount : Nat := 0
  abortController : Option Nat := none
  updateInProgress : Bool := false
  lastError : Option String := none
  target : Target := {}
  safeInterval : Int := 2000
  timeoutDue : Option Int := none
  intervalDue : Option Int := none
  now : Int := 0
  inFlight : List Request := []
  aborted : List Nat := []
  started : Nat := 0
  deviceErrors : List (Option String) := []

/-- What happens to a hook instance. `render` is a commit in which the dependencies of the effect
have changed (the first mount, a switch of device or node, or a new `updateData`): the cleanup of
the previous effect runs, then the effect body. `timeout` is the debounced initial fetch firing,
`tick` the interval timer firing, and `settle` the promise of a fetch in flight resolving with a
body or rejecting with a message. Every event carries the clock reading at which it happens. -/
inductive Event where
  | render (target : Target) (interval : Int) (now : Int)
  | timeout (now : Int)
  | tick (now : Int)
  | settle (id : Nat) (outcome : Except String JS.Val) (now : Int)

/-- The test `activeDevice?.type === 'proxmox' && !selectedNode`. -/
def awaitingNode (t : Target) : Bool :=
  (t.activeDevice.bind (fun d => d.type)) == some "proxmox" && !JS.truthy t.selectedNode

/-- The `system` properties both envelopes start with: `hostname`, `type`, `address`. -/
def systemFields (d : Device) : List (String × JS.Val) :=
  [("hostname", JS.ofOption d.name), ("type", JS.ofOption d.type),
    ("address", JS.ofOption d.address)]

/-- The placeholder envelope of a cluster without a selected node. -/
def placeholder (d : Device) (now : Int) : JS.Val :=
  JS.Val.obj [("type", JS.Val.str "proxmox"),
    ("time", JS.Val.obj [("current", JS.Val.num now), ("uptime", JS.Val.str "N/A")]),
    ("system", JS.Val.obj (systemFields d))]

/-- The `catch` block of `updateData` followed by its `finally` block, for a closure over `t`. -/
def onError (h : Hook) (t : Target) (errorMessage : String) : Hook :=
  let h := if !awaitingNode t then
      let h := { h with error := some errorMessage }
      if h.lastError != some errorMessage then
        { h with deviceErrors := h.deviceErrors ++ [some errorMessage],
                 lastError := some errorMessage }
      else h
    else h
  let h := { h with loading := false }
  let h := if JS.includes errorMessage "ERR_INSUFFICIENT_RESOURCES" then
      { h with retryCount := h.retryCount + 1 } else h
  { h with updateInProgress := false, abortController := none }

/-- The statements of `updateData` after the data is ready, from `setSystemData(data)` on,
followed by the `finally` block. -/
def onSuccess (h : Hook) (data : JS.Val) (now : Int) : Hook :=
  let h := { h with systemData := data, error := none }
  let h := if h.lastError != none then
      { h with deviceErrors := h.deviceErrors ++ [none], lastError := none } else h
  let h := { h with loading := false, lastUpdate := now, retryCount := 0 }
  { h with updateInProgress := false, abortController := none }

/-- The API function `updateData` calls for a device with an address: the `switch` on the type. -/
def apiFor (d : Device) : String :=
  if d.type = some "docker" then "fetchDockerStats"
  else if d.type = some "proxmox" then "fetchProxmoxStats"
  else if d.type = some "lxc" then "fetchLXCStats"
  else if d.type = some "vm" then "fetchVMStats"
  else "fetchDeviceMetrics"

/-- The function `updateData()` of the live effect, called at time `now`, up to its `await`. -/
def updateData (h : Hook) (now : Int) : Hook :=
  if h.updateInProgress then h
  else if now - h.lastUpdate < h.safeInterval then h
  else if awaitingNode h.target then
    match h.target.activeDevice with
    | some d => { h with systemData := placeholder d now, loading := false }
    | none => h
  else
    let h := { h with aborted := h.aborted ++ h.abortController.toList }
    let h := { h with abortController := some h.started, updateInProgress := true }
    let start (api : String) : Hook :=
      { h with inFlight := h.inFlight ++ [{ id := h.started, target := h.target, api := api,
                                            controller := h.started }],
               started := h.started + 1 }
    match h.target.activeDevice with
    | none => start "fetchSystemData"
    | some d =>
      if d.id = "local" then start "fetchSystemData"
      else if !JS.truthy d.address then
        onError { h with started := h.started + 1 } h.target "Device address is not configured"
      else start (apiFor d)

/-- The statements of `updateData` between the `await` and `setSystemData(data)`, for a closure
over `t`: the node-list envelope of a cluster, and the `time` and `system` properties added to any
other body of a remote device. A property read on a missing body throws. -/
def shape (t : Target) (data : JS.Val) (now : Int) : Except String JS.Val :=
  match t.activeDevice with
  | none => .ok data
  | some d =>
    if d.id = "local" then .ok data
    else
      let time (uptime : JS.Val) : JS.Val :=
        JS.Val.obj [("current", JS.Val.num now), ("uptime", uptime)]
      let listed : Except JS.Error JS.Val :=
        if d.type = some "proxmox" ∧ JS.truthy t.selectedNode = false then
          (JS.prop data "nodes").bind (fun nodes =>
            if JS.valTruthy nodes then
              (JS.prop data "resources").map (fun resources =>
                JS.Val.obj [("type", JS.Val.str "proxmox"), ("nodes", nodes),
                  ("resources", resources), ("time", time (JS.Val.str "N/A")),
                  ("system", JS.Val.obj (systemFields d))])
            else .ok data)
        else .ok data
      match listed with
      | .error e => .error e.message
      | .ok data =>
        if JS.valTruthy data &&
            !JS.valTruthy ((JS.prop data "nodes").toOption.getD JS.Val.undefined) then
          let uptime := (JS.prop data "uptime").toOption.getD JS.Val.undefined
          let system := (JS.prop data "system").toOption.getD JS.Val.undefined
          .ok (JS.Val.obj (JS.setField (JS.setField (JS.spreadOf data) "time"
            (time (if JS.valTruthy uptime then uptime else JS.Val.str "N/A"))) "system"
            (JS.Val.obj (JS.spread (systemFields d ++ [("node", JS.ofOption t.selectedNode)])
              (JS.spreadOf system)))))
        else .ok data

/-- The rest of the `updateData` call that started the fetch `id`, run when its promise settles
at time `now`. -/
def settle (h : Hook) (id : Nat) (outcome : Except String JS.Val) (now : Int) : Hook :=
  match h.inFlight.find? (fun r => r.id == id) with
  | none => h
  | some r =>
    let h := { h with inFlight := h.inFlight.filter (fun r => r.id != id) }
    match outcome.bind (fun data => shape r.target data now) with
    | .ok data => onSuccess h data now
    | .error errorMessage => onError h r.target errorMessage

/-- The cleanup function the effect returns. -/
def cleanup (h : Hook) : Hook :=
  { h with timeoutDue := none, intervalDue := none,
           aborted := h.aborted ++ h.abortController.toList,
           updateInProgress := false }

/-- The condition under which the effect sets up the interval timer. -/
def pollable (h : Hook) : Bool :=
  match h.target.activeDevice with
  | none => false
  | some d =>
    (d.id == "local" || JS.truthy d.address) && decide (h.retryCount < MAX_RETRIES) &&
      (d.type != some "proxmox" || JS.truthy h.target.selectedNode)

/-- The body of the effect, run at time `now` for the closure over `target` and the configured
`interval`. -/
def effect (h : Hook) (target : Target) (interval : Int) (now : Int) : Hook :=
  let h := { h with target := target, safeInterval := max interval MIN_INTERVAL }
  let h := { h with systemData := JS.Val.null, error := none }
  let h := if h.lastError != none then
      { h with deviceErrors := h.deviceErrors ++ [none], lastError := none } else h
  let h := { h with loading := true, lastUpdate := 0, retryCount := 0, updateInProgress := false }
  let h := { h with timeoutDue := some (now + 500) }
  if pollable h then { h with intervalDue := some (now + h.safeInterval) } else h

/-- One event. An event that cannot happen in the current state (a clock reading in the past, a
timer that is not set or not yet due, a fetch that is not in flight) changes nothing. -/
def step (h : Hook) : Event → Hook
  | .render target interval now =>
    if now < h.now then h else effect (cleanup { h with now := now }) target interval now
  | .timeout now =>
    if now < h.now then h
    else
      match h.timeoutDue with
      | none => h
      | some due =>
        if due ≤ now then updateData { h with now := now, timeoutDue := none } now else h
  | .tick now =>
    if now < h.now then h
    else
      match h.intervalDue with
      | none => h
      | some due =>
        if due ≤ now then
          let h := { h with now := now, intervalDue := some (due + h.safeInterval) }
          if !h.updateInProgress then updateData h now else h
        else h
  | .settle id outcome now =>
    if now < h.now then h else settle { h with now := now } id outcome now

/-- A run of the hook from its initial state. -/
def run (events : List Event) : Hook :=
  events.foldl step {}

/-- A re-run of the effect for the target and polling period it already has. -/
def rerun (h : Hook) : Hook :=
  step h (.render h.target h.safeInterval h.now)

/-- One event of the hook mounted under `DashboardProvider` (contexts/DashboardContext.jsx). The
provider builds the function `setDeviceError` anew on each of its renders, and every dispatch of
`SET_DEVICE_ERROR` yields a new state object and so a new render of the provider. The function
is a dependency of `updateData`, and `updateData` one of the effect: every call of
`setDeviceError` is therefore followed by a re-run of the effect. After an announced message that
re-run calls `setDeviceError(null)` itself and is followed by one more. -/
def stepUnderProvider (h : Hook) (e : Event) : Hook :=
  let h₁ := step h e
  if h₁.deviceErrors.length = h.deviceErrors.length then h₁
  else
    let h₂ := rerun h₁
    if h₂.deviceErrors.length = h₁.deviceErrors.length then h₂ else rerun h₂

/-- A run of the hook mounted under `DashboardProvider`, from its initial state. -/
def runUnderProvider (events : List Event) : Hook :=
  events.foldl stepUnderProvider {}

/-! ### Scenarios -/

/-- A remote virtual machine. -/
def vmA : Target :=
  { activeDevice := some
      { id := "a", name := some "A", type := some "vm", address := some "10.0.0.7" } }

/-- Another remote virtual machine. -/
def vmB : Target :=
  { activeDevice := some
      { id := "b", name := some "B", type := some "vm", address := some "10.0.0.8" } }

/-- A switch from `vmA` to `vmB` while the fetch for `vmA` is in flight; that fetch then resolves
while the first fetch for `vmB` is in flight, and two ticks of the timer follow. -/
def overlapRun : List Event :=
  [.render vmA 2000 1000000, .timeout 1000500, .render vmB 2000 1000600, .timeout 1001100,
    .settle 0 (.ok (JS.Val.obj [])) 1001200, .tick 1002600, .tick 1004600]

/-- The message of a fetch refused for lack of resources. -/
def exhausted : String := "Error fetching VM stats: net::ERR_INSUFFICIENT_RESOURCES"

/-- One target under the provider, no switch: five fetches in a row are refused for lack of
resources. Every refusal is announced, so the effect runs again and its debounced initial fetch,
half a second later, starts the next fetch; the last event is the initial fetch after the fifth
refusal. -/
def exhaustedRun : List Event :=
  [.render vmA 2000 1000000,
    .timeout 1000500, .settle 0 (.error exhausted) 1000600,
    .timeout 1001100, .settle 1 (.error exhausted) 1001200,
    .timeout 1001700, .settle 2 (.error exhausted) 1001800,
    .timeout 1002300, .settle 3 (.error exhausted) 1002400,
    .timeout 1002900, .settle 4 (.error exhausted) 1003000,
    .timeout 1003500]

/-- The same refusals when every announced error is followed by two re-runs of the effect for the
same target (one after `setDeviceError(message)`, one after the `setDeviceError(null)` of the
first re-run), as happens under a context whose `setDeviceError` is a new function on every
render of the provider. -/
def exhaustedRerun : List Event :=
  [.render vmA 2000 1000000,
    .timeout 1000500, .settle 0 (.error exhausted) 1000600,
    .render vmA 2000 1000600, .render vmA 2000 1000600,
    .timeout 1001100, .settle 1 (.error exhausted) 1001200,
    .render vmA 2000 1001200, .render vmA 2000 1001200,
    .timeout 1001700, .settle 2 (.error exhausted) 1001800,
    .render vmA 2000 1001800, .render vmA 2000 1001800,
    .timeout 1002300, .settle 3 (.error exhausted) 1002400,
    .render vmA 2000 1002400, .render vmA 2000 1002400,
    .timeout 1002900]

/-- A switch from `vmA` to `vmB` while the fetch for `vmA` is in flight; that fetch then resolves
with a body before the initial fetch for `vmB` is due, and the initial fetch for `vmB` follows. -/
def staleSuccessRun : List Event :=
  [.render vmA 2000 1000000, .timeout 1000500, .render vmB 2000 1000600,
    .settle 0 (.ok (JS.Val.obj [("cpu", JS.Val.num 7)])) 1000700, .timeout 1001100]

/-- The same switch; here the fetch for `vmA` is refused for lack of resources while the initial
fetch for `vmB` is in flight. -/
def staleFailureRun : List Event :=
  [.render vmA 2000 1000000, .timeout 1000500, .render vmB 2000 1000600, .timeout 1001100,
    .settle 0 (.error exhausted) 1001200]

/-- The message of a fetch that could not reach the backend. -/
def unreachable : String := "Failed to fetch"

/-- One target, no switch: the initial fetch fails, and later the refresh rate is raised from two
to five seconds. -/
def rateChangeRun : List Event :=
  [.render vmA 2000 1000000, .timeout 1000500, .settle 0 (.error unreachable) 1000600,
    .render vmA 5000 1003000]

/-- One target, no switch and no change of the refresh rate: the initial fetch fails, and so does
the next fetch, with the same message. -/
def repeatedFailureRun : List Event :=
  [.render vmA 2000 1000000, .timeout 1000500, .settle 0 (.error unreachable) 1000600,
    .timeout 1001100, .settle 1 (.error unreachable) 1001200]

/-! ### Vocabulary of the specification for the hook -/

/-- At most one fetch is in flight, and none when `updateInProgressRef` is clear. -/
def Exclusive (h : Hook) : Prop :=
  h.inFlight.length ≤ 1 ∧ (h.updateInProgress = false → h.inFlight = [])

/-- A timer event: the debounced initial fetch or a tick of the interval. -/
def Event.isTimer : Event → Bool
  | .timeout _ => true
  | .tick _ => true
  | _ => false

/-- A cluster device. -/
def clusterDevice : Device :=
  { id := "proxmox-10-0-0-5", name := some "Cluster", type := some "proxmox",
    address := some "https://10.0.0.5" }

/-- A cluster without a selected node. -/
def clusterTarget : Target :=
  { activeDevice := some clusterDevice, selectedNode := none }

/-- The bookkeeping of announcements is consistent: `lastErrorRef` holds the argument of the
latest call of `setDeviceError` (`null` before the first call), and no call repeats the argument
of the call before it. -/
def Announced (lastError : Option String) (deviceErrors : List (Option String)) : Prop :=
  lastError = deviceErrors.getLast?.join ∧ List.Chain' (fun a b => a ≠ b) deviceErrors

/-- An event that is not a render: the live effect stays as it is. -/
def Event.keepsEffect : Event → Bool
  | .render _ _ _ => false
  | _ => true

/-- The local host as the active device. -/
def localTarget : Target :=
  { activeDevice := some
      { id := "local", name := some "Local System", type := some "host",
        address := some "localhost" } }

/-- A body of the metrics of the local host. -/
def localBody : JS.Val :=
  JS.Val.obj [("cpu", JS.Val.obj [("load", JS.Val.num 12)])]

/-- A switch from the local host to a cluster without a selected node while the fetch for the
local host is in flight; that fetch is then refused. -/
def localErrorThenCluster : List Event :=
  [.render localTarget 2000 1000000, .timeout 1000500, .render clusterTarget 2000 1000600,
    .settle 0 (.error unreachable) 1000700]

/-- The same switch; here the fetch for the local host resolves with a body, and the debounced
initial fetch of the cluster follows. -/
def localBodyThenCluster : List Event :=
  [.render localTarget 2000 1000000, .timeout 1000500, .render clusterTarget 2000 1000600,
    .settle 0 (.ok localBody) 1000700, .timeout 1001100]

/-- Every fetch in flight was started for a target that was not awaiting a node. -/
def FetchesPolled (h : Hook) : Prop :=
  ∀ r ∈ h.inFlight, awaitingNode r.target = false

/-- The hook at rest under the provider: no announced error is recorded in `lastErrorRef`, the
retry counter is 0, and every fetch in flight was started for a target that was polled. -/
def Settled (h : Hook) : Prop :=
  h.lastError = none ∧ h.retryCount = 0 ∧ FetchesPolled h

/-- The hook between the announcement of a failure and the re-run of the effect that the
announcement causes: the message was announced last, and the retry counter is at most 1. -/
def Announcing (before h : Hook) : Prop :=
  (∃ m, h.deviceErrors = before.deviceErrors ++ [some m] ∧ h.lastError = some m) ∧
    h.retryCount ≤ 1 ∧ FetchesPolled h

/-- Nothing is pending: no timer is armed and no fetch is in flight. -/
def Idle (h : Hook) : Prop :=
  h.timeoutDue = none ∧ h.intervalDue = none ∧ h.inFlight = []

end UseSystemData

/-! ## src/contexts/DashboardContext.jsx -/

namespace DashboardContext

open JS (Val)

/-- The constant `localDevice`. -/
def localDevice : Val :=
  Val.obj [("id", Val.str "local"), ("name", Val.str "Local System"), ("type", Val.str "host"),
    ("address", Val.str "localhost"), ("enabled", Val.bool true)]

/-- The part `state.devices` of the dashboard state. The device list is an object keyed by device
id; its properties are kept in insertion order. -/
structure Devices where
  activeDevice : String
  selectedNode : Val
  error : Val
  list : List (String × Val)

/-- The state of the dashboard reducer. -/
structure State where
  theme : Val
  showSidebar : Bool
  refreshRate : Val
  layout : List (String × Val)
  widgets : List (String × Val)
  devices : Devices

/-- The entry of a widget in `initialState.widgets`. -/
def widget (enabled expanded : Bool) : Val :=
  Val.obj [("enabled", Val.bool enabled), ("expanded", Val.bool expanded)]

/-- The constant `initialState`. -/
def initialState : State where
  theme := Val.str "dark"
  showSidebar := false
  refreshRate := Val.num 1000
  layout := [("mainGrid", Val.num 4),
    ("sections", Val.arr [Val.str "power", Val.str "backup", Val.str "updates",
      Val.str "storage", Val.str "security", Val.str "cpu", Val.str "memory",
      Val.str "network"]),
    ("viewMode", Val.str "card")]
  widgets := [("power", widget true true), ("backup", widget true true),
    ("updates", widget true true), ("storage", widget true true),
    ("security", widget true true), ("cpu", widget true true), ("memory", widget true true),
    ("network", widget true true), ("docker", widget false false),
    ("processes", widget true true)]
  devices := ⟨"local", Val.null, Val.null, [("local", localDevice)]⟩

/-- An action, as the functions of the provider dispatch it: the action type with its payload.
Device and widget ids handed to the provider are strings; the payload of `ADD_DEVICE` and of
`INIT_DEVICES` is an object, given by its properties. `unknown` is an action of any other
type. -/
inductive Action where
  | setTheme (payload : Val)
  | toggleSidebar
  | updateLayout (payload : Val)
  | updateRefreshRate (payload : Val)
  | addWidget (id : String) (config : Val)
  | removeWidget (payload : String)
  | updateWidgetConfig (id : String) (config : Val)
  | toggleViewMode
  | addDevice (payload : List (String × Val))
  | removeDevice (payload : String)
  | setActiveDevice (payload : String)
  | updateDevice (id : String) (updates : Val)
  | setSelectedNode (payload : Val)
  | setDeviceError (payload : Val)
  | initDevices (payload : List (String × Val))
  | unknown

/-- A call on `localStorage`. `setJson key value` is `setItem(key, JSON.stringify(value))`,
recorded with the value that is serialized; `setItem key value` stores the value itself. -/
inductive StorageCall where
  | setJson (key : String) (value : Val)
  | setItem (key : String) (value : Val)
  | removeItem (key : String)

/-- The function `dashboardReducer(state, action)`: the next state and the calls it makes on
`localStorage`, in order. -/
def dashboardReducer (state : State) (action : Action) : State × List StorageCall :=
  match action with
  | .setTheme payload => ({ state with theme := payload }, [])
  | .toggleSidebar => ({ state with showSidebar := !state.showSidebar }, [])
  | .updateLayout payload =>
    let layout := JS.spread state.layout (JS.spreadOf payload)
    ({ state with layout := layout }, [])
  | .updateRefreshRate payload => ({ state with refreshRate := payload }, [])
  | .addWidget id config =>
    let entry := Val.obj (JS.spread [("enabled", Val.bool true), ("expanded", Val.bool false)]
      (JS.spreadOf config))
    ({ state with widgets := JS.setField state.widgets id entry }, [])
  | .removeWidget payload => ({ state with widgets := JS.rest state.widgets payload }, [])
  | .updateWidgetConfig id config =>
    let entry := Val.obj (JS.spread
      (JS.spreadOf ((JS.getField state.widgets id).getD Val.undefined)) (JS.spreadOf config))
    ({ state with widgets := JS.setField state.widgets id entry }, [])
  | .toggleViewMode =>
    let isCard := match JS.getField state.layout "viewMode" with
      | some (Val.str mode) => mode == "card"
      | _ => false
    let viewMode := Val.str (if isCard then "full" else "card")
    ({ state with layout := JS.setField state.layout "viewMode" viewMode }, [])
  | .addDevice payload =>
    let get (k : String) : Val := (JS.getField payload k).getD Val.undefined
    let deviceConfig := Val.obj [("id", get "id"), ("name", get "name"), ("type", get "type"),
      ("address", get "address"), ("enabled", Val.bool true)]
    let stored := [StorageCall.setJson ("device_" ++ JS.toText (get "id")) deviceConfig]
    let auth := if JS.valTruthy (get "authToken") then
        [StorageCall.setItem ("device_" ++ JS.toText (get "id") ++ "_auth") (get "authToken")]
      else []
    let deviceData := JS.rest payload "authToken"
    let key := JS.toText ((JS.getField deviceData "id").getD Val.undefined)
    let list := JS.setField state.devices.list key (Val.obj deviceData)
    ({ state with devices := { state.devices with list := list } }, stored ++ auth)
  | .removeDevice payload =>
    if payload = "local" then (state, [])
    else
      let remainingDevices := JS.rest state.devices.list payload
      let activeDevice :=
        if payload = state.devices.activeDevice then "local" else state.devices.activeDevice
      let selectedNode :=
        if payload = state.devices.activeDevice then Val.null else state.devices.selectedNode
      ({ state with devices := ⟨activeDevice, selectedNode, Val.null, remainingDevices⟩ },
        [StorageCall.removeItem ("device_" ++ payload),
          StorageCall.removeItem ("device_" ++ payload ++ "_auth")])
  | .setActiveDevice payload =>
    let updatedList := JS.setField state.devices.list "local" localDevice
    ({ state with devices := ⟨payload, Val.null, Val.null, updatedList⟩ }, [])
  | .updateDevice id updates =>
    if id = "local" then (state, [])
    else
      let updatedDevice := Val.obj (JS.spread
        (JS.spreadOf ((JS.getField state.devices.list id).getD Val.undefined))
        (JS.spreadOf updates))
      let list := JS.setField state.devices.list id updatedDevice
      ({ state with devices := { state.devices with list := list } },
        [StorageCall.setJson ("device_" ++ id) updatedDevice])
  | .setSelectedNode payload =>
    ({ state with devices := { state.devices with selectedNode := payload, error := Val.null } },
      [])
  | .setDeviceError payload =>
    ({ state with devices := { state.devices with error := payload } }, [])
  | .initDevices payload =>
    let stored := (payload.filter (fun entry => entry.1 != "local")).map
      (fun entry => StorageCall.setJson ("device_" ++ entry.1) entry.2)
    let updatedDevices := JS.setField payload "local" localDevice
    let list := JS.spread state.devices.list updatedDevices
    ({ state with devices := { state.devices with list := list } }, stored)
  | .unknown => (state, [])

/-- A sequence of dispatched actions: the final state and all the calls made on `localStorage`,
in order. -/
def dispatchAll (state : State) (actions : List Action) : State × List StorageCall :=
  actions.foldl (fun acc action =>
    ((dashboardReducer acc.1 action).1, acc.2 ++ (dashboardReducer acc.1 action).2)) (state, [])

/-! ### Vocabulary of the specification for the dashboard state -/

/-- Whether the JSON text of a value has the property `k`. `JSON.stringify` leaves out the
properties of an object whose value is `undefined`. -/
def serializes (value : Val) (k : String) : Bool :=
  match value with
  | .obj fields =>
    match JS.getField fields k with
    | none => false
    | some Val.undefined => false
    | some _ => true
  | _ => false

/-- A persisted descriptor that holds credentials: its JSON text has a `credentials` property or
an `authToken` property. -/
def holdsCredentials (value : Val) : Bool :=
  serializes value "credentials" || serializes value "authToken"

/-- The device list holds the built-in local device under the key `local`. -/
def HoldsLocal (state : State) : Prop :=
  JS.getField state.devices.list "local" = some localDevice

/-! ### Scenarios -/

/-- The payload of `ADD_DEVICE` that `addDevice` of the provider dispatches for a cluster with
the id `pve` and the credentials of a user: the device with the derived header added. -/
def clusterPayload : List (String × Val) :=
  [("id", Val.str "pve"), ("name", Val.str "Cluster"), ("type", Val.str "proxmox"),
    ("address", Val.str "https://10.0.0.5:8006"),
    ("credentials", Val.obj [("username", Val.str "root"), ("password", Val.str "secret"),
      ("realm", Val.str "pam")]),
    ("authToken", Val.str "Basic cm9vdDpzZWNyZXQ=")]

/-- A cluster is added and then given another name. -/
def renameRun : List Action :=
  [.addDevice clusterPayload, .updateDevice "pve" (Val.obj [("name", Val.str "Rack 2")])]

/-- The payload of `ADD_DEVICE` for a virtual machine that is given the id `local`. -/
def spareLocalPayload : List (String × Val) :=
  [("id", Val.str "local"), ("name", Val.str "Spare"), ("type", Val.str "vm"),
    ("address", Val.str "10.0.0.7"), ("authToken", Val.str "")]

end DashboardContext

/-! # Properties -/

namespace DeviceService

/-- A client stored under a key is the client found under that key. -/
theorem clientsGet_clientsSet (clients : List (String × Client)) (key : String) (client : Client) :
    clientsGet (clientsSet clients key client) key = some client := by
  unfold clientsGet clientsSet
  induction clients with
  | nil => simp
  | cons e rest ih =>
    by_cases he : e.1 = key
    · simp [he]
    · by_cases hr : rest.any (fun e => e.1 == key) = true
      · have hr' := hr
        simp only [hr, if_true] at ih
        simp only [List.any_cons, hr', Bool.or_true, if_true, List.map_cons]
        simp [he, List.find?_cons]
        simpa using ih
      · simp only [Bool.not_eq_true] at hr
        simp only [hr] at ih
        simp [he, List.find?_cons, hr]
        simpa using ih

/-- C1: `validateConfig` throws exactly on the malformed descriptors, and on every other
descriptor it returns that descriptor, whose address it has given a scheme when the type is
`proxmox`. -/
theorem validateConfig_fails_iff_malformed (config : Option DeviceConfig) :
    match validateConfig config with
    | .error _ => Malformed config
    | .ok r => ¬ Malformed config ∧ ∃ c, config = some c ∧
        r = { c with address :=
          if c.type = some "proxmox" then c.address.map normalizeAddress else c.address } := by
  cases config with
  | none => simp [validateConfig, Malformed]
  | some c =>
    obtain ⟨id, type, address, node, credentials⟩ := c
    simp only [validateConfig, Malformed]
    by_cases h1 : JS.truthy type = true
    · by_cases h2 : JS.truthy address = true
      · by_cases h4 : type = some "proxmox"
        · cases credentials with
          | none => simp_all
          | some cr =>
            by_cases h5 : JS.truthy cr.tokenId = true <;>
              by_cases h6 : JS.truthy cr.username = true <;>
              by_cases h7 : JS.truthy cr.tokenSecret = true <;>
              by_cases h8 : JS.truthy cr.password = true <;>
              simp_all
        · cases credentials <;> simp_all
      · by_cases h3 : type = some "host"
        · cases credentials <;> simp_all
        · cases credentials <;> simp_all
    · cases credentials <;> simp_all

end DeviceService

namespace DeviceService
/-- C2: for a `proxmox` descriptor with a non-empty address and no credentials, `getMetrics`
throws the validation error `Proxmox credentials are required` and leaves the service untouched:
no client is constructed, no request is sent and no command is run. -/
theorem getMetrics_proxmox_without_credentials (w : World) (s : Service) (c : DeviceConfig)
    (htype : c.type = some "proxmox") (haddr : JS.truthy c.address = true)
    (hcred : c.credentials = none) :
    getMetrics w s (some c) = (.error (JS.Error.new "Proxmox credentials are required"), s) := by
  obtain ⟨id, type, address, node, credentials⟩ := c
  simp only at htype haddr hcred
  subst htype hcred
  have htruthy : JS.truthy (some "proxmox") = true := by decide
  simp [getMetrics, validateConfig, haddr, htruthy]

/-- The descriptor of the scenario without its credentials, in a world that refuses everything. -/
theorem getMetrics_proxmox_without_credentials_witness :
    getMetrics deadWorld {} (some { type := some "proxmox", address := some "10.0.0.5" })
      = (.error (JS.Error.new "Proxmox credentials are required"), {}) :=
  getMetrics_proxmox_without_credentials deadWorld {} _ rfl (by decide) rfl

/-- C3: when a call of `createProxmoxClient` has succeeded, a following call for a descriptor
with the same normalized address and the same identity returns the very same client and leaves
the service as it was, whatever the world would answer: nothing is sent, in particular no ticket
exchange and no probe. -/
theorem createProxmoxClient_second_call_cached (w w' : World) (s s₁ : Service)
    (c₁ c₂ d₁ d₂ : DeviceConfig) (client : Client)
    (hfirst : createProxmoxClient w s (some c₁) = (.ok client, s₁))
    (hv₁ : validateConfig (some c₁) = .ok d₁) (hv₂ : validateConfig (some c₂) = .ok d₂)
    (haddr : d₁.address = d₂.address) (hid : identity d₁ = identity d₂) :
    createProxmoxClient w' s₁ (some c₂) = (.ok client, s₁) := by
  have hkey : clientKey d₂ = clientKey d₁ := by
    unfold clientKey; unfold identity at hid; rw [haddr, hid]
  have hcached : clientsGet s₁.clients (clientKey d₁) = some client := by
    have hstore : ∀ (s0 : Service) (cl : Client),
        probeAndStore w s0 (clientKey d₁) cl = (.ok client, s₁) →
        clientsGet s₁.clients (clientKey d₁) = some client := by
      intro s0 cl h
      unfold probeAndStore at h
      split at h
      · simp at h
      · simp only [Prod.mk.injEq, Except.ok.injEq] at h
        obtain ⟨h1, h2⟩ := h
        subst h1 h2
        exact clientsGet_clientsSet _ _ _
    unfold createProxmoxClient at hfirst
    rw [hv₁] at hfirst
    simp only at hfirst
    split at hfirst
    · next cached hc =>
      simp only [Prod.mk.injEq, Except.ok.injEq] at hfirst
      obtain ⟨h1, h2⟩ := hfirst
      subst h1 h2
      exact hc
    · split at hfirst
      · simp at hfirst
      · split at hfirst
        · exact hstore _ _ hfirst
        · split at hfirst
          · split at hfirst
            · simp at hfirst
            · exact hstore _ _ hfirst
          · exact hstore _ _ hfirst
  unfold createProxmoxClient
  rw [hv₂]
  simp only [hkey, hcached]

/-- The scenario descriptor twice, the second time with the scheme written out and a world that
refuses everything: the client of the first call comes back. -/
theorem createProxmoxClient_second_call_cached_witness :
    createProxmoxClient deadWorld (createProxmoxClient liveWorld {} (some scenarioConfig)).2
        (some { scenarioConfig with address := some "https://10.0.0.5" })
      = (.ok { handle := 0, baseURL := some "https://10.0.0.5",
               authorization := some "PVEAPIToken=u@pam!t=abc" },
          (createProxmoxClient liveWorld {} (some scenarioConfig)).2) :=
  createProxmoxClient_second_call_cached liveWorld deadWorld {} _ scenarioConfig
    { scenarioConfig with address := some "https://10.0.0.5" }
    { scenarioConfig with address := some "https://10.0.0.5" }
    { scenarioConfig with address := some "https://10.0.0.5" } _ (by rfl) (by rfl) (by rfl)
    rfl rfl

/-- The two outcomes of the version probe: the client is stored, or nothing but the trace changes. -/
theorem probeAndStore_spec (w : World) (s : Service) (key : String) (client : Client) :
    (∃ data, w.get s.trace.length client "/api2/json/version" = .ok data ∧
      probeAndStore w s key client = (.ok client,
        { s with trace := s.trace ++ [Effect.httpGet client.baseURL "/api2/json/version" true],
                 clients := clientsSet s.clients key client })) ∨
    (∃ e, (probeAndStore w s key client).1 = .error e ∧
      (probeAndStore w s key client).2 =
        { s with trace := s.trace ++ [Effect.httpGet client.baseURL "/api2/json/version" false] }) := by
  unfold probeAndStore
  split
  · right; exact ⟨_, rfl, rfl⟩
  · next data h => left; exact ⟨data, h, rfl⟩

/-- The two outcomes of the ticket exchange; either way one POST is added to the trace. -/
theorem getProxmoxTicket_spec (w : World) (s : Service) (client : Client) (cr : Credentials) :
    (∃ tk, JS.truthy tk = true ∧ getProxmoxTicket w s client cr = (.ok (JS.render tk),
        { s with trace := s.trace ++
          [Effect.httpPost client.baseURL "/api2/json/access/ticket" true tk] })) ∨
    (∃ e ev, getProxmoxTicket w s client cr = (.error e, { s with trace := s.trace ++ [ev] })) := by
  unfold getProxmoxTicket
  simp only
  split
  · next tk _ =>
    by_cases ht : JS.truthy tk = true
    · left; exact ⟨tk, ht, by simp [ht]⟩
    · right; simp only [ht]; exact ⟨_, _, rfl⟩
  · next e _ =>
    right
    by_cases hm : JS.truthy e.responseMessage = true
    · simp only [hm]; exact ⟨_, _, rfl⟩
    · simp only [hm]; exact ⟨_, _, rfl⟩

/-- C4: when the ticket exchange or the version probe of a call of `createProxmoxClient` fails,
the call throws and the client cache is exactly what it was before the call. -/
theorem createProxmoxClient_failure_keeps_cache (w : World) (s : Service)
    (config : Option DeviceConfig)
    (hfail : ∃ e ∈ newEffects s (createProxmoxClient w s config).2,
      e.failedTicketExchange = true ∨ e.failedProbe = true) :
    (∃ err, (createProxmoxClient w s config).1 = .error err) ∧
      (createProxmoxClient w s config).2.clients = s.clients := by
  have hprobe : ∀ (s0 : Service) (key : String) (cl : Client) (pre : List Effect),
      s0.trace = s.trace ++ pre → s0.clients = s.clients →
      (∀ e ∈ pre, ¬ (e.failedTicketExchange = true ∨ e.failedProbe = true)) →
      (∃ e ∈ newEffects s (probeAndStore w s0 key cl).2,
        e.failedTicketExchange = true ∨ e.failedProbe = true) →
      (∃ err, (probeAndStore w s0 key cl).1 = .error err) ∧
        (probeAndStore w s0 key cl).2.clients = s.clients := by
    intro s0 key cl pre htr hcl hpre hex
    rcases probeAndStore_spec w s0 key cl with ⟨data, _, h⟩ | ⟨e, h1, h2⟩
    · exfalso
      rw [h] at hex
      obtain ⟨e, he, hbad⟩ := hex
      simp only [newEffects, htr, List.append_assoc, List.drop_left, List.mem_append,
        List.mem_singleton] at he
      rcases he with he | he
      · exact hpre e he hbad
      · subst he
        simp [Effect.failedTicketExchange, Effect.failedProbe] at hbad
    · exact ⟨⟨e, h1⟩, by rw [h2]; exact hcl⟩
  unfold createProxmoxClient at hfail ⊢
  split
  · exact ⟨⟨_, rfl⟩, rfl⟩
  · next cfg hv =>
    rw [hv] at hfail
    simp only at hfail ⊢
    split
    · next cached hc =>
      exfalso
      rw [hc] at hfail
      simp [newEffects] at hfail
    · next hc =>
      rw [hc] at hfail
      simp only at hfail
      split
      · exact ⟨⟨_, rfl⟩, rfl⟩
      · next cr hcr =>
        rw [hcr] at hfail
        simp only at hfail
        split
        · next htok =>
          rw [if_pos htok] at hfail
          exact hprobe _ _ _ [Effect.clientCreate cfg.address] rfl rfl
            (by simp [Effect.failedTicketExchange, Effect.failedProbe]) hfail
        · next htok =>
          rw [if_neg htok] at hfail
          split
          · next hpw =>
            rw [if_pos hpw] at hfail
            rcases getProxmoxTicket_spec w
              { s with allocated := s.allocated + 1,
                       trace := s.trace ++ [Effect.clientCreate cfg.address] }
              { handle := s.allocated, baseURL := cfg.address } cr with
              ⟨tk, htk, h⟩ | ⟨e, ev, h⟩
            · rw [h] at hfail ⊢
              simp only at hfail ⊢
              exact hprobe _ _ _ [Effect.clientCreate cfg.address,
                Effect.httpPost cfg.address "/api2/json/access/ticket" true tk] (by simp) rfl
                (by simp [Effect.failedTicketExchange, Effect.failedProbe, htk]) hfail
            · rw [h]
              exact ⟨⟨_, rfl⟩, rfl⟩
          · next hpw =>
            rw [if_neg hpw] at hfail
            exact hprobe _ _ _ [Effect.clientCreate cfg.address] rfl rfl
              (by simp [Effect.failedTicketExchange, Effect.failedProbe]) hfail

/-- A password descriptor in a world that refuses everything: the ticket exchange fails. -/
theorem createProxmoxClient_failure_keeps_cache_witness :
    (∃ e ∈ newEffects {} (createProxmoxClient deadWorld {} (some passwordConfig)).2,
      e.failedTicketExchange = true ∨ e.failedProbe = true) ∧
    (∃ err, (createProxmoxClient deadWorld {} (some passwordConfig)).1 = .error err) ∧
      (createProxmoxClient deadWorld {} (some passwordConfig)).2.clients = [] :=
  ⟨by decide, createProxmoxClient_failure_keeps_cache deadWorld {} (some passwordConfig) (by decide)⟩

end DeviceService

namespace Server

/-- A fresh, populated cache is returned as it is. -/
theorem collectSystemMetrics_hit (h : Host) (s : State) (t t₂ : Int)
    (hm : JS.valTruthy s.metricsCache.data = true) (hfresh : t - s.metricsCache.timestamp < 2000) :
    collectSystemMetrics h t t₂ s = (.ok s.metricsCache.data, s) := by
  simp [collectSystemMetrics, hm, CACHE_DURATION, hfresh]

/-- The power probe only appends to the call log and leaves the metrics cache alone. -/
theorem getCpuPowerInfo_calls (h : Host) (now : Int) (s : State) :
    ∃ extra, (getCpuPowerInfo h now s).2.calls = s.calls ++ extra ∧
      (getCpuPowerInfo h now s).2.metricsCache = s.metricsCache := by
  unfold getCpuPowerInfo
  split
  · exact ⟨[], by simp, rfl⟩
  · exact ⟨_, rfl, rfl⟩

/-- A stale or empty cache: the nine providers are called, and a successful call stores its result. -/
theorem collectSystemMetrics_miss (h : Host) (s : State) (t t₂ : Int)
    (hstale : ¬ (JS.valTruthy s.metricsCache.data = true ∧ t - s.metricsCache.timestamp < 2000)) :
    (∃ extra, (collectSystemMetrics h t t₂ s).2.calls =
        s.calls ++ providers.map (fun p => "si." ++ p) ++ extra) ∧
    ∀ v, (collectSystemMetrics h t t₂ s).1 = .ok v →
      (collectSystemMetrics h t t₂ s).2.metricsCache = { data := v, timestamp := t } ∧
      (JS.prop v "time").bind (fun time => JS.prop time "current") = .ok (JS.Val.num t) := by
  have hcond : (JS.valTruthy s.metricsCache.data &&
      decide (t - s.metricsCache.timestamp < CACHE_DURATION)) = false := by
    simp only [CACHE_DURATION, Bool.and_eq_false_imp, decide_eq_false_iff_not]
    intro h1 h2; exact hstale ⟨h1, h2⟩
  unfold collectSystemMetrics
  simp only [hcond, Bool.false_eq_true, if_false]
  obtain ⟨extra, hcalls, hcache⟩ := getCpuPowerInfo_calls h t₂
    { s with calls := s.calls ++ providers.map (fun p => "si." ++ p) }
  generalize getCpuPowerInfo h t₂
    { s with calls := s.calls ++ providers.map (fun p => "si." ++ p) } = r at hcalls hcache
  obtain ⟨info, s'⟩ := r
  simp only at hcalls hcache ⊢
  split
  · exact ⟨⟨extra, hcalls⟩, by intro v hv; simp at hv⟩
  · split
    · exact ⟨⟨extra, hcalls⟩, by intro v hv; simp at hv⟩
    · refine ⟨⟨extra, hcalls⟩, ?_⟩
      intro v hv
      simp only [Except.ok.injEq] at hv
      subst hv
      refine ⟨rfl, ?_⟩
      simp [JS.prop, JS.getField, bind, Except.bind]

/-- C5: with a populated cache captured at `t₀`, a call of `collectSystemMetrics` at time `t`
returns the cached object without calling any provider exactly when `t - t₀ < 2000`; otherwise
all nine providers are called, and when the call succeeds the cache holds the new object with
timestamp `t` (which is also its `time.current`). -/
theorem collectSystemMetrics_ttl (h : Host) (s : State) (m : JS.Val) (t₀ t t₂ : Int)
    (hcache : s.metricsCache = { data := m, timestamp := t₀ })
    (hpopulated : JS.valTruthy m = true) :
    (((collectSystemMetrics h t t₂ s).1 = .ok m ∧
        (collectSystemMetrics h t t₂ s).2.calls = s.calls) ↔ t - t₀ < 2000) ∧
    (t - t₀ < 2000 → collectSystemMetrics h t t₂ s = (.ok m, s)) ∧
    (¬ t - t₀ < 2000 →
      (∃ extra, (collectSystemMetrics h t t₂ s).2.calls =
        s.calls ++ providers.map (fun p => "si." ++ p) ++ extra) ∧
      ∀ v, (collectSystemMetrics h t t₂ s).1 = .ok v →
        (collectSystemMetrics h t t₂ s).2.metricsCache = { data := v, timestamp := t } ∧
        (JS.prop v "time").bind (fun time => JS.prop time "current") = .ok (JS.Val.num t)) := by
  have hhit : t - t₀ < 2000 → collectSystemMetrics h t t₂ s = (.ok m, s) := by
    intro hlt
    have := collectSystemMetrics_hit h s t t₂ (by rw [hcache]; exact hpopulated)
      (by rw [hcache]; exact hlt)
    rw [this, hcache]
  have hmiss := fun (hge : ¬ t - t₀ < 2000) =>
    collectSystemMetrics_miss h s t t₂ (by rw [hcache]; exact fun hh => hge hh.2)
  refine ⟨⟨?_, fun hlt => by rw [hhit hlt]; exact ⟨rfl, rfl⟩⟩, hhit, hmiss⟩
  rintro ⟨_, hcalls⟩
  by_contra hge
  obtain ⟨⟨extra, hext⟩, _⟩ := hmiss hge
  rw [hext] at hcalls
  have := congrArg List.length hcalls
  simp [providers] at this

/-- The readings of the specification: a hit at 1999 ms, recomputation at 2000 ms and 2001 ms. -/
theorem collectSystemMetrics_ttl_witness :
    (filledAtZero.metricsCache = { data := JS.Val.obj [], timestamp := 0 } ∧
      JS.valTruthy (JS.Val.obj []) = true) ∧
    (collectSystemMetrics quietHost 1999 1999 filledAtZero = (.ok (JS.Val.obj []), filledAtZero)) ∧
    (collectSystemMetrics quietHost 2000 2000 filledAtZero).2.metricsCache.timestamp = 2000 ∧
    (collectSystemMetrics quietHost 2001 2001 filledAtZero).2.metricsCache.timestamp = 2001 :=
  ⟨⟨rfl, rfl⟩,
    (collectSystemMetrics_ttl quietHost filledAtZero (JS.Val.obj []) 0 1999 1999 rfl rfl).2.1
      (by decide),
    by decide, by decide⟩

end Server

namespace UseSystemData

/-- C6, evaluated on `overlapRun`: at the end of the run two fetches are in flight for the same
target `vmB`, and neither of their abort controllers was ever aborted. -/
theorem overlapRun_two_fetches_in_flight :
    (run overlapRun).inFlight =
      [{ id := 1, target := vmB, api := "fetchVMStats", controller := 1 },
       { id := 2, target := vmB, api := "fetchVMStats", controller := 2 }] ∧
    (run overlapRun).aborted = [0, 0] ∧
    (run overlapRun).target = vmB ∧
    (run overlapRun).deviceErrors = [] := by
  decide

end UseSystemData

namespace Server

/-- Where `takeWhile` and `dropWhile` cut a list whose first failing element is known. -/
theorem takeWhile_append_stop {α : Type} (p : α → Bool) (l : List α) (x : α) (r : List α)
    (hl : ∀ a ∈ l, p a = true) (hx : p x = false) :
    (l ++ x :: r).takeWhile p = l ∧ (l ++ x :: r).dropWhile p = x :: r := by
  induction l with
  | nil => simp [List.takeWhile, List.dropWhile, hx]
  | cons a l ih =>
    have ha : p a = true := hl a (List.mem_cons_self _ _)
    have ih' := ih (fun b hb => hl b (List.mem_cons_of_mem _ hb))
    simp [List.takeWhile, List.dropWhile, ha, ih'.1, ih'.2]

/-- The pattern matches the literal followed by an id, an `=` and a secret, with these groups. -/
theorem matchTokenHere_literal (tokenId tokenSecret : List Char)
    (hid : tokenId ≠ []) (hideq : '=' ∉ tokenId)
    (hsec : tokenSecret ≠ []) (hsecl : ∀ c ∈ tokenSecret, isLineTerminator c = false) :
    matchTokenHere (tokenLiteral ++ (tokenId ++ '=' :: tokenSecret)) =
      some (tokenId, tokenSecret) := by
  have hsplit := takeWhile_append_stop (fun c => c != '=') tokenId '=' tokenSecret
    (by intro a ha; simp; rintro rfl; exact hideq ha) (by simp)
  have htake : tokenSecret.takeWhile (fun c => !isLineTerminator c) = tokenSecret := by
    rw [List.takeWhile_eq_self_iff]
    intro c hc; simp [hsecl c hc]
  unfold matchTokenHere
  have hpre : tokenLiteral.isPrefixOf (tokenLiteral ++ (tokenId ++ '=' :: tokenSecret)) = true := by
    rw [List.isPrefixOf_iff_prefix]; exact List.prefix_append _ _
  simp only [hpre, if_true, List.drop_left, hsplit.1, hsplit.2, htake]
  cases tokenId with
  | nil => exact absurd rfl hid
  | cons a l =>
    cases tokenSecret with
    | nil => exact absurd rfl hsec
    | cons b m => simp

end Server

namespace Server

open DeviceService (Credentials)

/-- The head of what `dropWhile` leaves fails the test. -/
theorem dropWhile_head_stop {α : Type} (p : α → Bool) (l : List α) (x : α) (t : List α)
    (h : l.dropWhile p = x :: t) : p x = false := by
  induction l with
  | nil => simp at h
  | cons a l ih =>
    by_cases ha : p a = true
    · simp only [List.dropWhile, ha] at h; exact ih h
    · simp only [Bool.not_eq_true] at ha
      simp only [List.dropWhile, ha, List.cons.injEq] at h
      rw [← h.1]; exact ha

/-- A match at the head decomposes the input as the pattern says. -/
theorem matchTokenHere_sound (input tokenId tokenSecret : List Char)
    (h : matchTokenHere input = some (tokenId, tokenSecret)) :
    ∃ after, input = tokenLiteral ++ (tokenId ++ '=' :: (tokenSecret ++ after)) ∧
      tokenId ≠ [] ∧ '=' ∉ tokenId ∧
      tokenSecret ≠ [] ∧ ∀ c ∈ tokenSecret, isLineTerminator c = false := by
  unfold matchTokenHere at h
  split at h
  · next hpre =>
    simp only at h
    split at h
    · simp at h
    · next x tail hdrop =>
      split at h
      · simp at h
      · next hempty =>
        simp only [Option.some.injEq, Prod.mk.injEq] at h
        obtain ⟨h1, h2⟩ := h
        have hx : x = '=' := by
          have := dropWhile_head_stop _ _ _ _ hdrop
          simpa using this
        subst hx
        rw [List.isPrefixOf_iff_prefix, List.prefix_iff_eq_append] at hpre
        refine ⟨tail.dropWhile (fun c => !isLineTerminator c), ?_, ?_, ?_, ?_, ?_⟩
        · rw [← h1, ← h2, List.takeWhile_append_dropWhile, ← hdrop,
            List.takeWhile_append_dropWhile]
          exact hpre.symm
        · rintro rfl; simp [← h1] at hempty
        · intro hmem
          rw [← h1] at hmem
          have := List.mem_takeWhile_imp hmem
          simp at this
        · rintro rfl; simp [← h2] at hempty
        · intro c hc
          rw [← h2] at hc
          have := List.mem_takeWhile_imp hc
          simpa using this
  · simp at h

/-- A match anywhere decomposes the input as the pattern says. -/
theorem tokenMatch_sound (input tokenId tokenSecret : List Char)
    (h : tokenMatch input = some (tokenId, tokenSecret)) :
    ∃ before after,
      input = before ++ (tokenLiteral ++ (tokenId ++ '=' :: (tokenSecret ++ after))) ∧
      tokenId ≠ [] ∧ '=' ∉ tokenId ∧
      tokenSecret ≠ [] ∧ ∀ c ∈ tokenSecret, isLineTerminator c = false := by
  induction input with
  | nil => simp [tokenMatch] at h
  | cons c cs ih =>
    unfold tokenMatch at h
    split at h
    · next groups hhere =>
      simp only [Option.some.injEq] at h
      subst h
      obtain ⟨after, heq, rest⟩ := matchTokenHere_sound _ _ _ hhere
      exact ⟨[], after, by simpa using heq, rest⟩
    · obtain ⟨before, after, heq, rest⟩ := ih h
      exact ⟨c :: before, after, by simp [heq], rest⟩

/-- A match at the head is the leftmost match. -/
theorem tokenMatch_of_here (input : List Char) (groups : List Char × List Char)
    (h : matchTokenHere input = some groups) : tokenMatch input = some groups := by
  cases input with
  | nil => simp [matchTokenHere, tokenLiteral] at h
  | cons c cs => unfold tokenMatch; rw [h]

/-- C9: the token header the client builds from a non-empty token id without `=` and a non-empty
token secret without a line terminator is `PVEAPIToken=<id>=<secret>`, and
`extractCredentials` reads exactly that pair back from it. -/
theorem extractCredentials_token_round_trip (credentials : Credentials)
    (tokenId tokenSecret : String)
    (hid : credentials.tokenId = some tokenId) (hsecret : credentials.tokenSecret = some tokenSecret)
    (hidne : tokenId ≠ "") (hideq : '=' ∉ tokenId.data)
    (hsecne : tokenSecret ≠ "") (hline : ∀ c ∈ tokenSecret.data, isLineTerminator c = false) :
    SystemApi.authToken (some credentials) =
        .ok ("PVEAPIToken=" ++ tokenId ++ "=" ++ tokenSecret) ∧
    extractCredentials (some ("PVEAPIToken=" ++ tokenId ++ "=" ++ tokenSecret)) =
        some { tokenId := some tokenId, tokenSecret := some tokenSecret } := by
  have hidl : tokenId.data ≠ [] := fun hh => hidne (String.ext hh)
  have hsecl : tokenSecret.data ≠ [] := fun hh => hsecne (String.ext hh)
  constructor
  · simp [SystemApi.authToken, hid, hsecret, JS.truthy, hidne, hsecne, JS.render]
  · have hdata : ("PVEAPIToken=" ++ tokenId ++ "=" ++ tokenSecret).data =
        tokenLiteral ++ (tokenId.data ++ '=' :: tokenSecret.data) := by
      simp [String.data_append, tokenLiteral]
    have hmatch := tokenMatch_of_here _ _
      (matchTokenHere_literal tokenId.data tokenSecret.data hidl hideq hsecl hline)
    have hne : ("PVEAPIToken=" ++ tokenId ++ "=" ++ tokenSecret) ≠ "" := by
      intro hh
      have := congrArg String.data hh
      rw [hdata] at this
      simp [tokenLiteral] at this
    unfold extractCredentials
    simp only [hne, if_false, hdata, hmatch]

/-- The token pair of the scenario descriptor. -/
theorem extractCredentials_token_round_trip_witness :
    SystemApi.authToken (some { tokenId := some "u@pam!t", tokenSecret := some "abc" }) =
        .ok ("PVEAPIToken=" ++ "u@pam!t" ++ "=" ++ "abc") ∧
    extractCredentials (some ("PVEAPIToken=" ++ "u@pam!t" ++ "=" ++ "abc")) =
        some { tokenId := some "u@pam!t", tokenSecret := some "abc" } :=
  extractCredentials_token_round_trip { tokenId := some "u@pam!t", tokenSecret := some "abc" }
    "u@pam!t" "abc" rfl rfl (by decide) (by decide) (by decide) (by decide)

/-- C10: on an absent authorization value, and on one that neither contains the token pattern
nor starts with `Basic ` (such as `garbage`), `extractCredentials` returns `null`; being a
total function, it does not throw. -/
theorem extractCredentials_unrecognized (authHeader : Option String)
    (h : authHeader = none ∨ ∃ header, authHeader = some header ∧
      ¬ ContainsTokenPattern header ∧ JS.startsWith header "Basic " = false) :
    extractCredentials authHeader = none := by
  rcases h with rfl | ⟨header, rfl, hpattern, hbasic⟩
  · rfl
  · unfold extractCredentials
    simp only
    split
    · rfl
    · split
      · next tokenId tokenSecret hm =>
        exfalso
        obtain ⟨before, after, heq, h1, h2, h3, h4⟩ := tokenMatch_sound _ _ _ hm
        exact hpattern ⟨before, tokenId, tokenSecret, after, heq, h1, h2, h3, h4⟩
      · simp [hbasic]

end Server

namespace Node

/-- Every digit of the standard alphabet decodes to its value and is neither `=` nor a space. -/
theorem base64Digit_spec : ∀ n, n < 64 →
    unbase64 (base64Digit n) = some n ∧ base64Digit n ≠ '=' ∧ base64Digit n ≠ ' ' := by
  decide

/-- The decoder reads one digit. -/
theorem base64Decode_digit (n : Nat) (hn : n < 64) (rest : List Char) :
    ((base64Digit n :: rest).takeWhile (fun c => c != '=')).filterMap unbase64 =
      n :: (rest.takeWhile (fun c => c != '=')).filterMap unbase64 := by
  obtain ⟨h1, h2, _⟩ := base64Digit_spec n hn
  have hb : (base64Digit n != '=') = true := by simpa using h2
  rw [List.takeWhile_cons]
  simp only [hb, if_true, List.filterMap_cons, h1]

/-- Decoding the base64 encoding of a list of bytes gives the bytes back. -/
theorem base64Decode_encode (bytes : List Nat) (hbytes : ∀ b ∈ bytes, b < 256) :
    base64Decode (base64Encode bytes) = bytes := by
  unfold base64Decode
  induction bytes using base64Encode.induct with
  | case1 a b c rest ih =>
    have ha : a < 256 := hbytes a (by simp)
    have hb : b < 256 := hbytes b (by simp)
    have hc : c < 256 := hbytes c (by simp)
    have ih' := ih (fun x hx => hbytes x (by simp [hx]))
    unfold base64Encode
    rw [base64Decode_digit _ (by omega), base64Decode_digit _ (by omega),
      base64Decode_digit _ (by omega), base64Decode_digit _ (by omega)]
    unfold sextetsToBytes
    rw [ih']
    congr 1
    · omega
    · congr 1
      · omega
      · congr 1
        omega
  | case2 a b =>
    have ha : a < 256 := hbytes a (by simp)
    have hb : b < 256 := hbytes b (by simp)
    unfold base64Encode
    rw [base64Decode_digit _ (by omega), base64Decode_digit _ (by omega),
      base64Decode_digit _ (by omega)]
    simp only [List.takeWhile, bne_self_eq_false, List.filterMap_nil, sextetsToBytes]
    congr 1
    · omega
    · congr 1
      omega
  | case3 a =>
    have ha : a < 256 := hbytes a (by simp)
    unfold base64Encode
    rw [base64Decode_digit _ (by omega), base64Decode_digit _ (by omega)]
    simp only [List.takeWhile, bne_self_eq_false, List.filterMap_nil, sextetsToBytes]
    congr 1
    omega
  | case4 => simp [base64Encode, sextetsToBytes]

end Node

namespace Node

/-- The code points a character can have. -/
theorem char_range (c : Char) :
    c.toNat < 0xD800 ∨ (0xDFFF < c.toNat ∧ c.toNat < 0x110000) := c.valid

/-- The UTF-8 encoding of a character consists of bytes. -/
theorem utf8EncodeChar_lt (c : Char) : ∀ b ∈ utf8EncodeChar c, b < 256 := by
  have hv := char_range c
  intro b hb
  unfold utf8EncodeChar at hb
  simp only at hb
  split at hb
  · simp at hb; omega
  · split at hb
    · simp at hb; omega
    · split at hb
      · simp at hb; omega
      · simp at hb; omega

/-- The decoder reads one encoded character. -/
theorem utf8Decode_encodeChar (c : Char) (rest : List Nat) :
    utf8Decode (utf8EncodeChar c ++ rest) = c :: utf8Decode rest := by
  have hv := char_range c
  have hback : ∀ n, n = c.toNat → Char.ofNat n = c := by
    intro n hn; rw [hn]; exact Char.ofNat_toNat c
  unfold utf8EncodeChar
  simp only
  by_cases h1 : c.toNat < 0x80
  · simp only [h1, if_true, List.singleton_append]
    rw [utf8Decode.eq_def]
    simp only [h1, if_true]
    rw [hback _ rfl]
  · by_cases h2 : c.toNat < 0x800
    · simp only [h1, h2, if_true, if_false, List.cons_append, List.nil_append]
      rw [utf8Decode.eq_def]
      have e1 : ¬ (0xC0 + c.toNat / 64 < 0x80) := by omega
      have e2 : 0xC2 ≤ 0xC0 + c.toNat / 64 ∧ 0xC0 + c.toNat / 64 ≤ 0xDF := by omega
      have e3 : continuation (0x80 + c.toNat % 64) = true := by
        simp [continuation]; omega
      simp only [e1, e2, e3, if_true, if_false, and_self]
      rw [hback _ (by omega)]
    · by_cases h3 : c.toNat < 0x10000
      · simp only [h1, h2, h3, if_true, if_false, List.cons_append, List.nil_append]
        rw [utf8Decode.eq_def]
        have e1 : ¬ (0xE0 + c.toNat / 4096 < 0x80) := by omega
        have e2 : ¬ (0xC2 ≤ 0xE0 + c.toNat / 4096 ∧ 0xE0 + c.toNat / 4096 ≤ 0xDF) := by omega
        have e3 : 0xE0 ≤ 0xE0 + c.toNat / 4096 ∧ 0xE0 + c.toNat / 4096 ≤ 0xEF := by omega
        have e4 : second3 (0xE0 + c.toNat / 4096) (0x80 + c.toNat / 64 % 64) = true := by
          simp only [second3, Bool.and_eq_true, decide_eq_true_eq]
          constructor
          · split <;> omega
          · split <;> omega
        have e5 : continuation (0x80 + c.toNat % 64) = true := by
          simp [continuation]; omega
        simp only [e1, e2, e3, e4, e5, if_true, if_false, and_self]
        rw [hback _ (by omega)]
      · simp only [h1, h2, h3, if_false, List.cons_append, List.nil_append]
        rw [utf8Decode.eq_def]
        have e1 : ¬ (0xF0 + c.toNat / 262144 < 0x80) := by omega
        have e2 : ¬ (0xC2 ≤ 0xF0 + c.toNat / 262144 ∧ 0xF0 + c.toNat / 262144 ≤ 0xDF) := by
          omega
        have e3 : ¬ (0xE0 ≤ 0xF0 + c.toNat / 262144 ∧ 0xF0 + c.toNat / 262144 ≤ 0xEF) := by
          omega
        have e4 : 0xF0 ≤ 0xF0 + c.toNat / 262144 ∧ 0xF0 + c.toNat / 262144 ≤ 0xF4 := by omega
        have e5 : second4 (0xF0 + c.toNat / 262144) (0x80 + c.toNat / 4096 % 64) = true := by
          simp only [second4, Bool.and_eq_true, decide_eq_true_eq]
          constructor
          · split <;> omega
          · split <;> omega
        have e6 : continuation (0x80 + c.toNat / 64 % 64) = true := by
          simp [continuation]; omega
        have e7 : continuation (0x80 + c.toNat % 64) = true := by
          simp [continuation]; omega
        simp only [e1, e2, e3, e4, e5, e6, e7, if_true, if_false, and_self]
        rw [hback _ (by omega)]

/-- Decoding the UTF-8 encoding of a text gives the text back. -/
theorem utf8Decode_encode (text : List Char) : utf8Decode (utf8Encode text) = text := by
  induction text with
  | nil => simp [utf8Encode, utf8Decode]
  | cons c cs ih =>
    have : utf8Encode (c :: cs) = utf8EncodeChar c ++ utf8Encode cs := by
      simp [utf8Encode, List.flatMap_cons]
    rw [this, utf8Decode_encodeChar, ih]

/-- The UTF-8 encoding of a text consists of bytes. -/
theorem utf8Encode_lt (text : List Char) : ∀ b ∈ utf8Encode text, b < 256 := by
  intro b hb
  simp only [utf8Encode, List.mem_flatMap] at hb
  obtain ⟨c, _, hc⟩ := hb
  exact utf8EncodeChar_lt c b hc

end Node

namespace Node

/-- A base64 encoding contains no space. -/
theorem base64Encode_no_space (bytes : List Nat) (hbytes : ∀ b ∈ bytes, b < 256) :
    ' ' ∉ base64Encode bytes := by
  induction bytes using base64Encode.induct with
  | case1 a b c rest ih =>
    have ha : a < 256 := hbytes a (by simp)
    have hb : b < 256 := hbytes b (by simp)
    have hc : c < 256 := hbytes c (by simp)
    have ih' := ih (fun x hx => hbytes x (by simp [hx]))
    unfold base64Encode
    simp only [List.mem_cons, not_or]
    exact ⟨Ne.symm (base64Digit_spec _ (by omega)).2.2,
      Ne.symm (base64Digit_spec _ (by omega)).2.2,
      Ne.symm (base64Digit_spec _ (by omega)).2.2,
      Ne.symm (base64Digit_spec _ (by omega)).2.2, ih'⟩
  | case2 a b =>
    have ha : a < 256 := hbytes a (by simp)
    have hb : b < 256 := hbytes b (by simp)
    unfold base64Encode
    simp only [List.mem_cons, not_or, List.mem_nil_iff, not_false_eq_true, and_true]
    exact ⟨Ne.symm (base64Digit_spec _ (by omega)).2.2,
      Ne.symm (base64Digit_spec _ (by omega)).2.2,
      Ne.symm (base64Digit_spec _ (by omega)).2.2, by decide⟩
  | case3 a =>
    have ha : a < 256 := hbytes a (by simp)
    unfold base64Encode
    simp only [List.mem_cons, not_or, List.mem_nil_iff, not_false_eq_true, and_true]
    exact ⟨Ne.symm (base64Digit_spec _ (by omega)).2.2,
      Ne.symm (base64Digit_spec _ (by omega)).2.2, by decide, by decide⟩
  | case4 => simp [base64Encode]

/-- The search for the first `=` passes over a digit. -/
theorem dropWhile_digit (n : Nat) (hn : n < 64) (rest : List Char) :
    (base64Digit n :: rest).dropWhile (fun c => c != '=') =
      rest.dropWhile (fun c => c != '=') := by
  have hb : (base64Digit n != '=') = true := by simpa using (base64Digit_spec n hn).2.1
  rw [List.dropWhile_cons]
  simp only [hb, if_true]

/-- In a base64 encoding nothing but `=` follows the first `=`. -/
theorem base64Encode_padding (bytes : List Nat) (hbytes : ∀ b ∈ bytes, b < 256) :
    ∀ x ∈ (base64Encode bytes).dropWhile (fun c => c != '='), x = '=' := by
  induction bytes using base64Encode.induct with
  | case1 a b c rest ih =>
    have ha : a < 256 := hbytes a (by simp)
    have hb : b < 256 := hbytes b (by simp)
    have hc : c < 256 := hbytes c (by simp)
    have ih' := ih (fun x hx => hbytes x (by simp [hx]))
    unfold base64Encode
    rw [dropWhile_digit _ (by omega), dropWhile_digit _ (by omega),
      dropWhile_digit _ (by omega), dropWhile_digit _ (by omega)]
    exact ih'
  | case2 a b =>
    have ha : a < 256 := hbytes a (by simp)
    have hb : b < 256 := hbytes b (by simp)
    unfold base64Encode
    rw [dropWhile_digit _ (by omega), dropWhile_digit _ (by omega),
      dropWhile_digit _ (by omega)]
    simp [List.dropWhile]
  | case3 a =>
    have ha : a < 256 := hbytes a (by simp)
    unfold base64Encode
    rw [dropWhile_digit _ (by omega), dropWhile_digit _ (by omega)]
    simp [List.dropWhile]
  | case4 => simp [base64Encode]

end Node

namespace JS

/-- A text without the separator is a single piece. -/
theorem splitChars_no_sep (sep : Char) (l : List Char) (h : sep ∉ l) :
    splitChars sep l = [l] := by
  induction l with
  | nil => rfl
  | cons c cs ih =>
    have hc : c ≠ sep := fun e => h (by simp [e])
    have ih' := ih (fun hm => h (List.mem_cons_of_mem _ hm))
    simp [splitChars, hc, ih']

/-- The first piece of a text ends at the first separator. -/
theorem splitChars_append (sep : Char) (a b : List Char) (h : sep ∉ a) :
    splitChars sep (a ++ sep :: b) = a :: splitChars sep b := by
  induction a with
  | nil => simp [splitChars]
  | cons c cs ih =>
    have hc : c ≠ sep := fun e => h (by simp [e])
    have ih' := ih (fun hm => h (List.mem_cons_of_mem _ hm))
    simp [splitChars, hc, ih']

end JS

namespace Server

/-- What follows an `=` is part of what follows the first `=`. -/
theorem mem_dropWhile_after (front : List Char) (back : List Char) (x : Char) (hx : x ∈ back) :
    x ∈ (front ++ '=' :: back).dropWhile (fun c => c != '=') := by
  induction front with
  | nil => simp [List.dropWhile, hx]
  | cons a front ih =>
    rw [List.cons_append, List.dropWhile_cons]
    split
    · exact ih
    · simp [hx]

/-- The token pattern does not match a text in which only `=` follows the first `=`. -/
theorem tokenMatch_padded (input : List Char)
    (hpad : ∀ x ∈ input.dropWhile (fun c => c != '='), x = '=') :
    tokenMatch input = none := by
  cases hm : tokenMatch input with
  | none => rfl
  | some groups =>
    exfalso
    obtain ⟨tokenId, tokenSecret⟩ := groups
    obtain ⟨before, after, heq, hne, hnoeq, _, _⟩ := tokenMatch_sound _ _ _ hm
    cases tokenId with
    | nil => exact hne rfl
    | cons c cs =>
      have hlit : tokenLiteral = "PVEAPIToken".data ++ ['='] := by decide
      have hmem : c ∈ input.dropWhile (fun c => c != '=') := by
        rw [heq, hlit]
        have := mem_dropWhile_after (before ++ "PVEAPIToken".data)
          (c :: cs ++ '=' :: (tokenSecret ++ after)) c (by simp)
        simpa [List.append_assoc] using this
      have := hpad c hmem
      exact hnoeq (by simp [this])

end Server

namespace Server

open DeviceService (Credentials)

/-- C8: for a username and a password without `:`, `extractCredentials` applied to `Basic `
followed by the base64 encoding of `username:password` returns the username, the password and
the realm `pam`. -/
theorem extractCredentials_basic (username password : String)
    (husername : ':' ∉ username.data) (hpassword : ':' ∉ password.data) :
    extractCredentials (some (basicHeader username password)) =
      some { username := some username, password := some password, realm := some "pam" } := by
  have hbytes := Node.utf8Encode_lt (username ++ ":" ++ password).data
  have hdata : (basicHeader username password).data =
      "Basic".data ++ ' ' :: Node.base64Encode
        (Node.utf8Encode (username ++ ":" ++ password).data) := by
    simp [basicHeader, String.data_append]
  have hne : basicHeader username password ≠ "" := by
    intro hh
    have := congrArg String.data hh
    rw [hdata] at this
    simp at this
  have hnomatch : tokenMatch (basicHeader username password).data = none := by
    apply tokenMatch_padded
    rw [hdata]
    have : ("Basic".data ++ ' ' :: Node.base64Encode
        (Node.utf8Encode (username ++ ":" ++ password).data)).dropWhile (fun c => c != '=') =
        (Node.base64Encode
          (Node.utf8Encode (username ++ ":" ++ password).data)).dropWhile (fun c => c != '=') := by
      simp [List.dropWhile]
    rw [this]
    exact Node.base64Encode_padding _ hbytes
  have hstarts : JS.startsWith (basicHeader username password) "Basic " = true := by
    unfold JS.startsWith
    rw [hdata, List.isPrefixOf_iff_prefix]
    exact ⟨Node.base64Encode (Node.utf8Encode (username ++ ":" ++ password).data), by simp⟩
  have hsplit : JS.split (basicHeader username password) ' ' =
      ["Basic", String.mk (Node.base64Encode
        (Node.utf8Encode (username ++ ":" ++ password).data))] := by
    unfold JS.split
    rw [hdata, JS.splitChars_append _ _ _ (by decide),
      JS.splitChars_no_sep _ _ (Node.base64Encode_no_space _ hbytes)]
    rfl
  have hdecoded : String.mk (Node.utf8Decode (Node.base64Decode
      (Node.base64Encode (Node.utf8Encode (username ++ ":" ++ password).data)))) =
      username ++ ":" ++ password := by
    rw [Node.base64Decode_encode _ hbytes, Node.utf8Decode_encode]
  have hparts : JS.split (username ++ ":" ++ password) ':' = [username, password] := by
    unfold JS.split
    have : (username ++ ":" ++ password).data = username.data ++ ':' :: password.data := by
      simp [String.data_append]
    rw [this, JS.splitChars_append _ _ _ husername, JS.splitChars_no_sep _ _ hpassword]
    rfl
  unfold extractCredentials
  simp only [hne, if_false, hnomatch, hstarts, if_true]
  rw [hsplit]
  simp only [List.get?]
  rw [hdecoded, hparts]
  simp only [List.get?]

/-- The scenario of the specification: alice and secret. -/
theorem extractCredentials_basic_witness :
    basicHeader "alice" "secret" = "Basic YWxpY2U6c2VjcmV0" ∧
    extractCredentials (some (basicHeader "alice" "secret")) =
      some { username := some "alice", password := some "secret", realm := some "pam" } :=
  ⟨by decide, extractCredentials_basic "alice" "secret" (by decide) (by decide)⟩

/-- The scenario of the specification: the header `garbage`. -/
theorem extractCredentials_unrecognized_witness :
    (¬ ContainsTokenPattern "garbage" ∧ JS.startsWith "garbage" "Basic " = false) ∧
    extractCredentials (some "garbage") = none := by
  have hno : ¬ ContainsTokenPattern "garbage" := by
    rintro ⟨before, tokenId, tokenSecret, after, heq, _, _, _, _⟩
    have := congrArg List.length heq
    simp [tokenLiteral] at this
    omega
  exact ⟨⟨hno, by decide⟩,
    extractCredentials_unrecognized (some "garbage") (Or.inr ⟨"garbage", rfl, hno, by decide⟩)⟩

end Server

namespace UseSystemData

/-- The error path leaves the fetches in flight alone and clears `updateInProgressRef`. -/
theorem onError_inFlight (h : Hook) (t : Target) (msg : String) :
    (onError h t msg).inFlight = h.inFlight ∧ (onError h t msg).updateInProgress = false := by
  unfold onError
  simp only
  repeat' split
  all_goals simp

/-- The success path leaves the fetches in flight alone and clears `updateInProgressRef`. -/
theorem onSuccess_inFlight (h : Hook) (data : JS.Val) (now : Int) :
    (onSuccess h data now).inFlight = h.inFlight ∧
      (onSuccess h data now).updateInProgress = false := by
  unfold onSuccess
  simp only
  repeat' split
  all_goals simp

/-- A call of `updateData` keeps the fetches exclusive. -/
theorem updateData_exclusive (h : Hook) (now : Int) (hx : Exclusive h) :
    Exclusive (updateData h now) := by
  unfold updateData
  split
  · exact hx
  · next hprog =>
    have hempty : h.inFlight = [] := hx.2 (by simpa using hprog)
    split
    · exact hx
    · split
      · split
        · exact ⟨hx.1, fun hp => hx.2 hp⟩
        · exact hx
      · simp only
        split
        · simp [Exclusive, hempty]
        · split
          · simp [Exclusive, hempty]
          · split
            · have := onError_inFlight
                { h with aborted := h.aborted ++ h.abortController.toList,
                         abortController := some h.started, updateInProgress := true,
                         started := h.started + 1 } h.target "Device address is not configured"
              simp only at this
              constructor
              · rw [this.1, hempty]; simp
              · intro _; rw [this.1, hempty]
            · simp [Exclusive, hempty]

/-- The settling of a fetch keeps the fetches exclusive. -/
theorem settle_exclusive (h : Hook) (id : Nat) (outcome : Except String JS.Val) (now : Int)
    (hx : Exclusive h) : Exclusive (settle h id outcome now) := by
  unfold settle
  split
  · exact hx
  · next r hfind =>
    have hmem := List.mem_of_find?_eq_some hfind
    have hid := List.find?_some hfind
    have hone : h.inFlight = [r] := by
      have hlen := hx.1
      match hl : h.inFlight, hmem, hlen with
      | [a], hmem, _ => simp at hmem; rw [hmem]
      | [], hmem, _ => simp at hmem
      | _ :: _ :: _, _, hlen => simp at hlen
    have hfilter : h.inFlight.filter (fun r => r.id != id) = [] := by
      rw [hone]
      simp at hid
      simp [List.filter, hid]
    simp only
    split
    · next data _ =>
      have hin := (onSuccess_inFlight
        { h with inFlight := h.inFlight.filter (fun r => r.id != id) } data now).1.trans hfilter
      exact ⟨by rw [hin]; simp, fun _ => hin⟩
    · next msg _ =>
      have hin := (onError_inFlight
        { h with inFlight := h.inFlight.filter (fun r => r.id != id) } r.target msg).1.trans
          hfilter
      exact ⟨by rw [hin]; simp, fun _ => hin⟩

/-- Every event other than a render keeps the fetches exclusive. -/
theorem step_exclusive (h : Hook) (e : Event) (he : e.keepsEffect = true) (hx : Exclusive h) :
    Exclusive (step h e) := by
  cases e with
  | render _ _ _ => simp [Event.keepsEffect] at he
  | timeout now =>
    simp only [step]
    split
    · exact hx
    · split
      · exact hx
      · split
        · exact updateData_exclusive _ _ ⟨hx.1, hx.2⟩
        · exact hx
  | tick now =>
    simp only [step]
    split
    · exact hx
    · split
      · exact hx
      · split
        · split
          · exact updateData_exclusive _ _ ⟨hx.1, hx.2⟩
          · exact ⟨hx.1, hx.2⟩
        · exact hx
  | settle id outcome now =>
    simp only [step]
    split
    · exact hx
    · exact settle_exclusive _ _ _ _ ⟨hx.1, hx.2⟩

/-- The effect body does not touch the fetches in flight. -/
theorem effect_inFlight (h : Hook) (target : Target) (interval now : Int) :
    (effect h target interval now).inFlight = h.inFlight := by
  unfold effect
  simp only
  repeat' split
  all_goals rfl

/-- While one effect stays live (no switch of target, no re-run), at most one fetch is in
flight. -/
theorem single_effect_exclusive (target : Target) (interval now : Int) (events : List Event)
    (hkeep : ∀ e ∈ events, e.keepsEffect = true) :
    (run (Event.render target interval now :: events)).inFlight.length ≤ 1 := by
  have hgen : ∀ (events : List Event) (h : Hook), (∀ e ∈ events, e.keepsEffect = true) →
      Exclusive h → Exclusive (events.foldl step h) := by
    intro events
    induction events with
    | nil => intro h _ hx; exact hx
    | cons e es ih =>
      intro h hk hx
      exact ih _ (fun e' he' => hk e' (List.mem_cons_of_mem _ he'))
        (step_exclusive h e (hk e (List.mem_cons_self _ _)) hx)
  have hbase : Exclusive (step {} (Event.render target interval now)) := by
    simp only [step]
    split
    · exact ⟨by simp, fun _ => rfl⟩
    · have := effect_inFlight (cleanup { ({} : Hook) with now := now }) target interval now
      exact ⟨by rw [this]; simp [cleanup], fun _ => this.trans rfl⟩
  exact (hgen events _ hkeep hbase).1

/-- Evaluation of `exhaustedRerun`: when the effect re-runs after every announced error, the retry
counter never passes 1 and a fifth fetch is started after four refusals. -/
theorem exhaustedRerun_keeps_polling :
    (run exhaustedRerun).started = 5 ∧
    (run exhaustedRerun).retryCount = 0 ∧
    (run exhaustedRerun).inFlight =
      [{ id := 4, target := vmA, api := "fetchVMStats", controller := 4 }] ∧
    (run (exhaustedRerun.take 15)).retryCount = 1 := by
  decide

end UseSystemData

namespace JS

/-- A split never gives an empty list of pieces. -/
theorem splitChars_ne_nil (sep : Char) (l : List Char) : splitChars sep l ≠ [] := by
  cases l with
  | nil => simp [splitChars]
  | cons c cs =>
    unfold splitChars
    split
    · simp
    · split <;> simp

end JS

namespace Server

open DeviceService (Credentials)

/-- C11, evaluated on `Basic !!!` and `Basic YWxpY2U=`: a payload that is not base64 and a
payload whose decoded text (`alice`) has no `:` both give a record, not `null`. The decoder does
not throw, so the `catch` block that returns `null` is never entered, and nothing looks for the
delimiter. -/
theorem extractCredentials_malformed_basic_not_null :
    extractCredentials (some "Basic !!!") =
      some { username := some "", password := none, realm := some "pam" } ∧
    extractCredentials (some "Basic YWxpY2U=") =
      some { username := some "alice", password := none, realm := some "pam" } ∧
    extractCredentials (some "Basic !!!") ≠ none := by
  decide

/-- The second piece of a header that starts with `Basic ` exists. -/
theorem basic_payload_exists (header : String) (hbasic : JS.startsWith header "Basic " = true) :
    ∃ payload, (JS.split header ' ').get? 1 = some payload := by
  unfold JS.startsWith at hbasic
  rw [List.isPrefixOf_iff_prefix] at hbasic
  obtain ⟨rest, hrest⟩ := hbasic
  have hdata : header.data = "Basic".data ++ ' ' :: rest := by rw [← hrest]; rfl
  unfold JS.split
  rw [hdata, JS.splitChars_append _ _ _ (by decide)]
  cases hs : JS.splitChars ' ' rest with
  | nil => exact absurd hs (JS.splitChars_ne_nil _ _)
  | cons p ps => exact ⟨String.mk p, rfl⟩

/-- What the `Basic` branch computes on any header: on a header that starts with `Basic ` and
does not contain the token pattern, the result is a record with the realm `pam`; the payload is
decoded leniently, the username is the decoded text up to its first `:`, and when the decoded
text has no `:` the username is the whole decoded text and the password is absent. -/
theorem extractCredentials_basic_lenient (header : String)
    (hbasic : JS.startsWith header "Basic " = true) (hpattern : ¬ ContainsTokenPattern header) :
    ∃ payload username, (JS.split header ' ').get? 1 = some payload ∧
      (JS.split (String.mk (Node.utf8Decode (Node.base64Decode payload.data))) ':').get? 0 =
        some username ∧
      extractCredentials (some header) = some
        { username := some username,
          password :=
            (JS.split (String.mk (Node.utf8Decode (Node.base64Decode payload.data))) ':').get? 1,
          realm := some "pam" } ∧
      (':' ∉ Node.utf8Decode (Node.base64Decode payload.data) →
        username = String.mk (Node.utf8Decode (Node.base64Decode payload.data)) ∧
        (JS.split (String.mk (Node.utf8Decode (Node.base64Decode payload.data))) ':').get? 1 =
          none) := by
  obtain ⟨payload, hpayload⟩ := basic_payload_exists header hbasic
  have hne : header ≠ "" := by
    rintro rfl
    simp [JS.startsWith] at hbasic
  have hnomatch : tokenMatch header.data = none := by
    cases hm : tokenMatch header.data with
    | none => rfl
    | some groups =>
      exfalso
      obtain ⟨tokenId, tokenSecret⟩ := groups
      obtain ⟨before, after, heq, h1, h2, h3, h4⟩ := tokenMatch_sound _ _ _ hm
      exact hpattern ⟨before, tokenId, tokenSecret, after, heq, h1, h2, h3, h4⟩
  refine ⟨payload, ?_⟩
  generalize hdec : Node.utf8Decode (Node.base64Decode payload.data) = decoded
  have hparts : ∃ p ps, JS.splitChars ':' decoded = p :: ps := by
    cases hs : JS.splitChars ':' decoded with
    | nil => exact absurd hs (JS.splitChars_ne_nil _ _)
    | cons p ps => exact ⟨p, ps, rfl⟩
  obtain ⟨p, ps, hps⟩ := hparts
  refine ⟨String.mk p, hpayload, ?_, ?_, ?_⟩
  · simp [JS.split, hps]
  · unfold extractCredentials
    simp only [hne, if_false, hnomatch, hbasic, if_true, hpayload, hdec]
    simp [JS.split, hps]
  · intro hno
    have := JS.splitChars_no_sep ':' decoded hno
    rw [hps] at this
    simp only [List.cons.injEq] at this
    obtain ⟨h1, h2⟩ := this
    subst h1 h2
    simp [JS.split, hps]

/-- The header `Basic YWxpY2U=` (alice, no delimiter). -/
theorem extractCredentials_basic_lenient_witness :
    ∃ payload username, (JS.split "Basic YWxpY2U=" ' ').get? 1 = some payload ∧
      (JS.split (String.mk (Node.utf8Decode (Node.base64Decode payload.data))) ':').get? 0 =
        some username ∧
      extractCredentials (some "Basic YWxpY2U=") = some
        { username := some username,
          password :=
            (JS.split (String.mk (Node.utf8Decode (Node.base64Decode payload.data))) ':').get? 1,
          realm := some "pam" } ∧
      (':' ∉ Node.utf8Decode (Node.base64Decode payload.data) →
        username = String.mk (Node.utf8Decode (Node.base64Decode payload.data)) ∧
        (JS.split (String.mk (Node.utf8Decode (Node.base64Decode payload.data))) ':').get? 1 =
          none) :=
  extractCredentials_basic_lenient "Basic YWxpY2U=" (by decide) (by
    rintro ⟨before, tokenId, tokenSecret, after, heq, h1, _, h3, _⟩
    have := congrArg List.length heq
    have := List.length_pos.mpr h1
    have := List.length_pos.mpr h3
    simp [tokenLiteral] at *
    omega)

end Server

namespace DeviceService

/-- What a successful `validateConfig` returns: the descriptor, with the address rewritten when
the type is `proxmox`; in that case the credentials are present and the address is not empty. -/
theorem validateConfig_ok (c d : DeviceConfig) (hv : validateConfig (some c) = .ok d) :
    d = { c with address :=
      if c.type = some "proxmox" then c.address.map normalizeAddress else c.address } ∧
    JS.truthy c.type = true ∧
    (c.type = some "proxmox" → JS.truthy c.address = true ∧ c.credentials ≠ none) := by
  obtain ⟨id, type, address, node, credentials⟩ := c
  simp only [validateConfig] at hv
  by_cases h1 : JS.truthy type = true
  · by_cases h4 : type = some "proxmox"
    · by_cases h2 : JS.truthy address = true
      · cases credentials with
        | none => simp_all
        | some cr =>
          by_cases h5 : JS.truthy cr.tokenId = true <;>
            by_cases h6 : JS.truthy cr.username = true <;>
            by_cases h7 : JS.truthy cr.tokenSecret = true <;>
            by_cases h8 : JS.truthy cr.password = true <;>
            simp_all
      · simp_all
    · by_cases h2 : JS.truthy address = true
      · simp_all
      · by_cases h3 : type = some "host"
        · simp_all
        · simp_all
  · simp_all

/-- A version probe adds one GET to the trace, so no POST when there was none before. -/
theorem probeAndStore_no_post (w : World) (s0 s : Service) (key : String) (client : Client)
    (pre : List Effect) (htrace : s.trace = s0.trace ++ pre)
    (hpre : ∀ e ∈ pre, e.isPost = false) :
    ∀ e ∈ newEffects s0 (probeAndStore w s key client).2, e.isPost = false := by
  intro e he
  rcases probeAndStore_spec w s key client with ⟨_, _, h⟩ | ⟨_, _, h⟩
  all_goals
    rw [h] at he
    simp only [newEffects, htrace, List.append_assoc, List.drop_left, List.mem_append,
      List.mem_singleton] at he
    rcases he with he | rfl
    · exact hpre e he
    · rfl

/-- A version probe that succeeds returns the client it was given and stores it under the
key. -/
theorem probeAndStore_ok (w : World) (s : Service) (key : String) (client result : Client)
    (h : (probeAndStore w s key client).1 = .ok result) :
    result = client ∧ clientsGet (probeAndStore w s key client).2.clients key = some client := by
  rcases probeAndStore_spec w s key client with ⟨_, _, h'⟩ | ⟨e, he, _⟩
  · rw [h'] at h ⊢
    simp only [Except.ok.injEq] at h
    exact ⟨h.symm, clientsGet_clientsSet _ _ _⟩
  · rw [he] at h
    simp at h

/-- C12: for a cluster descriptor whose credentials name a token id, a token secret, a username
and a password, all non-empty, `createProxmoxClient` looks the client up under
`<address>-<tokenId>`, sends no POST (no ticket exchange), and a client it builds and returns
carries the header `PVEAPIToken=<tokenId>=<tokenSecret>` and no cookie and is stored under that
key; the header the browser side builds is the same token form. -/
theorem createProxmoxClient_token_precedence (w : World) (s : Service) (c : DeviceConfig)
    (cr : Credentials) (tokenId tokenSecret username password : String)
    (htype : c.type = some "proxmox") (haddr : JS.truthy c.address = true)
    (hcr : c.credentials = some cr)
    (hid : cr.tokenId = some tokenId) (hsecret : cr.tokenSecret = some tokenSecret)
    (huser : cr.username = some username) (hpass : cr.password = some password)
    (hidne : tokenId ≠ "") (hsecne : tokenSecret ≠ "")
    (huserne : username ≠ "") (hpassne : password ≠ "") :
    (∀ e ∈ newEffects s (createProxmoxClient w s (some c)).2, e.isPost = false) ∧
    (match clientsGet s.clients
        (JS.render (c.address.map normalizeAddress) ++ "-" ++ tokenId) with
      | some cached => createProxmoxClient w s (some c) = (.ok cached, s)
      | none => ∀ client, (createProxmoxClient w s (some c)).1 = .ok client →
          client.authorization = some ("PVEAPIToken=" ++ tokenId ++ "=" ++ tokenSecret) ∧
          client.cookie = none ∧
          clientsGet (createProxmoxClient w s (some c)).2.clients
            (JS.render (c.address.map normalizeAddress) ++ "-" ++ tokenId) = some client) ∧
    SystemApi.authToken (some cr) = .ok ("PVEAPIToken=" ++ tokenId ++ "=" ++ tokenSecret) := by
  obtain ⟨id, type, address, node, credentials⟩ := c
  simp only at htype haddr hcr
  subst htype hcr
  have ht : JS.truthy (some "proxmox") = true := by decide
  have h1 : JS.truthy cr.tokenId = true := by simp [hid, JS.truthy, hidne]
  have h2 : JS.truthy cr.tokenSecret = true := by simp [hsecret, JS.truthy, hsecne]
  have h3 : JS.truthy cr.username = true := by simp [huser, JS.truthy, huserne]
  have h4 : JS.truthy cr.password = true := by simp [hpass, JS.truthy, hpassne]
  have h1' : JS.truthy (some tokenId) = true := by rw [← hid]; exact h1
  have h2' : JS.truthy (some tokenSecret) = true := by rw [← hsecret]; exact h2
  have hv : validateConfig (some ⟨id, some "proxmox", address, node, some cr⟩) =
      .ok ⟨id, some "proxmox", address.map normalizeAddress, node, some cr⟩ := by
    simp [validateConfig, ht, haddr, h1, h2, h3, h4]
  have hkey : clientKey ⟨id, some "proxmox", address.map normalizeAddress, node, some cr⟩ =
      JS.render (address.map normalizeAddress) ++ "-" ++ tokenId := by
    simp [clientKey, JS.orElse, h1', hid, JS.render]
  refine ⟨?_, ?_, ?_⟩
  · unfold createProxmoxClient
    rw [hv]
    simp only [hkey]
    split
    · simp [newEffects]
    · simp only [h1, h2, Bool.and_self, if_true]
      exact probeAndStore_no_post w s _ _ _ [Effect.clientCreate _] rfl
        (by simp [Effect.isPost])
  · unfold createProxmoxClient
    rw [hv]
    simp only [hkey]
    split
    · next cached hc => simp [hc]
    · next hc =>
      simp only [hc, h1, h2, Bool.and_self, if_true]
      intro client hclient
      obtain ⟨heq, hstored⟩ := probeAndStore_ok w _ _ _ _ hclient
      subst heq
      exact ⟨by simp [hid, hsecret, JS.render], rfl, hstored⟩
  · simp [SystemApi.authToken, h1', h2', hid, hsecret, JS.render]

/-- The descriptor with both forms in a world that answers: the token header, and no POST. -/
theorem createProxmoxClient_token_precedence_witness :
    (∀ e ∈ newEffects {} (createProxmoxClient liveWorld {} (some bothFormsConfig)).2,
      e.isPost = false) ∧
    (createProxmoxClient liveWorld {} (some bothFormsConfig)).1 =
      .ok { handle := 0, baseURL := some "https://10.0.0.5",
            authorization := some "PVEAPIToken=u@pam!t=abc" } ∧
    SystemApi.authToken bothFormsConfig.credentials = .ok "PVEAPIToken=u@pam!t=abc" :=
  ⟨(createProxmoxClient_token_precedence liveWorld {} bothFormsConfig _ "u@pam!t" "abc" "alice"
      "secret" rfl (by decide) rfl rfl rfl rfl rfl (by decide) (by decide) (by decide)
      (by decide)).1, by rfl, by rfl⟩

/-- C13, evaluated on `httpbinConfig`: the descriptor passes `validateConfig` and its address
comes back as it was, although it begins with neither `http://` nor `https://`. -/
theorem validateConfig_httpbin_keeps_address :
    validateConfig (some httpbinConfig) = .ok httpbinConfig ∧
    httpbinConfig.address = some "httpbin.local:8006" ∧
    JS.startsWith "httpbin.local:8006" "http://" = false ∧
    JS.startsWith "httpbin.local:8006" "https://" = false :=
  ⟨rfl, rfl, by decide, by decide⟩

/-- What `validateConfig` does to the address of a cluster descriptor: it is kept when it begins
with the letters `http`, and gets `https://` in front otherwise. -/
theorem validateConfig_cluster_address (c d : DeviceConfig) (htype : c.type = some "proxmox")
    (hv : validateConfig (some c) = .ok d) :
    ∃ address, c.address = some address ∧
      d.address = some (if JS.startsWith address "http" then address else "https://" ++ address) := by
  obtain ⟨h, _, hp⟩ := validateConfig_ok c d hv
  rw [if_pos htype] at h
  cases ha : c.address with
  | none =>
    have := (hp htype).1
    rw [ha] at this
    simp [JS.truthy] at this
  | some address =>
    refine ⟨address, rfl, ?_⟩
    rw [h, ha]
    simp [normalizeAddress]

end DeviceService

namespace DeviceService

/-- The overview of a cluster, when it succeeds, is an object with `nodes` and `resources`. -/
theorem clusterOverview_shape (w : World) (s s' : Service) (client : Client) (v : JS.Val)
    (h : clusterOverview w s client = (.ok v, s')) :
    ∃ nodes resources,
      v = JS.Val.obj [("nodes", JS.Val.arr nodes), ("resources", JS.Val.arr resources)] := by
  unfold clusterOverview at h
  split at h
  · simp at h
  · split at h
    · simp at h
    · split at h
      · simp at h
      · simp only [Prod.mk.injEq, Except.ok.injEq] at h
        exact ⟨_, _, h.1.symm⟩

/-- The details of a node, when the call succeeds, are an object with `node`, `status`,
`rrddata`, `vms` and `containers`. -/
theorem nodeDetails_shape (w : World) (s s' : Service) (client : Client) (node : String)
    (v : JS.Val) (h : nodeDetails w s client node = (.ok v, s')) :
    ∃ status rrddata vms containers,
      v = JS.Val.obj [("node", JS.Val.str node), ("status", status), ("rrddata", rrddata),
        ("vms", vms), ("containers", containers)] := by
  unfold nodeDetails at h
  simp only at h
  split at h
  · simp at h
  · split at h
    · simp only [Prod.mk.injEq, Except.ok.injEq] at h
      exact ⟨_, _, _, _, h.1.symm⟩
    all_goals simp at h

/-- The two shapes of what `executeProxmoxCommand` returns. -/
theorem executeProxmoxCommand_shape (w : World) (s s' : Service) (c : DeviceConfig) (v : JS.Val)
    (h : executeProxmoxCommand w s (some c) = (.ok v, s')) :
    (JS.truthy c.node = false → ∃ nodes resources,
      v = JS.Val.obj [("nodes", JS.Val.arr nodes), ("resources", JS.Val.arr resources)]) ∧
    (JS.truthy c.node = true → ∃ status rrddata vms containers,
      v = JS.Val.obj [("node", JS.ofOption c.node), ("status", status), ("rrddata", rrddata),
        ("vms", vms), ("containers", containers)]) := by
  unfold executeProxmoxCommand at h
  split at h
  · simp at h
  · next d hv =>
    have hnode : d.node = c.node := by
      rw [(validateConfig_ok c d hv).1]
    split at h
    · simp at h
    · split at h
      · simp at h
      · split at h
        · next hn =>
          split at h
          · simp at h
          · next data s2 hov =>
            simp only [Prod.mk.injEq, Except.ok.injEq] at h
            obtain ⟨hd, _⟩ := h
            subst hd
            rw [hnode] at hn
            refine ⟨fun _ => clusterOverview_shape _ _ _ _ _ hov, fun ht => ?_⟩
            simp [ht] at hn
        · next hn =>
          split at h
          · simp at h
          · next data s2 hdet =>
            simp only [Prod.mk.injEq, Except.ok.injEq] at h
            obtain ⟨hd, _⟩ := h
            subst hd
            rw [hnode] at hn
            refine ⟨fun hf => ?_, fun _ => ?_⟩
            · simp [hf] at hn
            · obtain ⟨st, rrd, vms, cts, hshape⟩ := nodeDetails_shape _ _ _ _ _ _ hdet
              refine ⟨st, rrd, vms, cts, ?_⟩
              rw [hshape, hnode]
              cases hc : c.node with
              | none => rw [hc] at hn; simp [JS.truthy] at hn
              | some n => rfl

/-- C14: when the collection for a cluster descriptor succeeds, the envelope is, without a
requested node, exactly `{type: 'proxmox', nodes, resources}` and, with a requested node,
exactly `{type: 'proxmox', node, status, rrddata, vms, containers}` with `node` the requested
one; so the first has no `node`, `status` or `rrddata` and the second no `nodes` or
`resources`. -/
theorem getMetrics_cluster_envelope (w : World) (s s' : Service) (c : DeviceConfig) (v : JS.Val)
    (htype : c.type = some "proxmox") (h : getMetrics w s (some c) = (.ok v, s')) :
    (JS.truthy c.node = false → ∃ nodes resources,
      v = JS.Val.obj [("type", JS.Val.str "proxmox"), ("nodes", JS.Val.arr nodes),
        ("resources", JS.Val.arr resources)]) ∧
    (JS.truthy c.node = true → ∃ status rrddata vms containers,
      v = JS.Val.obj [("type", JS.Val.str "proxmox"), ("node", JS.ofOption c.node),
        ("status", status), ("rrddata", rrddata), ("vms", vms), ("containers", containers)]) := by
  unfold getMetrics at h
  split at h
  · split at h <;> simp at h
  · next d hv =>
    obtain ⟨hd, _, _⟩ := validateConfig_ok c d hv
    have hdt : d.type = some "proxmox" := by rw [hd]; exact htype
    have hdn : d.node = c.node := by rw [hd]
    rw [if_pos hdt] at h
    unfold getProxmoxMetrics at h
    split at h
    · simp at h
    · next d2 hv2 =>
      have hd2n : d2.node = c.node := by rw [(validateConfig_ok d d2 hv2).1]; exact hdn
      split at h
      · simp at h
      · next data s2 hex =>
        simp only [Prod.mk.injEq, Except.ok.injEq] at h
        obtain ⟨hvv, _⟩ := h
        subst hvv
        obtain ⟨h1, h2⟩ := executeProxmoxCommand_shape _ _ _ _ _ hex
        rw [hd2n] at h1 h2
        constructor
        · intro hf
          obtain ⟨nodes, resources, hshape⟩ := h1 hf
          exact ⟨nodes, resources, by rw [hshape]; simp [tagged, JS.spread, JS.setField]⟩
        · intro ht
          obtain ⟨st, rrd, vms, cts, hshape⟩ := h2 ht
          exact ⟨st, rrd, vms, cts, by rw [hshape]; simp [tagged, JS.spread, JS.setField]⟩

/-- The two scenarios of the specification, on the cluster of `pveWorld`. Without a node the
collection succeeds with the node list and the inventory of `pve1`; with the node `pve1` it
succeeds with the status, the time series, the virtual machines and the containers of that
node. -/
theorem getMetrics_cluster_envelope_witness :
    (getMetrics pveWorld {} (some scenarioConfig)).1 =
      .ok (JS.Val.obj [("type", JS.Val.str "proxmox"),
        ("nodes", JS.Val.arr [JS.Val.obj [("node", JS.Val.str "pve1")]]),
        ("resources", JS.Val.arr [JS.Val.obj [("node", JS.Val.str "pve1"),
          ("vms", JS.Val.arr [JS.Val.obj [("vmid", JS.Val.num 100)]]),
          ("containers", JS.Val.arr [])]])]) ∧
    (∃ nodes resources,
      JS.Val.obj [("type", JS.Val.str "proxmox"),
        ("nodes", JS.Val.arr [JS.Val.obj [("node", JS.Val.str "pve1")]]),
        ("resources", JS.Val.arr [JS.Val.obj [("node", JS.Val.str "pve1"),
          ("vms", JS.Val.arr [JS.Val.obj [("vmid", JS.Val.num 100)]]),
          ("containers", JS.Val.arr [])]])] =
      JS.Val.obj [("type", JS.Val.str "proxmox"), ("nodes", JS.Val.arr nodes),
        ("resources", JS.Val.arr resources)]) ∧
    (getMetrics pveWorld {} (some scenarioNodeConfig)).1 =
      .ok (JS.Val.obj [("type", JS.Val.str "proxmox"), ("node", JS.Val.str "pve1"),
        ("status", JS.Val.obj [("uptime", JS.Val.num 86400)]),
        ("rrddata", JS.Val.arr [JS.Val.obj [("cpu", JS.Val.num 3)]]),
        ("vms", JS.Val.arr [JS.Val.obj [("vmid", JS.Val.num 100)]]),
        ("containers", JS.Val.arr [])]) ∧
    (∃ status rrddata vms containers,
      JS.Val.obj [("type", JS.Val.str "proxmox"), ("node", JS.Val.str "pve1"),
        ("status", JS.Val.obj [("uptime", JS.Val.num 86400)]),
        ("rrddata", JS.Val.arr [JS.Val.obj [("cpu", JS.Val.num 3)]]),
        ("vms", JS.Val.arr [JS.Val.obj [("vmid", JS.Val.num 100)]]),
        ("containers", JS.Val.arr [])] =
      JS.Val.obj [("type", JS.Val.str "proxmox"), ("node", JS.ofOption scenarioNodeConfig.node),
        ("status", status), ("rrddata", rrddata), ("vms", vms), ("containers", containers)]) :=
  ⟨by rfl,
    (getMetrics_cluster_envelope pveWorld {} (getMetrics pveWorld {} (some scenarioConfig)).2
      scenarioConfig _ rfl (by rfl)).1 (by decide),
    by rfl,
    (getMetrics_cluster_envelope pveWorld {} (getMetrics pveWorld {} (some scenarioNodeConfig)).2
      scenarioNodeConfig _ rfl (by rfl)).2 (by decide)⟩

end DeviceService

namespace DeviceService

/-- A `Promise.all` of two members resolves when both resolved and rejects otherwise. -/
theorem promiseAll_pair {α : Type} (w : World) (t : Nat) (a b : Except JS.Error α) :
    (∃ x y, a = .ok x ∧ b = .ok y ∧ promiseAll w t [a, b] = .ok [x, y]) ∨
    (∃ e, promiseAll w t [a, b] = .error e ∧ (a = .error e ∨ b = .error e)) := by
  cases a with
  | ok x =>
    cases b with
    | ok y => left; exact ⟨x, y, rfl, rfl, by simp [promiseAll]⟩
    | error e => right; exact ⟨e, by simp [promiseAll, Nat.mod_one], Or.inr rfl⟩
  | error e =>
    cases b with
    | ok y => right; exact ⟨e, by simp [promiseAll, Nat.mod_one], Or.inl rfl⟩
    | error e' =>
      right
      rcases Nat.mod_two_eq_zero_or_one (w.race t) with h | h
      · exact ⟨e, by simp [promiseAll, h], Or.inl rfl⟩
      · exact ⟨e', by simp [promiseAll, h], Or.inr rfl⟩

/-- What one GET returns and leaves behind. -/
theorem httpGet_spec (w : World) (s : Service) (client : Client) (path : String) :
    (httpGet w s client path).1 = w.get s.trace.length client path ∧
    (httpGet w s client path).2.trace.length = s.trace.length + 1 := by
  unfold httpGet
  split <;> simp_all

/-- The entry `nodeResources` builds for a node is the one the specification prescribes for the
answers to its two requests, which are the next two effects. -/
theorem nodeResources_entry (w : World) (s : Service) (client : Client) (node : JS.Val) :
    EntryFor node (w.get s.trace.length client (qemuPath w node))
      (w.get (s.trace.length + 1) client (lxcPath w node))
      (nodeResources w s client node).1 ∧
    (nodeResources w s client node).2.trace.length = s.trace.length + 2 := by
  have h1 := httpGet_spec w s client (qemuPath w node)
  have h2 := httpGet_spec w (httpGet w s client (qemuPath w node)).2 client
    (lxcPath w node)
  rw [h1.2] at h2
  unfold nodeResources
  simp only [qemuPath, lxcPath] at h1 h2 ⊢
  generalize httpGet w s client _ = r1 at h1 h2 ⊢
  obtain ⟨vms, s1⟩ := r1
  simp only at h1 h2 ⊢
  generalize httpGet w s1 client _ = r2 at h2 ⊢
  obtain ⟨containers, s2⟩ := r2
  simp only at h2 ⊢
  rw [← h1.1, ← h2.1]
  unfold EntryFor readable
  rcases promiseAll_pair w s.trace.length vms containers with
    ⟨x, y, hx, hy, hp⟩ | ⟨e, hp, he⟩
  · subst hx hy
    rw [hp]
    simp only [Except.bind, bind]
    cases hpx : payload x with
    | error e1 => simp [hpx, h2.2]
    | ok v =>
      cases hpy : payload y with
      | error e2 => simp [hpx, hpy, h2.2]
      | ok c => simp [hpx, hpy, h2.2]
  · rw [hp]
    rcases he with rfl | rfl
    · simp [Except.bind, bind, h2.2]
    · cases vms with
      | error e1 => simp [Except.bind, bind, h2.2]
      | ok x => cases hpx : payload x <;> simp [Except.bind, bind, hpx, h2.2]

end DeviceService

namespace DeviceService

/-- A `mapM` over a list of results that are all `ok` is `ok`. -/
theorem mapM_ok_of_forall {α β : Type} (f : α → Except JS.Error β) (l : List α)
    (h : ∀ a ∈ l, ∃ b, f a = .ok b) : ∃ bs, l.mapM f = .ok bs := by
  induction l with
  | nil => exact ⟨[], rfl⟩
  | cons a l ih =>
    obtain ⟨b, hb⟩ := h a (List.mem_cons_self _ _)
    obtain ⟨bs, hbs⟩ := ih (fun x hx => h x (List.mem_cons_of_mem _ hx))
    refine ⟨b :: bs, ?_⟩
    rw [List.mapM_cons, hb, hbs]
    rfl

/-- The fan-out gives one entry per node, in order, each the prescribed one for the answers to
that node's two requests. -/
theorem allNodeResources_entries (w : World) (client : Client) :
    ∀ (nodes : List JS.Val) (s : Service),
      List.Forall₂ (fun node entry => ∃ t,
        EntryFor node (w.get t client (qemuPath w node)) (w.get (t + 1) client (lxcPath w node))
          entry) nodes (allNodeResources w client s nodes).1 := by
  intro nodes
  induction nodes with
  | nil => intro s; simp [allNodeResources]
  | cons node nodes ih =>
    intro s
    have hentry := (nodeResources_entry w s client node).1
    have hrest := ih (nodeResources w s client node).2
    have hunfold : (allNodeResources w client s (node :: nodes)).1 =
        (nodeResources w s client node).1 ::
          (allNodeResources w client (nodeResources w s client node).2 nodes).1 := by
      rw [allNodeResources]
    rw [hunfold]
    exact List.Forall₂.cons ⟨_, hentry⟩ hrest

/-- C15: once the node list has been enumerated (the request resolved with an array whose
entries have a readable `node`), the overview succeeds whatever happens to the per-node
requests; `resources` has one entry per node, in order, carrying that node's `node`; the entry
is `{node, error, vms: [], containers: []}` when an inventory of the node could not be fetched
and `{node, vms, containers}`, without `error`, when both could. -/
theorem clusterOverview_partial_failures (w : World) (s : Service) (client : Client)
    (data : JS.Val) (nodes : List JS.Val)
    (hget : w.get s.trace.length client "/api2/json/nodes" = .ok data)
    (hnodes : payload data = .ok (JS.Val.arr nodes))
    (hreadable : ∀ n ∈ nodes, ∃ name, JS.prop n "node" = .ok name) :
    ∃ resources s',
      clusterOverview w s client =
        (.ok (JS.Val.obj [("nodes", JS.Val.arr nodes), ("resources", JS.Val.arr resources)]),
          s') ∧
      resources.length = nodes.length ∧
      List.Forall₂ (fun node entry => ∃ t,
        EntryFor node (w.get t client (qemuPath w node)) (w.get (t + 1) client (lxcPath w node))
          entry) nodes resources := by
  obtain ⟨names, hnames⟩ := mapM_ok_of_forall (fun n => JS.prop n "node") nodes hreadable
  have hall := allNodeResources_entries w client nodes
    { s with trace := s.trace ++ [Effect.httpGet client.baseURL "/api2/json/nodes" true] }
  refine ⟨(allNodeResources w client
    { s with trace := s.trace ++ [Effect.httpGet client.baseURL "/api2/json/nodes" true] }
    nodes).1, (allNodeResources w client
    { s with trace := s.trace ++ [Effect.httpGet client.baseURL "/api2/json/nodes" true] }
    nodes).2, ?_, hall.length_eq.symm, hall⟩
  unfold clusterOverview
  simp only [httpGet, hget, hnodes, bind, Except.bind, JS.asArray, hnames]

/-- Two nodes, the inventories of the second refused: the call succeeds with one entry of each
kind. -/
theorem clusterOverview_partial_failures_witness :
    (clusterOverview halfDeadWorld {} someClient).1 =
      .ok (JS.Val.obj [
        ("nodes", JS.Val.arr [JS.Val.obj [("node", JS.Val.str "pve1")],
          JS.Val.obj [("node", JS.Val.str "pve2")]]),
        ("resources", JS.Val.arr [
          JS.Val.obj [("node", JS.Val.str "pve1"), ("vms", JS.Val.arr []),
            ("containers", JS.Val.arr [])],
          JS.Val.obj [("node", JS.Val.str "pve2"),
            ("error", JS.Val.str "timeout of 10000ms exceeded"), ("vms", JS.Val.arr []),
            ("containers", JS.Val.arr [])]])]) ∧
    ∃ resources s',
      clusterOverview halfDeadWorld {} someClient =
        (.ok (JS.Val.obj [("nodes", JS.Val.arr [JS.Val.obj [("node", JS.Val.str "pve1")],
          JS.Val.obj [("node", JS.Val.str "pve2")]]), ("resources", JS.Val.arr resources)]),
          s') ∧
      resources.length = 2 :=
  ⟨by rfl, by
    obtain ⟨resources, s', h1, h2, _⟩ := clusterOverview_partial_failures halfDeadWorld {}
      someClient _ [JS.Val.obj [("node", JS.Val.str "pve1")],
        JS.Val.obj [("node", JS.Val.str "pve2")]] rfl rfl (by
        intro n hn
        simp only [List.mem_cons, List.mem_singleton, List.mem_nil_iff, or_false] at hn
        rcases hn with rfl | rfl <;> exact ⟨_, rfl⟩)
    exact ⟨resources, s', h1, h2⟩⟩

end DeviceService

namespace JS

/-- Replacing the value of one property does not change what is found under another name. -/
theorem find_replace_ne (fields : List (String × Val)) (k' : String) (v : Val) (k : String)
    (h : k' ≠ k) :
    (fields.map (fun f => if f.1 == k' then (k', v) else f)).find? (fun f => f.1 == k) =
      fields.find? (fun f => f.1 == k) := by
  induction fields with
  | nil => rfl
  | cons f fs ih =>
    rw [List.map_cons, List.find?_cons, List.find?_cons, ih]
    have hk1 : ((k' == k) = false) := by simpa using h
    by_cases hf : (f.1 == k') = true
    · have e1 : f.1 = k' := by simpa using hf
      have hk2 : ((f.1 == k) = false) := by rw [e1]; exact hk1
      simp only [hf, if_true, hk1, hk2]
    · simp only [Bool.not_eq_true] at hf
      simp only [hf, Bool.false_eq_true, if_false]

/-- Writing a property leaves the other properties as they were. -/
theorem getField_setField_ne (fields : List (String × Val)) (k' : String) (v : Val) (k : String)
    (h : k' ≠ k) : getField (setField fields k' v) k = getField fields k := by
  unfold setField getField
  split
  · rw [find_replace_ne _ _ _ _ h]
  · have hk' : ((k' == k) = false) := by simpa using h
    simp [List.find?_append, List.find?_cons, hk']

/-- A spread of properties with other names leaves a property as it was. -/
theorem getField_spread (src fields : List (String × Val)) (k : String)
    (h : ∀ f ∈ src, f.1 ≠ k) : getField (spread fields src) k = getField fields k := by
  unfold spread
  induction src generalizing fields with
  | nil => rfl
  | cons f fs ih =>
    simp only [List.foldl_cons]
    rw [ih _ (fun g hg => h g (List.mem_cons_of_mem _ hg)),
      getField_setField_ne _ _ _ _ (h f (List.mem_cons_self _ _))]

/-- The decimal digits of a number are not the letter `t`. -/
theorem toDigitsCore_no_t : ∀ (fuel n : Nat) (acc : List Char), 't' ∉ acc →
    't' ∉ Nat.toDigitsCore 10 fuel n acc := by
  intro fuel
  induction fuel with
  | zero => intro n acc h; simpa [Nat.toDigitsCore] using h
  | succ fuel ih =>
    intro n acc h
    have hdigit : ∀ m, m < 10 → Nat.digitChar m ≠ 't' := by decide
    have hd : 't' ∉ Nat.digitChar (n % 10) :: acc := by
      simp only [List.mem_cons, not_or]
      exact ⟨Ne.symm (hdigit _ (Nat.mod_lt _ (by decide))), h⟩
    simp only [Nat.toDigitsCore]
    split
    · exact hd
    · exact ih _ _ hd

/-- The index names of a spread string are not `type`. -/
theorem spreadString_keys (text : String) : ∀ f ∈ spreadString text, f.1 ≠ "type" := by
  intro f hf
  simp only [spreadString, List.mem_map] at hf
  obtain ⟨ic, _, rfl⟩ := hf
  intro heq
  simp only at heq
  have hmem : 't' ∈ (toString ic.1).data := by rw [heq]; decide
  have hno : 't' ∉ (toString ic.1).data := toDigitsCore_no_t _ _ [] (by simp)
  exact hno hmem

end JS

namespace DeviceService

/-- The envelope of the remote-VM collector is tagged `vm`. -/
theorem getVMMetrics_tag (w : World) (s s' : Service) (host : Option String) (v : JS.Val)
    (h : getVMMetrics w s host = (.ok v, s')) :
    ∃ fields, v = JS.Val.obj fields ∧ JS.getField fields "type" = some (JS.Val.str "vm") := by
  unfold getVMMetrics at h
  simp only at h
  split at h
  · simp only [Prod.mk.injEq, Except.ok.injEq] at h
    exact ⟨_, h.1.symm, by simp [JS.getField]⟩
  · simp at h
  · simp at h

/-- The envelope of the Docker collector is tagged `docker`. -/
theorem getDockerMetrics_tag (w : World) (s s' : Service) (host : Option String) (v : JS.Val)
    (h : getDockerMetrics w s host = (.ok v, s')) :
    ∃ fields, v = JS.Val.obj fields ∧ JS.getField fields "type" = some (JS.Val.str "docker") := by
  unfold getDockerMetrics at h
  simp only at h
  split at h
  · split at h
    · simp at h
    · split at h
      · simp at h
      · simp only [Prod.mk.injEq, Except.ok.injEq] at h
        exact ⟨_, h.1.symm, by simp [JS.getField]⟩
  · simp at h
  · simp at h

/-- The envelope of the local collector is tagged `host`. -/
theorem getLocalMetrics_tag (w : World) (s s' : Service) (v : JS.Val)
    (h : getLocalMetrics w s = (.ok v, s')) :
    ∃ fields, v = JS.Val.obj fields ∧ JS.getField fields "type" = some (JS.Val.str "host") := by
  unfold getLocalMetrics at h
  simp only at h
  split at h
  · simp only [Prod.mk.injEq, Except.ok.injEq] at h
    exact ⟨_, h.1.symm, by simp [JS.getField]⟩
  · simp at h
  · simp at h

/-- The envelope of the LXC collector is tagged `lxc`, whatever text is spread into it. -/
theorem getLXCMetrics_tag (w : World) (s s' : Service) (host : Option String) (v : JS.Val)
    (h : getLXCMetrics w s host = (.ok v, s')) :
    ∃ fields, v = JS.Val.obj fields ∧ JS.getField fields "type" = some (JS.Val.str "lxc") := by
  unfold getLXCMetrics at h
  split at h
  · simp at h
  · next metrics s2 _ =>
    simp only [Prod.mk.injEq, Except.ok.injEq] at h
    refine ⟨_, h.1.symm, ?_⟩
    rw [JS.getField_spread _ _ _ (JS.spreadString_keys metrics)]
    simp [JS.getField]

/-- The envelope of the cluster collector is tagged `proxmox`. -/
theorem getProxmoxMetrics_tag (w : World) (s s' : Service) (c : DeviceConfig) (v : JS.Val)
    (h : getProxmoxMetrics w s (some c) = (.ok v, s')) :
    ∃ fields, v = JS.Val.obj fields ∧ JS.getField fields "type" = some (JS.Val.str "proxmox") := by
  unfold getProxmoxMetrics at h
  split at h
  · simp at h
  · next d hv =>
    split at h
    · simp at h
    · next data s2 hex =>
      simp only [Prod.mk.injEq, Except.ok.injEq] at h
      obtain ⟨hvv, _⟩ := h
      subst hvv
      obtain ⟨h1, h2⟩ := executeProxmoxCommand_shape _ _ _ _ _ hex
      by_cases hn : JS.truthy d.node = true
      · obtain ⟨st, rrd, vms, cts, hshape⟩ := h2 hn
        rw [hshape]
        exact ⟨_, rfl, by simp [JS.spread, JS.setField, JS.getField]⟩
      · simp only [Bool.not_eq_true] at hn
        obtain ⟨nodes, resources, hshape⟩ := h1 hn
        rw [hshape]
        exact ⟨_, rfl, by simp [JS.spread, JS.setField, JS.getField]⟩

/-- C16, the claim refuted: for a descriptor of type `host` with a remote address the envelope
is tagged `vm`. -/
theorem getMetrics_remote_host_tagged_vm :
    (getMetrics liveWorld {} (some remoteHostConfig)).1 =
      .ok (JS.Val.obj [("type", JS.Val.str "vm"), ("cpu", JS.Val.str ""),
        ("memory", JS.Val.str ""), ("disk", JS.Val.str ""), ("network", JS.Val.str "")]) ∧
    remoteHostConfig.type = some "host" :=
  ⟨by rfl, rfl⟩

/-- C16 as amended: the type tag of the envelope names the collector that ran; it is the
descriptor's type for `proxmox`, `vm`, `lxc` and `docker`, and for `host` and every other type
it is `host` when the address is exactly `localhost` and `vm` otherwise. -/
theorem getMetrics_tag (w : World) (s s' : Service) (c : DeviceConfig) (v : JS.Val)
    (h : getMetrics w s (some c) = (.ok v, s')) :
    ∃ fields, v = JS.Val.obj fields ∧
      JS.getField fields "type" = some (JS.Val.str (collectorTag c)) := by
  unfold getMetrics at h
  split at h
  · simp at h
  · next d hv =>
    obtain ⟨hd, _, _⟩ := validateConfig_ok c d hv
    have hty : d.type = c.type := by rw [hd]
    have had : c.type ≠ some "proxmox" → d.address = c.address := by
      intro hne; rw [hd]; simp [hne]
    unfold collectorTag
    rw [hty] at h
    by_cases h1 : c.type = some "proxmox"
    · rw [if_pos h1] at h ⊢
      exact getProxmoxMetrics_tag _ _ _ _ _ h
    · rw [if_neg h1] at h ⊢
      rw [had h1] at h
      by_cases h2 : c.type = some "vm"
      · rw [if_pos h2] at h ⊢
        exact getVMMetrics_tag _ _ _ _ _ h
      · rw [if_neg h2] at h ⊢
        by_cases h3 : c.type = some "lxc"
        · rw [if_pos h3] at h ⊢
          exact getLXCMetrics_tag _ _ _ _ _ h
        · rw [if_neg h3] at h ⊢
          by_cases h4 : c.type = some "docker"
          · rw [if_pos h4] at h ⊢
            exact getDockerMetrics_tag _ _ _ _ _ h
          · rw [if_neg h4] at h ⊢
            by_cases h5 : c.address = some "localhost"
            · rw [if_pos h5] at h ⊢
              exact getLocalMetrics_tag _ _ _ _ h
            · rw [if_neg h5] at h ⊢
              exact getVMMetrics_tag _ _ _ _ _ h

/-- The remote host of the counterexample: its envelope is tagged `vm`. -/
theorem getMetrics_tag_witness :
    ∃ fields, JS.Val.obj [("type", JS.Val.str "vm"), ("cpu", JS.Val.str ""),
        ("memory", JS.Val.str ""), ("disk", JS.Val.str ""), ("network", JS.Val.str "")] =
        JS.Val.obj fields ∧
      JS.getField fields "type" = some (JS.Val.str (collectorTag remoteHostConfig)) :=
  getMetrics_tag liveWorld {} (getMetrics liveWorld {} (some remoteHostConfig)).2
    remoteHostConfig _ (by rfl)

end DeviceService

namespace DeviceService

/-- A remote command adds one `exec` of its command line to the trace. -/
theorem executeRemoteCommand_trace (w : World) (s : Service) (host : Option String)
    (command : String) :
    ∃ resolved, (executeRemoteCommand w s host command).2.trace =
      s.trace ++ [Effect.exec (sshCommand host command) resolved] := by
  unfold executeRemoteCommand execAsync sshCommand
  cases w.exec s.trace.length ("ssh " ++ JS.render host ++ " '" ++ command ++ "'") with
  | ok out => exact ⟨true, rfl⟩
  | error e => exact ⟨false, rfl⟩

/-- A Docker command adds one `exec` of its command line to the trace. -/
theorem executeDockerCommand_trace (w : World) (s : Service) (host : Option String)
    (command : String) :
    ∃ resolved, (executeDockerCommand w s host command).2.trace =
      s.trace ++ [Effect.exec (dockerCommand host command) resolved] := by
  unfold executeDockerCommand execAsync dockerCommand
  simp only
  cases w.exec s.trace.length (if host = some "localhost" then "docker " ++ command
      else "ssh " ++ JS.render host ++ " 'docker " ++ command ++ "'") with
  | ok out => exact ⟨true, rfl⟩
  | error e => exact ⟨false, rfl⟩

/-- A telemetry call adds one `telemetry` effect to the trace. -/
theorem telemetry_trace (w : World) (s : Service) (probe : String) :
    ∃ resolved, (telemetry w s probe).2.trace = s.trace ++ [Effect.telemetry probe resolved] := by
  unfold telemetry
  cases w.si s.trace.length probe with
  | ok out => exact ⟨true, rfl⟩
  | error e => exact ⟨false, rfl⟩

/-- The state the remote-VM collector ends in is the state after its fourth probe. -/
theorem getVMMetrics_state (w : World) (s : Service) (host : Option String) :
    (getVMMetrics w s host).2 =
      (executeRemoteCommand w (executeRemoteCommand w (executeRemoteCommand w
        (executeRemoteCommand w s host "top -bn1 | grep 'Cpu(s)'").2 host "free -m").2 host
        "df -h").2 host "netstat -i").2 := by
  unfold getVMMetrics
  simp only
  split <;> rfl

/-- The remote-VM collector runs its four probes and nothing else. -/
theorem getVMMetrics_effects (w : World) (s : Service) (host : Option String) :
    Runs (newEffects s (getVMMetrics w s host).2) (vmProbes.map (sshCommand host)) := by
  rw [getVMMetrics_state]
  obtain ⟨b1, h1⟩ := executeRemoteCommand_trace w s host "top -bn1 | grep 'Cpu(s)'"
  obtain ⟨b2, h2⟩ := executeRemoteCommand_trace w
    (executeRemoteCommand w s host "top -bn1 | grep 'Cpu(s)'").2 host "free -m"
  obtain ⟨b3, h3⟩ := executeRemoteCommand_trace w (executeRemoteCommand w
    (executeRemoteCommand w s host "top -bn1 | grep 'Cpu(s)'").2 host "free -m").2 host "df -h"
  obtain ⟨b4, h4⟩ := executeRemoteCommand_trace w (executeRemoteCommand w (executeRemoteCommand w
    (executeRemoteCommand w s host "top -bn1 | grep 'Cpu(s)'").2 host "free -m").2 host
    "df -h").2 host "netstat -i"
  unfold newEffects Runs
  rw [h4, h3, h2, h1]
  simp only [List.append_assoc, List.drop_left, vmProbes, List.map, List.cons_append,
    List.nil_append]
  exact .cons ⟨b1, rfl⟩ (.cons ⟨b2, rfl⟩ (.cons ⟨b3, rfl⟩ (.cons ⟨b4, rfl⟩ .nil)))

/-- The LXC collector runs its one probe and nothing else. -/
theorem getLXCMetrics_effects (w : World) (s : Service) (host : Option String) :
    Runs (newEffects s (getLXCMetrics w s host).2) [sshCommand host (lxcCommand host)] := by
  obtain ⟨b, h⟩ := executeRemoteCommand_trace w s host (lxcCommand host)
  have hstate : (getLXCMetrics w s host).2 =
      (executeRemoteCommand w s host (lxcCommand host)).2 := by
    unfold getLXCMetrics
    split <;> simp_all
  unfold newEffects Runs
  rw [hstate, h]
  simp only [List.drop_left]
  exact .cons ⟨b, rfl⟩ .nil

/-- The state the Docker collector ends in is the state after its second probe. -/
theorem getDockerMetrics_state (w : World) (s : Service) (host : Option String) :
    (getDockerMetrics w s host).2 =
      (executeDockerCommand w (executeDockerCommand w s host
        "ps -a --format \"\x7b\x7bjson .\x7d\x7d\"").2 host
        "stats --no-stream --format \"\x7b\x7bjson .\x7d\x7d\"").2 := by
  unfold getDockerMetrics
  simp only
  split
  · split
    · rfl
    · split <;> rfl
  · rfl
  · rfl

/-- The Docker collector runs its two probes and nothing else. -/
theorem getDockerMetrics_effects (w : World) (s : Service) (host : Option String) :
    Runs (newEffects s (getDockerMetrics w s host).2) (dockerProbes.map (dockerCommand host)) := by
  rw [getDockerMetrics_state]
  obtain ⟨b1, h1⟩ := executeDockerCommand_trace w s host
    "ps -a --format \"\x7b\x7bjson .\x7d\x7d\""
  obtain ⟨b2, h2⟩ := executeDockerCommand_trace w (executeDockerCommand w s host
    "ps -a --format \"\x7b\x7bjson .\x7d\x7d\"").2 host
    "stats --no-stream --format \"\x7b\x7bjson .\x7d\x7d\""
  unfold newEffects Runs
  rw [h2, h1]
  simp only [List.append_assoc, List.drop_left, dockerProbes, List.map, List.cons_append,
    List.nil_append]
  exact .cons ⟨b1, rfl⟩ (.cons ⟨b2, rfl⟩ .nil)

/-- The state the local collector ends in is the state after its fourth probe. -/
theorem getLocalMetrics_state (w : World) (s : Service) :
    (getLocalMetrics w s).2 =
      (telemetry w (telemetry w (telemetry w (telemetry w s "cpu").2 "mem").2 "fsSize").2
        "networkStats").2 := by
  unfold getLocalMetrics
  simp only
  split <;> rfl

/-- The local collector calls its four telemetry probes and nothing else. -/
theorem getLocalMetrics_effects (w : World) (s : Service) :
    Probes (newEffects s (getLocalMetrics w s).2) localProbes := by
  rw [getLocalMetrics_state]
  obtain ⟨b1, h1⟩ := telemetry_trace w s "cpu"
  obtain ⟨b2, h2⟩ := telemetry_trace w (telemetry w s "cpu").2 "mem"
  obtain ⟨b3, h3⟩ := telemetry_trace w (telemetry w (telemetry w s "cpu").2 "mem").2 "fsSize"
  obtain ⟨b4, h4⟩ := telemetry_trace w
    (telemetry w (telemetry w (telemetry w s "cpu").2 "mem").2 "fsSize").2 "networkStats"
  unfold newEffects Probes
  rw [h4, h3, h2, h1]
  simp only [List.append_assoc, List.drop_left, localProbes, List.cons_append, List.nil_append]
  exact .cons ⟨b1, rfl⟩ (.cons ⟨b2, rfl⟩ (.cons ⟨b3, rfl⟩ (.cons ⟨b4, rfl⟩ .nil)))

end DeviceService

namespace DeviceService

/-- Nothing added. -/
theorem Adds.refl (p : Effect → Bool) (s : Service) : Adds p s s :=
  ⟨[], by simp, by simp⟩

/-- Two steps after one another. -/
theorem Adds.trans {p : Effect → Bool} {a b c : Service} (h1 : Adds p a b) (h2 : Adds p b c) :
    Adds p a c := by
  obtain ⟨l1, e1, p1⟩ := h1
  obtain ⟨l2, e2, p2⟩ := h2
  refine ⟨l1 ++ l2, by rw [e2, e1, List.append_assoc], ?_⟩
  intro e he
  rcases List.mem_append.mp he with h | h
  · exact p1 e h
  · exact p2 e h

/-- What was added is what the trace shows as new. -/
theorem Adds.newEffects {p : Effect → Bool} {a b : Service} (h : Adds p a b) :
    ∀ e ∈ newEffects a b, p e = true := by
  obtain ⟨l, e1, p1⟩ := h
  intro e he
  simp only [DeviceService.newEffects, e1, List.drop_left] at he
  exact p1 e he

/-- A GET is an effect on the cluster API. -/
theorem httpGet_adds (w : World) (s : Service) (client : Client) (path : String) :
    Adds Effect.isCluster s (httpGet w s client path).2 := by
  unfold httpGet
  split
  · exact ⟨_, rfl, by simp [Effect.isCluster]⟩
  · exact ⟨_, rfl, by simp [Effect.isCluster]⟩

/-- The version probe is an effect on the cluster API. -/
theorem probeAndStore_adds (w : World) (s : Service) (key : String) (client : Client) :
    Adds Effect.isCluster s (probeAndStore w s key client).2 := by
  rcases probeAndStore_spec w s key client with ⟨_, _, h⟩ | ⟨_, _, h⟩
  · rw [h]; exact ⟨_, rfl, by simp [Effect.isCluster]⟩
  · rw [h]; exact ⟨_, rfl, by simp [Effect.isCluster]⟩

/-- The ticket exchange is an effect on the cluster API. -/
theorem getProxmoxTicket_adds (w : World) (s : Service) (client : Client) (cr : Credentials) :
    Adds Effect.isCluster s (getProxmoxTicket w s client cr).2 := by
  unfold getProxmoxTicket
  simp only
  split
  · split <;> exact ⟨_, rfl, by simp [Effect.isCluster]⟩
  · split <;> exact ⟨_, rfl, by simp [Effect.isCluster]⟩

/-- The construction of a client consists of effects on the cluster API. -/
theorem createProxmoxClient_adds (w : World) (s : Service) (config : Option DeviceConfig) :
    Adds Effect.isCluster s (createProxmoxClient w s config).2 := by
  have hcreate : ∀ (address : Option String), Adds Effect.isCluster s
      { s with allocated := s.allocated + 1,
               trace := s.trace ++ [Effect.clientCreate address] } :=
    fun address => ⟨_, rfl, by simp [Effect.isCluster]⟩
  unfold createProxmoxClient
  split
  · exact Adds.refl _ _
  · next cfg _ =>
    simp only
    split
    · exact Adds.refl _ _
    · split
      · exact hcreate _
      · next cr _ =>
        split
        · exact (hcreate _).trans (probeAndStore_adds _ _ _ _)
        · split
          · have ht := getProxmoxTicket_adds w
              { s with allocated := s.allocated + 1,
                       trace := s.trace ++ [Effect.clientCreate cfg.address] }
              { handle := s.allocated, baseURL := cfg.address } cr
            split
            · next heq => rw [heq] at ht; exact (hcreate _).trans ht
            · next heq =>
              rw [heq] at ht
              exact ((hcreate _).trans ht).trans (probeAndStore_adds _ _ _ _)
          · exact (hcreate _).trans (probeAndStore_adds _ _ _ _)

/-- The inventories of one node are fetched with effects on the cluster API. -/
theorem nodeResources_adds (w : World) (s : Service) (client : Client) (node : JS.Val) :
    Adds Effect.isCluster s (nodeResources w s client node).2 := by
  have h1 := httpGet_adds w s client (qemuPath w node)
  have h2 := httpGet_adds w (httpGet w s client (qemuPath w node)).2 client (lxcPath w node)
  have hstate : (nodeResources w s client node).2 =
      (httpGet w (httpGet w s client (qemuPath w node)).2 client (lxcPath w node)).2 := by
    unfold nodeResources qemuPath lxcPath
    simp only
    split
    · rfl
    · split <;> rfl
  rw [hstate]
  exact h1.trans h2

/-- The fan-out over the nodes consists of effects on the cluster API. -/
theorem allNodeResources_adds (w : World) (client : Client) :
    ∀ (nodes : List JS.Val) (s : Service),
      Adds Effect.isCluster s (allNodeResources w client s nodes).2 := by
  intro nodes
  induction nodes with
  | nil => intro s; exact Adds.refl _ _
  | cons node nodes ih =>
    intro s
    have hunfold : (allNodeResources w client s (node :: nodes)).2 =
        (allNodeResources w client (nodeResources w s client node).2 nodes).2 := by
      rw [allNodeResources]
    rw [hunfold]
    exact (nodeResources_adds w s client node).trans (ih _)

/-- The overview of a cluster consists of effects on the cluster API. -/
theorem clusterOverview_adds (w : World) (s : Service) (client : Client) :
    Adds Effect.isCluster s (clusterOverview w s client).2 := by
  have h1 := httpGet_adds w s client "/api2/json/nodes"
  unfold clusterOverview
  split
  · next heq => rw [heq] at h1; exact h1
  · next data s1 heq =>
    rw [heq] at h1
    split
    · exact h1
    · next nodes _ =>
      split
      · exact h1
      · exact h1.trans (allNodeResources_adds w client nodes s1)

/-- The details of a node are fetched with effects on the cluster API. -/
theorem nodeDetails_adds (w : World) (s : Service) (client : Client) (node : String) :
    Adds Effect.isCluster s (nodeDetails w s client node).2 := by
  have h1 := httpGet_adds w s client ("/api2/json/nodes/" ++ node ++ "/status")
  have h2 := httpGet_adds w (httpGet w s client ("/api2/json/nodes/" ++ node ++ "/status")).2
    client ("/api2/json/nodes/" ++ node ++ "/rrddata?timeframe=hour")
  have h3 := httpGet_adds w (httpGet w (httpGet w s client
    ("/api2/json/nodes/" ++ node ++ "/status")).2
    client ("/api2/json/nodes/" ++ node ++ "/rrddata?timeframe=hour")).2 client
    ("/api2/json/nodes/" ++ node ++ "/qemu")
  have h4 := httpGet_adds w (httpGet w (httpGet w (httpGet w s client
    ("/api2/json/nodes/" ++ node ++ "/status")).2
    client ("/api2/json/nodes/" ++ node ++ "/rrddata?timeframe=hour")).2 client
    ("/api2/json/nodes/" ++ node ++ "/qemu")).2 client ("/api2/json/nodes/" ++ node ++ "/lxc")
  have hstate : (nodeDetails w s client node).2 =
      (httpGet w (httpGet w (httpGet w (httpGet w s client
        ("/api2/json/nodes/" ++ node ++ "/status")).2
        client ("/api2/json/nodes/" ++ node ++ "/rrddata?timeframe=hour")).2 client
        ("/api2/json/nodes/" ++ node ++ "/qemu")).2 client
        ("/api2/json/nodes/" ++ node ++ "/lxc")).2 := by
    unfold nodeDetails
    simp only
    split
    · rfl
    · split <;> rfl
  rw [hstate]
  exact ((h1.trans h2).trans h3).trans h4

/-- The cluster command consists of effects on the cluster API. -/
theorem executeProxmoxCommand_adds (w : World) (s : Service) (config : Option DeviceConfig) :
    Adds Effect.isCluster s (executeProxmoxCommand w s config).2 := by
  unfold executeProxmoxCommand
  split
  · exact Adds.refl _ _
  · next d _ =>
    have h1 := createProxmoxClient_adds w s (some d)
    split
    · next heq => rw [heq] at h1; exact h1
    · next client s1 heq =>
      rw [heq] at h1
      have h2 := httpGet_adds w s1 client "/api2/json/version"
      split
      · next heq2 => rw [heq2] at h2; exact h1.trans h2
      · next x s2 heq2 =>
        rw [heq2] at h2
        split
        · have h3 := clusterOverview_adds w s2 client
          split
          · next heq3 => rw [heq3] at h3; exact (h1.trans h2).trans h3
          · next heq3 => rw [heq3] at h3; exact (h1.trans h2).trans h3
        · have h3 := nodeDetails_adds w s2 client (JS.render d.node)
          split
          · next heq3 => rw [heq3] at h3; exact (h1.trans h2).trans h3
          · next heq3 => rw [heq3] at h3; exact (h1.trans h2).trans h3

/-- The cluster collector consists of effects on the cluster API. -/
theorem getProxmoxMetrics_adds (w : World) (s : Service) (config : Option DeviceConfig) :
    Adds Effect.isCluster s (getProxmoxMetrics w s config).2 := by
  unfold getProxmoxMetrics
  split
  · exact Adds.refl _ _
  · next d _ =>
    have h1 := executeProxmoxCommand_adds w s (some d)
    split
    · next heq => rw [heq] at h1; exact h1
    · next heq => rw [heq] at h1; exact h1

end DeviceService

namespace DeviceService

/-- Telemetry probes are not remote. -/
theorem Probes.not_remote {effects : List Effect} {probes : List String}
    (h : Probes effects probes) : ∀ e ∈ effects, e.isRemote = false := by
  unfold Probes at h
  induction h with
  | nil => simp
  | cons hab _ ih =>
    intro e he
    rcases List.mem_cons.mp he with rfl | he
    · obtain ⟨b, rfl⟩ := hab; rfl
    · exact ih e he

/-- C17: for a descriptor that passes validation, `getMetrics` is the run of one collector,
chosen by the type, and the effects of the call are that collector's alone: the cluster
collector (effects on the cluster API only) for `proxmox`, the four remote probes for `vm`, the
one LXC probe for `lxc`, the two Docker probes for `docker`; for `host` and every other type,
the four local telemetry probes and nothing remote when the address is exactly `localhost`, and
the four remote probes otherwise. -/
theorem getMetrics_dispatch (w : World) (s : Service) (c d : DeviceConfig)
    (hv : validateConfig (some c) = .ok d) :
    (d.type = some "proxmox" →
      getMetrics w s (some c) = getProxmoxMetrics w s (some d) ∧
      ∀ e ∈ newEffects s (getMetrics w s (some c)).2, e.isCluster = true) ∧
    (d.type = some "vm" →
      getMetrics w s (some c) = getVMMetrics w s d.address ∧
      Runs (newEffects s (getMetrics w s (some c)).2) (vmProbes.map (sshCommand d.address))) ∧
    (d.type = some "lxc" →
      getMetrics w s (some c) = getLXCMetrics w s d.address ∧
      Runs (newEffects s (getMetrics w s (some c)).2)
        [sshCommand d.address (lxcCommand d.address)]) ∧
    (d.type = some "docker" →
      getMetrics w s (some c) = getDockerMetrics w s d.address ∧
      Runs (newEffects s (getMetrics w s (some c)).2)
        (dockerProbes.map (dockerCommand d.address))) ∧
    (d.type ≠ some "proxmox" → d.type ≠ some "vm" → d.type ≠ some "lxc" →
      d.type ≠ some "docker" →
      (d.address = some "localhost" →
        getMetrics w s (some c) = getLocalMetrics w s ∧
        Probes (newEffects s (getMetrics w s (some c)).2) localProbes ∧
        ∀ e ∈ newEffects s (getMetrics w s (some c)).2, e.isRemote = false) ∧
      (d.address ≠ some "localhost" →
        getMetrics w s (some c) = getVMMetrics w s d.address ∧
        Runs (newEffects s (getMetrics w s (some c)).2)
          (vmProbes.map (sshCommand d.address)))) := by
  have hunfold : getMetrics w s (some c) =
      if d.type = some "proxmox" then getProxmoxMetrics w s (some d)
      else if d.type = some "vm" then getVMMetrics w s d.address
      else if d.type = some "lxc" then getLXCMetrics w s d.address
      else if d.type = some "docker" then getDockerMetrics w s d.address
      else if d.address = some "localhost" then getLocalMetrics w s
      else getVMMetrics w s d.address := by
    unfold getMetrics
    rw [hv]
  refine ⟨?_, ?_, ?_, ?_, ?_⟩
  · intro h1
    have heq : getMetrics w s (some c) = getProxmoxMetrics w s (some d) := by
      rw [hunfold, if_pos h1]
    exact ⟨heq, by rw [heq]; exact (getProxmoxMetrics_adds w s (some d)).newEffects⟩
  · intro h2
    have heq : getMetrics w s (some c) = getVMMetrics w s d.address := by
      rw [hunfold, if_neg (by rw [h2]; decide), if_pos h2]
    exact ⟨heq, by rw [heq]; exact getVMMetrics_effects w s d.address⟩
  · intro h3
    have heq : getMetrics w s (some c) = getLXCMetrics w s d.address := by
      rw [hunfold, if_neg (by rw [h3]; decide), if_neg (by rw [h3]; decide), if_pos h3]
    exact ⟨heq, by rw [heq]; exact getLXCMetrics_effects w s d.address⟩
  · intro h4
    have heq : getMetrics w s (some c) = getDockerMetrics w s d.address := by
      rw [hunfold, if_neg (by rw [h4]; decide), if_neg (by rw [h4]; decide),
        if_neg (by rw [h4]; decide), if_pos h4]
    exact ⟨heq, by rw [heq]; exact getDockerMetrics_effects w s d.address⟩
  · intro h1 h2 h3 h4
    constructor
    · intro h5
      have heq : getMetrics w s (some c) = getLocalMetrics w s := by
        rw [hunfold, if_neg h1, if_neg h2, if_neg h3, if_neg h4, if_pos h5]
      refine ⟨heq, by rw [heq]; exact getLocalMetrics_effects w s, ?_⟩
      rw [heq]
      exact (getLocalMetrics_effects w s).not_remote
    · intro h5
      have heq : getMetrics w s (some c) = getVMMetrics w s d.address := by
        rw [hunfold, if_neg h1, if_neg h2, if_neg h3, if_neg h4, if_neg h5]
      exact ⟨heq, by rw [heq]; exact getVMMetrics_effects w s d.address⟩

/-- The local host: the local collector runs, and nothing remote happens. -/
theorem getMetrics_dispatch_witness :
    getMetrics liveWorld {} (some localHostConfig) = getLocalMetrics liveWorld {} ∧
    Probes (newEffects {} (getMetrics liveWorld {} (some localHostConfig)).2) localProbes ∧
    ∀ e ∈ newEffects {} (getMetrics liveWorld {} (some localHostConfig)).2,
      e.isRemote = false :=
  ((getMetrics_dispatch liveWorld {} localHostConfig localHostConfig rfl).2.2.2.2
    (by decide) (by decide) (by decide) (by decide)).1 rfl

end DeviceService

namespace DeviceService

/-- A `mapM` gives `ok` exactly when every element does, with the results in order. -/
theorem mapM_ok_iff {α β : Type} (f : α → Except JS.Error β) (l : List α) (bs : List β) :
    l.mapM f = .ok bs ↔ List.Forall₂ (fun a b => f a = .ok b) l bs := by
  induction l generalizing bs with
  | nil =>
    rw [List.mapM_nil]
    constructor
    · intro h
      have : bs = [] := by
        simp only [pure, Except.pure, Except.ok.injEq] at h
        exact h.symm
      rw [this]; exact .nil
    · intro h
      cases h
      rfl
  | cons a l ih =>
    rw [List.mapM_cons]
    cases ha : f a with
    | error e =>
      constructor
      · intro h; simp [bind, Except.bind] at h
      · intro h
        cases h with
        | cons hab _ => rw [ha] at hab; simp at hab
    | ok b =>
      cases hl : l.mapM f with
      | error e =>
        constructor
        · intro h; simp [bind, Except.bind] at h
        · intro h
          cases h with
          | cons hab hrest =>
            have := (ih _).mpr hrest
            rw [hl] at this
            simp at this
      | ok bs' =>
        constructor
        · intro h
          simp only [bind, Except.bind, pure, Except.pure, Except.ok.injEq] at h
          subst h
          exact .cons ha ((ih _).mp hl)
        · intro h
          cases h with
          | cons hab hrest =>
            rw [ha] at hab
            simp only [Except.ok.injEq] at hab
            subst hab
            have := (ih _).mpr hrest
            rw [hl] at this
            simp only [Except.ok.injEq] at this
            subst this
            rfl

/-- Every element on the left of a pointwise relation has a partner on the right. -/
theorem forall₂_left_exists {α β : Type} {r : α → β → Prop} {l : List α} {bs : List β}
    (h : List.Forall₂ r l bs) {a : α} (ha : a ∈ l) : ∃ b, r a b := by
  induction h with
  | nil => simp at ha
  | cons hab _ ih =>
    rcases List.mem_cons.mp ha with rfl | ha
    · exact ⟨_, hab⟩
    · exact ih ha

/-- A Docker command whose process prints `raw` returns the trimmed text. -/
theorem executeDockerCommand_ok (w : World) (s : Service) (host : Option String)
    (command raw : String)
    (h : w.exec s.trace.length (dockerCommand host command) = .ok raw) :
    executeDockerCommand w s host command =
      (.ok (JS.trim raw),
        { s with trace := s.trace ++ [Effect.exec (dockerCommand host command) true] }) := by
  unfold executeDockerCommand execAsync
  unfold dockerCommand at h ⊢
  simp only [h]

/-- C18: when the two Docker probes have printed their outputs, `getDockerMetrics` succeeds
exactly when every line of both trimmed outputs parses as JSON, and then `containers` and `stats`
are the parsed lines of the respective output, in order, under the tag `docker`. The lines of
the empty output are the one empty line. -/
theorem getDockerMetrics_lines (w : World) (s : Service) (host : Option String)
    (listing stats : String)
    (hlisting : w.exec s.trace.length
      (dockerCommand host "ps -a --format \"\x7b\x7bjson .\x7d\x7d\"") = .ok listing)
    (hstats : w.exec (s.trace.length + 1)
      (dockerCommand host "stats --no-stream --format \"\x7b\x7bjson .\x7d\x7d\"") = .ok stats) :
    ((∃ v, (getDockerMetrics w s host).1 = .ok v) ↔
      ∀ line ∈ JS.split (JS.trim listing) '\n' ++ JS.split (JS.trim stats) '\n',
        ∃ parsed, w.jsonParse line = .ok parsed) ∧
    (∀ v, (getDockerMetrics w s host).1 = .ok v →
      ∃ containers entries,
        List.Forall₂ (fun line parsed => w.jsonParse line = .ok parsed)
          (JS.split (JS.trim listing) '\n') containers ∧
        List.Forall₂ (fun line parsed => w.jsonParse line = .ok parsed)
          (JS.split (JS.trim stats) '\n') entries ∧
        v = JS.Val.obj [("type", JS.Val.str "docker"), ("containers", JS.Val.arr containers),
          ("stats", JS.Val.arr entries)]) ∧
    JS.split "" '\n' = [""] := by
  have h1 := executeDockerCommand_ok w s host _ listing hlisting
  have h2 := executeDockerCommand_ok w
    { s with trace := s.trace ++ [Effect.exec
      (dockerCommand host "ps -a --format \"\x7b\x7bjson .\x7d\x7d\"") true] } host _ stats
    (by simpa using hstats)
  have hval : (getDockerMetrics w s host).1 =
      match parseLines w (JS.trim listing) with
      | .error e => .error e
      | .ok containers =>
        match parseLines w (JS.trim stats) with
        | .error e => .error e
        | .ok entries =>
          .ok (JS.Val.obj [("type", JS.Val.str "docker"), ("containers", JS.Val.arr containers),
            ("stats", JS.Val.arr entries)]) := by
    unfold getDockerMetrics
    simp only [h1, h2, promiseAll, List.filterMap_cons, List.filterMap_nil, List.length_nil,
      Nat.mod_zero, List.get?_nil]
    split
    · rfl
    · split <;> rfl
  refine ⟨⟨?_, ?_⟩, ?_, by rfl⟩
  · rintro ⟨v, hv⟩
    rw [hval] at hv
    unfold parseLines at hv
    intro line hline
    cases hc : (JS.split (JS.trim listing) '\n').mapM w.jsonParse with
    | error e => rw [hc] at hv; simp at hv
    | ok containers =>
      rw [hc] at hv
      cases hs : (JS.split (JS.trim stats) '\n').mapM w.jsonParse with
      | error e => rw [hs] at hv; simp at hv
      | ok entries =>
        have f1 := (mapM_ok_iff _ _ _).mp hc
        have f2 := (mapM_ok_iff _ _ _).mp hs
        rcases List.mem_append.mp hline with hm | hm
        · exact forall₂_left_exists f1 hm
        · exact forall₂_left_exists f2 hm
  · intro hall
    obtain ⟨containers, hc⟩ := mapM_ok_of_forall w.jsonParse (JS.split (JS.trim listing) '\n')
      (fun a ha => hall a (List.mem_append.mpr (Or.inl ha)))
    obtain ⟨entries, hs⟩ := mapM_ok_of_forall w.jsonParse (JS.split (JS.trim stats) '\n')
      (fun a ha => hall a (List.mem_append.mpr (Or.inr ha)))
    rw [hval]
    unfold parseLines
    rw [hc, hs]
    exact ⟨_, rfl⟩
  · intro v hv
    rw [hval] at hv
    unfold parseLines at hv
    cases hc : (JS.split (JS.trim listing) '\n').mapM w.jsonParse with
    | error e => rw [hc] at hv; simp at hv
    | ok containers =>
      rw [hc] at hv
      cases hs : (JS.split (JS.trim stats) '\n').mapM w.jsonParse with
      | error e => rw [hs] at hv; simp at hv
      | ok entries =>
        rw [hs] at hv
        simp only [Except.ok.injEq] at hv
        exact ⟨containers, entries, (mapM_ok_iff _ _ _).mp hc, (mapM_ok_iff _ _ _).mp hs,
          hv.symm⟩

end DeviceService

namespace DeviceService

/-- Two lines of JSON from each probe: both lists are parsed, in order. -/
theorem getDockerMetrics_lines_witness :
    (getDockerMetrics dockerWorld {} (some "localhost")).1 =
      .ok (JS.Val.obj [("type", JS.Val.str "docker"),
        ("containers", JS.Val.arr [JS.Val.num 1, JS.Val.num 2]),
        ("stats", JS.Val.arr [JS.Val.num 1, JS.Val.num 2])]) ∧
    ((∃ v, (getDockerMetrics dockerWorld {} (some "localhost")).1 = .ok v) ↔
      ∀ line ∈ JS.split (JS.trim "1\n2\n") '\n' ++ JS.split (JS.trim "1\n2\n") '\n',
        ∃ parsed, dockerWorld.jsonParse line = .ok parsed) :=
  ⟨by rfl, (getDockerMetrics_lines dockerWorld {} (some "localhost") "1\n2\n" "1\n2\n"
    rfl rfl).1⟩

end DeviceService

namespace UseSystemData

/-- The error path touches neither the polling period nor the timers nor the target. -/
theorem onError_keeps (h : Hook) (t : Target) (msg : String) :
    (onError h t msg).safeInterval = h.safeInterval ∧
    (onError h t msg).intervalDue = h.intervalDue ∧
    (onError h t msg).target = h.target ∧
    (onError h t msg).started = h.started := by
  unfold onError
  simp only
  repeat' split
  all_goals simp

/-- The success path touches neither the polling period nor the timers nor the target. -/
theorem onSuccess_keeps (h : Hook) (data : JS.Val) (now : Int) :
    (onSuccess h data now).safeInterval = h.safeInterval ∧
    (onSuccess h data now).intervalDue = h.intervalDue ∧
    (onSuccess h data now).target = h.target ∧
    (onSuccess h data now).started = h.started := by
  unfold onSuccess
  simp only
  repeat' split
  all_goals simp

/-- A call of `updateData` touches neither the polling period nor the timers nor the target. -/
theorem updateData_keeps (h : Hook) (now : Int) :
    (updateData h now).safeInterval = h.safeInterval ∧
    (updateData h now).intervalDue = h.intervalDue ∧
    (updateData h now).target = h.target := by
  unfold updateData
  split
  · simp
  · split
    · simp
    · split
      · split <;> simp
      · simp only
        split
        · simp
        · split
          · simp
          · split
            · have := onError_keeps
                { h with aborted := h.aborted ++ h.abortController.toList,
                         abortController := some h.started, updateInProgress := true,
                         started := h.started + 1 } h.target "Device address is not configured"
              exact ⟨this.1, this.2.1, this.2.2.1⟩
            · simp

/-- The settling of a fetch touches neither the polling period nor the timers nor the target. -/
theorem settle_keeps (h : Hook) (id : Nat) (outcome : Except String JS.Val) (now : Int) :
    (settle h id outcome now).safeInterval = h.safeInterval ∧
    (settle h id outcome now).intervalDue = h.intervalDue ∧
    (settle h id outcome now).target = h.target ∧
    (settle h id outcome now).started = h.started := by
  unfold settle
  split
  · simp
  · simp only
    split
    · next data _ =>
      exact onSuccess_keeps { h with inFlight := h.inFlight.filter _ } data now
    · next msg _ =>
      exact onError_keeps { h with inFlight := h.inFlight.filter _ } _ msg

/-- A call of `updateData` that is held back by its guards changes nothing. -/
theorem updateData_held (h : Hook) (now : Int)
    (hguard : h.updateInProgress = true ∨ now - h.lastUpdate < h.safeInterval) :
    updateData h now = h := by
  unfold updateData
  rcases hguard with hp | ht
  · simp [hp]
  · split
    · rfl
    · simp [ht]

/-- C19: the polling period of an effect set up for the configured `interval` is
`max interval 2000` (the value of `safeInterval`, which also re-arms every tick and which no
other event changes), and a call of `updateData` starts a fetch only if no fetch is marked in
progress and at least that period has passed since `lastUpdateRef`; when either condition fails
the call changes nothing at all. -/
theorem updateData_min_interval (h : Hook) (target : Target) (interval now : Int) :
    (h.now ≤ now →
      (step h (.render target interval now)).safeInterval = max interval 2000 ∧
      ((step h (.render target interval now)).intervalDue = none ∨
        (step h (.render target interval now)).intervalDue =
          some (now + max interval 2000))) ∧
    (∀ due, h.intervalDue = some due → h.now ≤ now → due ≤ now →
      (step h (.tick now)).intervalDue = some (due + h.safeInterval)) ∧
    (∀ e : Event, e.keepsEffect = true → (step h e).safeInterval = h.safeInterval) ∧
    ((updateData h now).inFlight ≠ h.inFlight →
      h.updateInProgress = false ∧ h.safeInterval ≤ now - h.lastUpdate) ∧
    (h.updateInProgress = true ∨ now - h.lastUpdate < h.safeInterval →
      updateData h now = h) := by
  refine ⟨?_, ?_, ?_, ?_, updateData_held h now⟩
  · intro hclock
    have hnot : ¬ now < h.now := not_lt.mpr hclock
    simp only [step, hnot, if_false]
    unfold effect
    simp only [MIN_INTERVAL]
    split <;> split <;> simp [cleanup]
  · intro due hdue hclock hle
    have hnot : ¬ now < h.now := not_lt.mpr hclock
    simp only [step, hnot, if_false, hdue, hle, if_true]
    split
    · exact (updateData_keeps _ _).2.1
    · rfl
  · intro e he
    cases e with
    | render _ _ _ => simp [Event.keepsEffect] at he
    | timeout t =>
      simp only [step]
      split
      · rfl
      · split
        · rfl
        · split
          · exact (updateData_keeps _ _).1
          · rfl
    | tick t =>
      simp only [step]
      split
      · rfl
      · split
        · rfl
        · split
          · split
            · exact (updateData_keeps _ _).1
            · rfl
          · rfl
    | settle id outcome t =>
      simp only [step]
      split
      · rfl
      · exact (settle_keeps _ _ _ _).1
  · intro hne
    by_contra hcon
    apply hne
    have : h.updateInProgress = true ∨ now - h.lastUpdate < h.safeInterval := by
      by_cases hp : h.updateInProgress = true
      · exact Or.inl hp
      · right
        by_contra hlt
        exact hcon ⟨by simpa using hp, not_lt.mp hlt⟩
    rw [updateData_held h now this]

/-- An interval of one second is raised to two, and a tick while the first fetch is in flight
changes nothing. -/
theorem updateData_min_interval_witness :
    (run [.render vmA 1000 1000000]).safeInterval = 2000 ∧
    (run [.render vmA 1000 1000000]).intervalDue = some 1002000 ∧
    updateData (run [.render vmA 1000 1000000, .timeout 1000500]) 1002000 =
      run [.render vmA 1000 1000000, .timeout 1000500] :=
  ⟨by decide, by decide,
    (updateData_min_interval (run [.render vmA 1000 1000000, .timeout 1000500]) vmA 1000
      1002000).2.2.2.2 (Or.inl (by decide))⟩

end UseSystemData

namespace UseSystemData

/-- For a cluster without a selected node, `updateData` either returns at once or stores the
placeholder; it does nothing else. -/
theorem updateData_awaiting (h : Hook) (now : Int) (hw : awaitingNode h.target = true) :
    updateData h now = h ∨
    ∃ d, h.target.activeDevice = some d ∧
      updateData h now = { h with systemData := placeholder d now, loading := false } := by
  unfold updateData
  split
  · exact Or.inl rfl
  · split
    · exact Or.inl rfl
    · split
      · next d hd => exact Or.inr ⟨d, hd, rfl⟩
      · exact Or.inl rfl

/-- The settling of a fetch starts no fetch. -/
theorem settle_inFlight_subset (h : Hook) (id : Nat) (outcome : Except String JS.Val)
    (now : Int) : ∀ r ∈ (settle h id outcome now).inFlight, r ∈ h.inFlight := by
  unfold settle
  split
  · exact fun r hr => hr
  · simp only
    split
    · next data _ =>
      rw [(onSuccess_inFlight { h with inFlight := h.inFlight.filter _ } data now).1]
      exact fun r hr => (List.mem_filter.mp hr).1
    · next msg _ =>
      rw [(onError_inFlight { h with inFlight := h.inFlight.filter _ } _ msg).1]
      exact fun r hr => (List.mem_filter.mp hr).1

/-- While the target is a cluster without a selected node, an event other than a render arms no
interval, starts no fetch and keeps the target. -/
theorem step_awaiting (h : Hook) (e : Event) (he : e.keepsEffect = true)
    (hw : awaitingNode h.target = true) (hdue : h.intervalDue = none) :
    (step h e).target = h.target ∧ (step h e).intervalDue = none ∧
    (step h e).started = h.started ∧ ∀ r ∈ (step h e).inFlight, r ∈ h.inFlight := by
  cases e with
  | render _ _ _ => simp [Event.keepsEffect] at he
  | timeout t =>
    simp only [step]
    split
    · exact ⟨rfl, hdue, rfl, fun r hr => hr⟩
    · split
      · exact ⟨rfl, hdue, rfl, fun r hr => hr⟩
      · split
        · rcases updateData_awaiting { h with now := t, timeoutDue := none } t hw with
            hu | ⟨d, _, hu⟩
          · rw [hu]; exact ⟨rfl, hdue, rfl, fun r hr => hr⟩
          · rw [hu]; exact ⟨rfl, hdue, rfl, fun r hr => hr⟩
        · exact ⟨rfl, hdue, rfl, fun r hr => hr⟩
  | tick t =>
    simp only [step, hdue]
    split
    · exact ⟨rfl, hdue, rfl, fun r hr => hr⟩
    · exact ⟨rfl, hdue, rfl, fun r hr => hr⟩
  | settle id outcome t =>
    simp only [step]
    split
    · exact ⟨rfl, hdue, rfl, fun r hr => hr⟩
    · have hk := settle_keeps { h with now := t } id outcome t
      exact ⟨hk.2.2.1, by rw [hk.2.1]; exact hdue, hk.2.2.2,
        settle_inFlight_subset { h with now := t } id outcome t⟩

/-- While the target is a cluster without a selected node, a timer event surfaces no error. -/
theorem step_awaiting_quiet (h : Hook) (e : Event) (he : e.isTimer = true)
    (hw : awaitingNode h.target = true) :
    (step h e).target = h.target ∧ (step h e).error = h.error ∧
    (step h e).deviceErrors = h.deviceErrors := by
  have hupd : ∀ (g : Hook) (t : Int), awaitingNode g.target = true →
      (updateData g t).target = g.target ∧ (updateData g t).error = g.error ∧
      (updateData g t).deviceErrors = g.deviceErrors := by
    intro g t hg
    rcases updateData_awaiting g t hg with hu | ⟨d, _, hu⟩ <;> rw [hu] <;> exact ⟨rfl, rfl, rfl⟩
  cases e with
  | render _ _ _ => simp [Event.isTimer] at he
  | settle _ _ _ => simp [Event.isTimer] at he
  | timeout t =>
    simp only [step]
    split
    · exact ⟨rfl, rfl, rfl⟩
    · split
      · exact ⟨rfl, rfl, rfl⟩
      · split
        · exact hupd { h with now := t, timeoutDue := none } t hw
        · exact ⟨rfl, rfl, rfl⟩
  | tick t =>
    simp only [step]
    split
    · exact ⟨rfl, rfl, rfl⟩
    · split
      · exact ⟨rfl, rfl, rfl⟩
      · split
        · split
          · exact hupd { h with now := t, intervalDue := _ } t hw
          · exact ⟨rfl, rfl, rfl⟩
        · exact ⟨rfl, rfl, rfl⟩

/-- The state right after the effect has run for a cluster without a selected node. -/
theorem render_awaiting (h : Hook) (d : Device) (node : Option String) (interval T : Int)
    (htype : d.type = some "proxmox") (hnode : JS.truthy node = false) (hclock : h.now ≤ T) :
    (step h (.render { activeDevice := some d, selectedNode := node } interval T)).target =
      { activeDevice := some d, selectedNode := node } ∧
    (step h (.render { activeDevice := some d, selectedNode := node } interval T)).intervalDue =
      none ∧
    (step h (.render { activeDevice := some d, selectedNode := node } interval T)).started =
      h.started ∧
    (step h (.render { activeDevice := some d, selectedNode := node } interval T)).inFlight =
      h.inFlight ∧
    (step h (.render { activeDevice := some d, selectedNode := node } interval T)).error =
      none ∧
    (step h (.render { activeDevice := some d, selectedNode := node } interval T)).timeoutDue =
      some (T + 500) ∧
    (step h (.render { activeDevice := some d, selectedNode := node } interval T)).now = T ∧
    (step h (.render { activeDevice := some d, selectedNode := node }
      interval T)).updateInProgress = false ∧
    (step h (.render { activeDevice := some d, selectedNode := node } interval T)).lastUpdate =
      0 ∧
    (step h (.render { activeDevice := some d, selectedNode := node } interval T)).safeInterval =
      max interval 2000 := by
  have hnot : ¬ T < h.now := not_lt.mpr hclock
  simp only [step, hnot, if_false]
  unfold effect
  simp only [pollable, cleanup, MIN_INTERVAL]
  split <;> simp [htype, hnode]

end UseSystemData

namespace UseSystemData

/-- The target of a cluster without a selected node is awaiting a node. -/
theorem awaitingNode_cluster (d : Device) (node : Option String)
    (htype : d.type = some "proxmox") (hnode : JS.truthy node = false) :
    awaitingNode { activeDevice := some d, selectedNode := node } = true := by
  simp [awaitingNode, htype, hnode]

/-- What holds of a cluster without a selected node whatever came before: once the effect has
run for it, no interval timer is set; whatever timer events and settlings follow, no fetch is
started and no interval is armed; the timer events surface no error; and the debounced initial
fetch, when it is the next event and the clock reads at least the polling period, stores the
placeholder envelope of type `proxmox` whose `system` carries the device's name, type and
address. -/
theorem awaitingNode_idle (h : Hook) (d : Device) (node : Option String) (interval T : Int)
    (htype : d.type = some "proxmox") (hnode : JS.truthy node = false) (hclock : h.now ≤ T) :
    (step h (.render { activeDevice := some d, selectedNode := node } interval T)).intervalDue =
      none ∧
    (∀ events : List Event, (∀ e ∈ events, e.keepsEffect = true) →
      (events.foldl step
        (step h (.render { activeDevice := some d, selectedNode := node } interval T))).intervalDue
        = none ∧
      (events.foldl step
        (step h (.render { activeDevice := some d, selectedNode := node } interval T))).started
        = h.started ∧
      ∀ r ∈ (events.foldl step
        (step h (.render { activeDevice := some d, selectedNode := node } interval T))).inFlight,
        r ∈ h.inFlight) ∧
    (∀ events : List Event, (∀ e ∈ events, e.isTimer = true) →
      (events.foldl step
        (step h (.render { activeDevice := some d, selectedNode := node } interval T))).error
        = none) ∧
    (∀ T', T + 500 ≤ T' → max interval 2000 ≤ T' →
      (step (step h (.render { activeDevice := some d, selectedNode := node } interval T))
        (.timeout T')).systemData =
        JS.Val.obj [("type", JS.Val.str "proxmox"),
          ("time", JS.Val.obj [("current", JS.Val.num T'), ("uptime", JS.Val.str "N/A")]),
          ("system", JS.Val.obj [("hostname", JS.ofOption d.name), ("type", JS.ofOption d.type),
            ("address", JS.ofOption d.address)])] ∧
      (step (step h (.render { activeDevice := some d, selectedNode := node } interval T))
        (.timeout T')).error = none ∧
      (step (step h (.render { activeDevice := some d, selectedNode := node } interval T))
        (.timeout T')).inFlight = h.inFlight) := by
  obtain ⟨r1, r2, r3, r4, r5, r6, r7, r8, r9, r10⟩ :=
    render_awaiting h d node interval T htype hnode hclock
  have hw := awaitingNode_cluster d node htype hnode
  generalize step h (.render { activeDevice := some d, selectedNode := node } interval T) = h₀
    at r1 r2 r3 r4 r5 r6 r7 r8 r9 r10 ⊢
  refine ⟨r2, ?_, ?_, ?_⟩
  · have hgen : ∀ (events : List Event) (g : Hook), (∀ e ∈ events, e.keepsEffect = true) →
        awaitingNode g.target = true → g.intervalDue = none →
        (events.foldl step g).intervalDue = none ∧ (events.foldl step g).started = g.started ∧
        ∀ r ∈ (events.foldl step g).inFlight, r ∈ g.inFlight := by
      intro events
      induction events with
      | nil => intro g _ _ hd; exact ⟨hd, rfl, fun r hr => hr⟩
      | cons e es ih =>
        intro g hk hg hd
        obtain ⟨s1, s2, s3, s4⟩ := step_awaiting g e (hk e (List.mem_cons_self _ _)) hg hd
        obtain ⟨i1, i2, i3⟩ := ih (step g e) (fun e' he' => hk e' (List.mem_cons_of_mem _ he'))
          (by rw [s1]; exact hg) s2
        exact ⟨i1, by rw [List.foldl_cons, i2, s3], fun r hr => s4 r (i3 r hr)⟩
    intro events hk
    obtain ⟨i1, i2, i3⟩ := hgen events h₀ hk (by rw [r1]; exact hw) r2
    exact ⟨i1, by rw [i2, r3], fun r hr => by rw [← r4]; exact i3 r hr⟩
  · have hgen : ∀ (events : List Event) (g : Hook), (∀ e ∈ events, e.isTimer = true) →
        awaitingNode g.target = true → (events.foldl step g).error = g.error := by
      intro events
      induction events with
      | nil => intro g _ _; rfl
      | cons e es ih =>
        intro g hk hg
        obtain ⟨s1, s2, _⟩ := step_awaiting_quiet g e (hk e (List.mem_cons_self _ _)) hg
        rw [List.foldl_cons, ih (step g e) (fun e' he' => hk e' (List.mem_cons_of_mem _ he'))
          (by rw [s1]; exact hg), s2]
    intro events hk
    rw [hgen events h₀ hk (by rw [r1]; exact hw), r5]
  · intro T' hT hperiod
    have hnot : ¬ T' < h₀.now := by rw [r7]; omega
    have hdue : T + 500 ≤ T' := hT
    have hupd : updateData { h₀ with now := T', timeoutDue := none } T' =
        { h₀ with now := T', timeoutDue := none, systemData := placeholder d T',
                  loading := false } := by
      unfold updateData
      have h1 : ¬ T' - h₀.lastUpdate < h₀.safeInterval := by rw [r9, r10]; omega
      simp only [r8, Bool.false_eq_true, if_false, h1, r1, hw, if_true]
    simp only [step, hnot, if_false, r6, hdue, if_true, hupd]
    exact ⟨rfl, r5, r4⟩

/-- A cluster switched to on a fresh hook: no interval, and the placeholder after the debounce. -/
theorem awaitingNode_idle_witness :
    (run [.render clusterTarget 2000 1000000]).intervalDue = none ∧
    (run [.render clusterTarget 2000 1000000, .timeout 1000500]).systemData =
      JS.Val.obj [("type", JS.Val.str "proxmox"),
        ("time", JS.Val.obj [("current", JS.Val.num 1000500), ("uptime", JS.Val.str "N/A")]),
        ("system", JS.Val.obj [("hostname", JS.Val.str "Cluster"),
          ("type", JS.Val.str "proxmox"), ("address", JS.Val.str "https://10.0.0.5")])] ∧
    (run [.render clusterTarget 2000 1000000, .timeout 1000500]).inFlight = [] :=
  ⟨(awaitingNode_idle {} clusterDevice none 2000 1000000 rfl rfl (by decide)).1,
    ((awaitingNode_idle {} clusterDevice none 2000 1000000 rfl rfl (by decide)).2.2.2 1000500
      (by decide) (by decide)).1,
    by decide⟩

end UseSystemData

namespace UseSystemData

/-- C21, evaluated on `staleSuccessRun` and `staleFailureRun`: the response to the request issued
for `vmA` arrives after the switch to `vmB` and is processed like a current one. The body is
stored as the envelope of the hook (with the name and address of `vmA`), the loading flag is
cleared and the timestamp of the last fetch is set, so that the initial fetch for `vmB` is
skipped; a refusal becomes the error of the hook, is announced, counts as a retry, and clears the
in-progress flag and the controller of the fetch for `vmB` that is in flight. -/
theorem staleRun_response_processed :
    (run (staleSuccessRun.take 4)).target = vmB ∧
    (run (staleSuccessRun.take 4)).systemData =
      JS.Val.obj [("cpu", JS.Val.num 7),
        ("time", JS.Val.obj [("current", JS.Val.num 1000700), ("uptime", JS.Val.str "N/A")]),
        ("system", JS.Val.obj [("hostname", JS.Val.str "A"), ("type", JS.Val.str "vm"),
          ("address", JS.Val.str "10.0.0.7"), ("node", JS.Val.undefined)])] ∧
    (run (staleSuccessRun.take 4)).loading = false ∧
    (run (staleSuccessRun.take 4)).lastUpdate = 1000700 ∧
    (run staleSuccessRun).started = 1 ∧
    (run staleSuccessRun).inFlight = [] ∧
    (run (staleFailureRun.take 4)).inFlight =
      [{ id := 0, target := vmA, api := "fetchVMStats", controller := 0 },
       { id := 1, target := vmB, api := "fetchVMStats", controller := 1 }] ∧
    (run (staleFailureRun.take 4)).aborted = [0, 0] ∧
    (run staleFailureRun).target = vmB ∧
    (run staleFailureRun).error = some exhausted ∧
    (run staleFailureRun).deviceErrors = [some exhausted] ∧
    (run staleFailureRun).retryCount = 1 ∧
    (run staleFailureRun).inFlight =
      [{ id := 1, target := vmB, api := "fetchVMStats", controller := 1 }] ∧
    (run staleFailureRun).updateInProgress = false ∧
    (run staleFailureRun).abortController = none := by
  refine ⟨by decide, by rfl, by decide, by decide, by decide, by decide, by decide, by decide,
    by decide, by decide, by decide, by decide, by decide, by decide, by decide⟩

end UseSystemData

namespace UseSystemData

/-- The success path: the body is stored, the error cleared, the timestamp set and the retry
counter reset. -/
theorem onSuccess_counters (h : Hook) (data : JS.Val) (now : Int) :
    (onSuccess h data now).retryCount = 0 ∧
    (onSuccess h data now).error = none ∧
    (onSuccess h data now).lastUpdate = now ∧
    (onSuccess h data now).systemData = data := by
  unfold onSuccess
  simp only
  split <;> simp

/-- The error path: the retry counter moves by one exactly for a message that names the
exhaustion of local resources, and the timestamp of the last fetch stays. -/
theorem onError_counters (h : Hook) (t : Target) (m : String) :
    (onError h t m).retryCount =
      (if JS.includes m "ERR_INSUFFICIENT_RESOURCES" then h.retryCount + 1 else h.retryCount) ∧
    (onError h t m).lastUpdate = h.lastUpdate := by
  unfold onError
  simp only
  repeat' split
  all_goals simp_all

/-- C25: when the fetch `r` in flight settles at time `now`, the outcome of the `try` block is the
outcome of the fetch followed by the shaping of the body. After a success the retry counter is 0,
the error is cleared, the timestamp of the last fetch is `now` and the shaped body is stored;
after a failure with message `m` the retry counter is one more if `m` contains
`ERR_INSUFFICIENT_RESOURCES` and unchanged otherwise, and the timestamp is unchanged. The one
failure raised before any fetch is sent (a device without an address) leaves both unchanged as
well: a call of `updateData` itself changes neither. -/
theorem settle_counters (h : Hook) (r : Request) (outcome : Except String JS.Val) (now : Int)
    (hflight : h.inFlight.find? (fun q => q.id == r.id) = some r) :
    (∀ data, outcome.bind (fun body => shape r.target body now) = .ok data →
      (settle h r.id outcome now).retryCount = 0 ∧
      (settle h r.id outcome now).error = none ∧
      (settle h r.id outcome now).lastUpdate = now ∧
      (settle h r.id outcome now).systemData = data) ∧
    (∀ m, outcome.bind (fun body => shape r.target body now) = .error m →
      (settle h r.id outcome now).retryCount =
        (if JS.includes m "ERR_INSUFFICIENT_RESOURCES" then h.retryCount + 1
          else h.retryCount) ∧
      (settle h r.id outcome now).lastUpdate = h.lastUpdate) ∧
    (updateData h now).retryCount = h.retryCount ∧
    (updateData h now).lastUpdate = h.lastUpdate := by
  refine ⟨?_, ?_, ?_⟩
  · intro data hok
    unfold settle
    rw [hflight]
    simp only [hok]
    exact onSuccess_counters _ data now
  · intro m herr
    unfold settle
    rw [hflight]
    simp only [herr]
    exact onError_counters _ r.target m
  · unfold updateData
    split
    · simp
    · split
      · simp
      · split
        · split <;> simp
        · simp only
          split
          · simp
          · split
            · simp
            · split
              · have hc := onError_counters
                  { h with aborted := h.aborted ++ h.abortController.toList,
                           abortController := some h.started, updateInProgress := true,
                           started := h.started + 1 } h.target "Device address is not configured"
                have hno : JS.includes "Device address is not configured"
                    "ERR_INSUFFICIENT_RESOURCES" = false := by decide
                rw [hno] at hc
                exact hc
              · simp

/-- The first refusal of `exhaustedRun`: the counter goes from 0 to 1 and the timestamp stays 0. -/
theorem settle_counters_witness :
    (settle (run (exhaustedRun.take 2)) 0 (.error exhausted) 1000600).retryCount = 1 ∧
    (settle (run (exhaustedRun.take 2)) 0 (.error exhausted) 1000600).lastUpdate = 0 :=
  ((settle_counters (run (exhaustedRun.take 2))
    { id := 0, target := vmA, api := "fetchVMStats", controller := 0 } (.error exhausted)
    1000600 (by decide)).2.1 exhausted rfl)

end UseSystemData

namespace UseSystemData

/-- A call of `setDeviceError` with an argument other than `lastErrorRef`, recorded in
`lastErrorRef`, keeps the bookkeeping consistent. -/
theorem Announced.call {last : Option String} {errs : List (Option String)}
    (h : Announced last errs) (x : Option String) (hx : last ≠ x) :
    Announced x (errs ++ [x]) := by
  obtain ⟨hlast, hchain⟩ := h
  refine ⟨by simp, ?_⟩
  rw [List.chain'_append]
  refine ⟨hchain, List.chain'_singleton x, ?_⟩
  intro a ha b hb
  simp only [List.head?_cons, Option.mem_def, Option.some.injEq] at hb
  subst hb
  intro hab
  subst hab
  apply hx
  rw [hlast]
  rw [Option.mem_def] at ha
  rw [ha]
  rfl

/-- The error path keeps the bookkeeping of announcements consistent. -/
theorem onError_announced (h : Hook) (t : Target) (m : String)
    (hinv : Announced h.lastError h.deviceErrors) :
    Announced (onError h t m).lastError (onError h t m).deviceErrors := by
  unfold onError
  simp only
  by_cases ha : awaitingNode t = true
  · simp only [ha, Bool.not_true, Bool.false_eq_true, if_false]
    split <;> exact hinv
  · simp only [ha, Bool.not_false, if_true]
    by_cases hne : (h.lastError != some m) = true
    · simp only [hne, if_true]
      have hcall := hinv.call (some m) (by simpa using hne)
      split <;> exact hcall
    · simp only [hne, if_false]
      split <;> exact hinv

/-- The success path keeps the bookkeeping of announcements consistent. -/
theorem onSuccess_announced (h : Hook) (data : JS.Val) (now : Int)
    (hinv : Announced h.lastError h.deviceErrors) :
    Announced (onSuccess h data now).lastError (onSuccess h data now).deviceErrors := by
  unfold onSuccess
  simp only
  by_cases hne : (h.lastError != none) = true
  · simp only [hne, if_true]
    exact hinv.call none (by simpa using hne)
  · simp only [hne, if_false]
    exact hinv

/-- The effect body keeps the bookkeeping of announcements consistent. -/
theorem effect_announced (h : Hook) (target : Target) (interval now : Int)
    (hinv : Announced h.lastError h.deviceErrors) :
    Announced (effect h target interval now).lastError
      (effect h target interval now).deviceErrors := by
  have hfields : (effect h target interval now).lastError = none ∧
      (effect h target interval now).deviceErrors =
        (if h.lastError != none then h.deviceErrors ++ [none] else h.deviceErrors) := by
    unfold effect
    simp only
    repeat' split
    all_goals simp_all
  rw [hfields.1, hfields.2]
  by_cases hne : (h.lastError != none) = true
  · rw [if_pos hne]
    exact hinv.call none (by simpa using hne)
  · rw [if_neg hne]
    have hnone : h.lastError = none := by simpa using hne
    rw [← hnone]
    exact hinv

/-- A call of `updateData` keeps the bookkeeping of announcements consistent. -/
theorem updateData_announced (h : Hook) (now : Int)
    (hinv : Announced h.lastError h.deviceErrors) :
    Announced (updateData h now).lastError (updateData h now).deviceErrors := by
  unfold updateData
  split
  · exact hinv
  · split
    · exact hinv
    · split
      · split <;> exact hinv
      · simp only
        split
        · exact hinv
        · split
          · exact hinv
          · split
            · exact onError_announced _ _ _ hinv
            · exact hinv

/-- The settling of a fetch keeps the bookkeeping of announcements consistent. -/
theorem settle_announced (h : Hook) (id : Nat) (outcome : Except String JS.Val) (now : Int)
    (hinv : Announced h.lastError h.deviceErrors) :
    Announced (settle h id outcome now).lastError (settle h id outcome now).deviceErrors := by
  unfold settle
  split
  · exact hinv
  · simp only
    split
    · exact onSuccess_announced _ _ _ hinv
    · exact onError_announced _ _ _ hinv

/-- Every event keeps the bookkeeping of announcements consistent. -/
theorem step_announced (h : Hook) (e : Event) (hinv : Announced h.lastError h.deviceErrors) :
    Announced (step h e).lastError (step h e).deviceErrors := by
  cases e with
  | render target interval now =>
    simp only [step]
    split
    · exact hinv
    · exact effect_announced _ _ _ _ hinv
  | timeout now =>
    simp only [step]
    split
    · exact hinv
    · split
      · exact hinv
      · split
        · exact updateData_announced _ _ hinv
        · exact hinv
  | tick now =>
    simp only [step]
    split
    · exact hinv
    · split
      · exact hinv
      · split
        · split
          · exact updateData_announced _ _ hinv
          · exact hinv
        · exact hinv
  | settle id outcome now =>
    simp only [step]
    split
    · exact hinv
    · exact settle_announced _ _ _ _ hinv

/-- In every run of the hook, with whatever switches and re-runs of the effect, no call of
`setDeviceError` repeats the argument of the call before it. -/
theorem run_announced (events : List Event) :
    Announced (run events).lastError (run events).deviceErrors := by
  unfold run
  have hgen : ∀ (es : List Event) (h : Hook), Announced h.lastError h.deviceErrors →
      Announced (es.foldl step h).lastError (es.foldl step h).deviceErrors := by
    intro es
    induction es with
    | nil => intro h hinv; exact hinv
    | cons e es ih => intro h hinv; exact ih _ (step_announced h e hinv)
  exact hgen events {} ⟨rfl, List.chain'_nil⟩

/-- While the message `m` is the one announced last, a further failure with the same message
announces nothing. -/
theorem onError_same_message (h : Hook) (t : Target) (m : String)
    (hlast : h.lastError = some m) :
    (onError h t m).deviceErrors = h.deviceErrors ∧ (onError h t m).lastError = some m := by
  unfold onError
  simp only [hlast]
  repeat' split
  all_goals simp_all

/-- The error path announces nothing or the message of the failure. -/
theorem onError_deviceErrors (h : Hook) (t : Target) (m : String) :
    (onError h t m).deviceErrors = h.deviceErrors ∨
    (onError h t m).deviceErrors = h.deviceErrors ++ [some m] := by
  unfold onError
  simp only
  repeat' split
  all_goals simp_all

/-- The success path announces nothing or `null`. -/
theorem onSuccess_deviceErrors (h : Hook) (data : JS.Val) (now : Int) :
    (onSuccess h data now).deviceErrors = h.deviceErrors ∨
    (onSuccess h data now).deviceErrors = h.deviceErrors ++ [none] := by
  unfold onSuccess
  simp only
  repeat' split
  all_goals simp_all

/-- A call of `updateData` announces nothing or a message. -/
theorem updateData_deviceErrors (h : Hook) (now : Int) :
    (updateData h now).deviceErrors = h.deviceErrors ∨
    ∃ m, (updateData h now).deviceErrors = h.deviceErrors ++ [some m] := by
  unfold updateData
  split
  · exact Or.inl rfl
  · split
    · exact Or.inl rfl
    · split
      · split <;> exact Or.inl rfl
      · simp only
        split
        · exact Or.inl rfl
        · split
          · exact Or.inl rfl
          · split
            · rcases onError_deviceErrors
                { h with aborted := h.aborted ++ h.abortController.toList,
                         abortController := some h.started, updateInProgress := true,
                         started := h.started + 1 } h.target
                "Device address is not configured" with hsame | hmore
              · exact Or.inl hsame
              · exact Or.inr ⟨_, hmore⟩
            · exact Or.inl rfl

/-- As long as the effect is not run again, an announced error is withdrawn by a success only:
an event other than a render announces nothing, or a message, or it is the settling of a fetch
that resolved and announces `null`. -/
theorem step_withdraws_on_success (h : Hook) (e : Event) (hkeeps : e.keepsEffect = true) :
    (step h e).deviceErrors = h.deviceErrors ∨
    (∃ m, (step h e).deviceErrors = h.deviceErrors ++ [some m]) ∨
    (∃ id body now, e = .settle id (.ok body) now ∧
      (step h e).deviceErrors = h.deviceErrors ++ [none]) := by
  cases e with
  | render target interval now => simp [Event.keepsEffect] at hkeeps
  | timeout now =>
    simp only [step]
    split
    · exact Or.inl rfl
    · split
      · exact Or.inl rfl
      · split
        · rcases updateData_deviceErrors { h with now := now, timeoutDue := none } now with
            hsame | hmore
          · exact Or.inl hsame
          · exact Or.inr (Or.inl hmore)
        · exact Or.inl rfl
  | tick now =>
    simp only [step]
    split
    · exact Or.inl rfl
    · split
      · exact Or.inl rfl
      · next due _ =>
        split
        · split
          · rcases updateData_deviceErrors
              { h with now := now, intervalDue := some (due + h.safeInterval) } now with
              hsame | hmore
            · exact Or.inl hsame
            · exact Or.inr (Or.inl hmore)
          · exact Or.inl rfl
        · exact Or.inl rfl
  | settle id outcome now =>
    simp only [step]
    split
    · exact Or.inl rfl
    · unfold settle
      split
      · exact Or.inl rfl
      · next r _ =>
        simp only
        split
        · next data hok =>
          rcases onSuccess_deviceErrors
            { h with now := now,
                     inFlight := h.inFlight.filter (fun q => q.id != id) } data now with
            hsame | hmore
          · exact Or.inl hsame
          · cases outcome with
            | error msg => simp [Except.bind] at hok
            | ok body => exact Or.inr (Or.inr ⟨id, body, now, rfl, hmore⟩)
        · next msg _ =>
          rcases onError_deviceErrors
            { h with now := now,
                     inFlight := h.inFlight.filter (fun q => q.id != id) } r.target msg with
            hsame | hmore
          · exact Or.inl hsame
          · exact Or.inr (Or.inl ⟨_, hmore⟩)

/-- C23, evaluated on `repeatedFailureRun` under the provider and on `rateChangeRun`: with one
target throughout, the first failure is announced and at once withdrawn by the re-run of the
effect that the announcement itself causes, without a success and without a change of target;
the second failure with the same message is announced again. Without the provider, a change of
the refresh rate withdraws the announced error in the same way. -/
theorem repeatedFailureRun_announced_twice :
    (runUnderProvider (repeatedFailureRun.take 3)).target = vmA ∧
    (runUnderProvider (repeatedFailureRun.take 3)).deviceErrors = [some unreachable, none] ∧
    (runUnderProvider (repeatedFailureRun.take 3)).error = none ∧
    (runUnderProvider repeatedFailureRun).target = vmA ∧
    (runUnderProvider repeatedFailureRun).deviceErrors =
      [some unreachable, none, some unreachable, none] ∧
    (run (rateChangeRun.take 3)).deviceErrors = [some unreachable] ∧
    (run (rateChangeRun.take 3)).error = some unreachable ∧
    (run rateChangeRun).target = vmA ∧
    (run rateChangeRun).deviceErrors = [some unreachable, none] ∧
    (run rateChangeRun).error = none := by
  decide

end UseSystemData

namespace DashboardContext

open JS (Val)

/-- The descriptor that `ADD_DEVICE` persists is built from the id, name, type and address alone:
it holds no credentials, whatever the payload. -/
theorem addDevice_descriptor_clean (state : State) (payload : List (String × Val))
    (key : String) (value : Val)
    (hcall : StorageCall.setJson key value ∈ (dashboardReducer state (.addDevice payload)).2) :
    holdsCredentials value = false := by
  simp only [dashboardReducer, List.mem_append, List.mem_singleton] at hcall
  rcases hcall with hstored | hauth
  · simp only [StorageCall.setJson.injEq] at hstored
    rw [hstored.2]
    simp [holdsCredentials, serializes, JS.getField, List.find?]
  · split at hauth <;> simp at hauth

/-- C22, evaluated on `renameRun`: a cluster is added with its credentials and then renamed. The
descriptor persisted by `ADD_DEVICE` holds no credentials and the header goes under
`device_pve_auth`, but the entry kept in the state still carries the `credentials` of the
payload, and `UPDATE_DEVICE` persists that entry, password included, under `device_pve`. -/
theorem renameRun_persists_credentials :
    (dispatchAll initialState renameRun).2 =
      [StorageCall.setJson "device_pve"
        (Val.obj [("id", Val.str "pve"), ("name", Val.str "Cluster"),
          ("type", Val.str "proxmox"), ("address", Val.str "https://10.0.0.5:8006"),
          ("enabled", Val.bool true)]),
       StorageCall.setItem "device_pve_auth" (Val.str "Basic cm9vdDpzZWNyZXQ="),
       StorageCall.setJson "device_pve"
        (Val.obj [("id", Val.str "pve"), ("name", Val.str "Rack 2"),
          ("type", Val.str "proxmox"), ("address", Val.str "https://10.0.0.5:8006"),
          ("credentials", Val.obj [("username", Val.str "root"),
            ("password", Val.str "secret"), ("realm", Val.str "pam")])])] ∧
    holdsCredentials
      (Val.obj [("id", Val.str "pve"), ("name", Val.str "Rack 2"),
        ("type", Val.str "proxmox"), ("address", Val.str "https://10.0.0.5:8006"),
        ("credentials", Val.obj [("username", Val.str "root"),
          ("password", Val.str "secret"), ("realm", Val.str "pam")])]) = true := by
  exact ⟨by rfl, by decide⟩

end DashboardContext

namespace JS

/-- Reading back the property that was just written. -/
theorem getField_setField_self (fields : List (String × Val)) (k : String) (v : Val) :
    getField (setField fields k v) k = some v := by
  unfold setField getField
  split
  · next hany =>
    induction fields with
    | nil => simp at hany
    | cons f fs ih =>
      rw [List.map_cons, List.find?_cons]
      by_cases hf : (f.1 == k) = true
      · simp [hf]
      · have hany' : (fs.any fun f => f.1 == k) = true := by
          simpa [List.any_cons, hf] using hany
        simp only [hf, Bool.false_eq_true, if_false]
        exact ih hany'
  · next hany =>
    have hnone : fields.find? (fun f => f.1 == k) = none := by
      rw [List.find?_eq_none]
      intro f hf hk
      exact hany (List.any_eq_true.mpr ⟨f, hf, hk⟩)
    simp [List.find?_append, hnone]

/-- The rest of a destructuring keeps the properties of other names. -/
theorem getField_rest_ne (fields : List (String × Val)) (k' k : String) (h : k' ≠ k) :
    getField (rest fields k') k = getField fields k := by
  unfold rest getField
  induction fields with
  | nil => rfl
  | cons f fs ih =>
    by_cases hf : (f.1 == k) = true
    · have e : f.1 = k := by simpa using hf
      have hkeep : (f.1 != k') = true := by
        rw [e]; simpa using Ne.symm h
      simp [List.filter_cons, hkeep, List.find?_cons, hf]
    · by_cases hkeep : (f.1 != k') = true
      · simp only [List.filter_cons, hkeep, if_true, List.find?_cons, hf]
        exact ih
      · simp only [List.filter_cons, hkeep, Bool.false_eq_true, if_false, List.find?_cons, hf]
        exact ih

/-- The rest of a destructuring has the properties of other names that the object had. -/
theorem hasField_rest_ne (fields : List (String × Val)) (k' k : String) (h : k' ≠ k) :
    hasField (rest fields k') k = hasField fields k := by
  unfold rest hasField
  induction fields with
  | nil => rfl
  | cons f fs ih =>
    by_cases hf : (f.1 == k) = true
    · have e : f.1 = k := by simpa using hf
      have hkeep : (f.1 != k') = true := by
        rw [e]; simpa using Ne.symm h
      simp [List.filter_cons, hkeep, List.any_cons, hf]
    · by_cases hkeep : (f.1 != k') = true
      · simp only [List.filter_cons, hkeep, if_true, List.any_cons, hf, Bool.false_or]
        exact ih
      · simp only [List.filter_cons, hkeep, Bool.false_eq_true, if_false, List.any_cons, hf,
          Bool.false_or]
        exact ih

/-- A spread in which every property named `k` has the value `v` keeps that value under `k`. -/
theorem getField_spread_keeps (src fields : List (String × Val)) (k : String) (v : Val)
    (hsrc : ∀ f ∈ src, f.1 = k → f.2 = v) (hfields : getField fields k = some v) :
    getField (spread fields src) k = some v := by
  unfold spread
  induction src generalizing fields with
  | nil => exact hfields
  | cons f fs ih =>
    simp only [List.foldl_cons]
    apply ih _ (fun g hg => hsrc g (List.mem_cons_of_mem _ hg))
    by_cases hk : f.1 = k
    · have hv := hsrc f (List.mem_cons_self _ _) hk
      rw [hk, hv]
      exact getField_setField_self _ _ _
    · rw [getField_setField_ne _ _ _ _ hk]
      exact hfields

/-- A spread that has the property `k`, always with the value `v`, writes that value. -/
theorem getField_spread_writes (src fields : List (String × Val)) (k : String) (v : Val)
    (hsrc : ∀ f ∈ src, f.1 = k → f.2 = v) (hex : ∃ f ∈ src, f.1 = k) :
    getField (spread fields src) k = some v := by
  induction src generalizing fields with
  | nil => obtain ⟨f, hf, _⟩ := hex; cases hf
  | cons f fs ih =>
    have htail : ∀ g ∈ fs, g.1 = k → g.2 = v :=
      fun g hg => hsrc g (List.mem_cons_of_mem _ hg)
    have hstep : spread fields (f :: fs) = spread (setField fields f.1 f.2) fs := by
      unfold spread
      simp only [List.foldl_cons]
    rw [hstep]
    by_cases hk : f.1 = k
    · apply getField_spread_keeps _ _ _ _ htail
      have hv := hsrc f (List.mem_cons_self _ _) hk
      rw [hk, hv]
      exact getField_setField_self _ _ _
    · apply ih _ htail
      obtain ⟨g, hg, hgk⟩ := hex
      rcases List.mem_cons.mp hg with rfl | hg'
      · exact absurd hgk hk
      · exact ⟨g, hg', hgk⟩

/-- After a property was written, every entry of that name holds the written value, and there is
one. -/
theorem setField_entries (fields : List (String × Val)) (k : String) (v : Val) :
    (∀ f ∈ setField fields k v, f.1 = k → f.2 = v) ∧ (∃ f ∈ setField fields k v, f.1 = k) := by
  unfold setField
  split
  · next hany =>
    constructor
    · intro f hf hk
      rw [List.mem_map] at hf
      obtain ⟨g, _, hg⟩ := hf
      by_cases hgk : (g.1 == k) = true
      · simp only [hgk, if_true] at hg
        rw [← hg]
      · simp only [hgk, Bool.false_eq_true, if_false] at hg
        rw [hg] at hgk
        exact absurd (by simpa using hk) hgk
    · obtain ⟨g, hg, hgk⟩ := List.any_eq_true.mp hany
      refine ⟨(k, v), ?_, rfl⟩
      rw [List.mem_map]
      exact ⟨g, hg, by simp [hgk]⟩
  · next hany =>
    constructor
    · intro f hf hk
      rcases List.mem_append.mp hf with hf | hf
      · exact absurd (List.any_eq_true.mpr ⟨f, hf, by simpa using hk⟩) hany
      · simp only [List.mem_singleton] at hf
        rw [hf]
    · exact ⟨(k, v), by simp, rfl⟩

end JS

namespace DashboardContext

open JS (Val)

/-- Every action other than an `ADD_DEVICE` whose device lands under the key `local` leaves the
built-in local device in the list. -/
theorem dashboardReducer_keeps_local (state : State) (action : Action)
    (hlocal : HoldsLocal state)
    (hadd : ∀ payload, action = .addDevice payload →
      JS.toText ((JS.getField payload "id").getD Val.undefined) ≠ "local") :
    HoldsLocal (dashboardReducer state action).1 := by
  unfold HoldsLocal at *
  cases action with
  | addDevice payload =>
    have hkey := hadd payload rfl
    simp only [dashboardReducer]
    rw [JS.getField_rest_ne payload "authToken" "id" (by decide)]
    rw [JS.getField_setField_ne _ _ _ _ hkey]
    exact hlocal
  | removeDevice payload =>
    simp only [dashboardReducer]
    split
    · exact hlocal
    · next hne =>
      simp only
      rw [JS.getField_rest_ne _ _ _ hne]
      exact hlocal
  | setActiveDevice payload =>
    simp only [dashboardReducer]
    exact JS.getField_setField_self _ _ _
  | updateDevice id updates =>
    simp only [dashboardReducer]
    split
    · exact hlocal
    · next hne =>
      simp only
      rw [JS.getField_setField_ne _ _ _ _ hne]
      exact hlocal
  | initDevices payload =>
    simp only [dashboardReducer]
    exact JS.getField_spread_writes _ _ _ _ (JS.setField_entries payload "local" localDevice).1
      (JS.setField_entries payload "local" localDevice).2
  | setTheme payload => exact hlocal
  | toggleSidebar => exact hlocal
  | updateLayout payload => exact hlocal
  | updateRefreshRate payload => exact hlocal
  | addWidget id config => exact hlocal
  | removeWidget payload => exact hlocal
  | updateWidgetConfig id config => exact hlocal
  | toggleViewMode => exact hlocal
  | setSelectedNode payload => exact hlocal
  | setDeviceError payload => exact hlocal
  | unknown => exact hlocal

/-- C26, evaluated on `spareLocalPayload`: the initial state holds the built-in local device, and
an `ADD_DEVICE` whose payload has the id `local` puts the added device in its place. -/
theorem addDevice_replaces_local :
    HoldsLocal initialState ∧
    (dashboardReducer initialState (.addDevice spareLocalPayload)).1.devices.list =
      [("local", Val.obj [("id", Val.str "local"), ("name", Val.str "Spare"),
        ("type", Val.str "vm"), ("address", Val.str "10.0.0.7")])] ∧
    ¬ HoldsLocal (dashboardReducer initialState (.addDevice spareLocalPayload)).1 := by
  refine ⟨rfl, rfl, ?_⟩
  intro h
  have hlist : (dashboardReducer initialState (.addDevice spareLocalPayload)).1.devices.list =
      [("local", Val.obj [("id", Val.str "local"), ("name", Val.str "Spare"),
        ("type", Val.str "vm"), ("address", Val.str "10.0.0.7")])] := rfl
  unfold HoldsLocal at h
  rw [hlist] at h
  simp [JS.getField, localDevice] at h

/-- C30: in a state whose device list has the key `local` and the key of the active device,
`REMOVE_DEVICE` with any id yields a state whose active device is a key of the list. Removing
`local` returns the state unchanged and touches no storage; removing another device that is the
active one makes `local` active and sets the selected node to `null`; removing any other device
leaves the active device and the selected node as they were. -/
theorem removeDevice_active_listed (state : State) (id : String)
    (hlocal : JS.hasField state.devices.list "local" = true)
    (hactive : JS.hasField state.devices.list state.devices.activeDevice = true) :
    JS.hasField (dashboardReducer state (.removeDevice id)).1.devices.list
      (dashboardReducer state (.removeDevice id)).1.devices.activeDevice = true ∧
    (id = "local" → dashboardReducer state (.removeDevice id) = (state, [])) ∧
    (id ≠ "local" → id = state.devices.activeDevice →
      (dashboardReducer state (.removeDevice id)).1.devices.activeDevice = "local" ∧
      (dashboardReducer state (.removeDevice id)).1.devices.selectedNode = Val.null) ∧
    (id ≠ "local" → id ≠ state.devices.activeDevice →
      (dashboardReducer state (.removeDevice id)).1.devices.activeDevice =
        state.devices.activeDevice ∧
      (dashboardReducer state (.removeDevice id)).1.devices.selectedNode =
        state.devices.selectedNode) ∧
    (id ≠ "local" →
      (dashboardReducer state (.removeDevice id)).1.devices.list =
        JS.rest state.devices.list id ∧
      JS.hasField (dashboardReducer state (.removeDevice id)).1.devices.list id = false) := by
  by_cases hid : id = "local"
  · have hred : dashboardReducer state (.removeDevice id) = (state, []) := by
      simp only [dashboardReducer, hid, if_true]
    rw [hred]
    exact ⟨hactive, fun _ => rfl, fun h => absurd hid h, fun h => absurd hid h,
      fun h => absurd hid h⟩
  · have hred : dashboardReducer state (.removeDevice id) =
        ({ state with devices :=
            ⟨if id = state.devices.activeDevice then "local" else state.devices.activeDevice,
              if id = state.devices.activeDevice then Val.null else state.devices.selectedNode,
              Val.null, JS.rest state.devices.list id⟩ },
          [StorageCall.removeItem ("device_" ++ id),
            StorageCall.removeItem ("device_" ++ id ++ "_auth")]) := by
      simp only [dashboardReducer, hid, if_false]
    rw [hred]
    refine ⟨?_, fun h => absurd h hid, ?_, ?_, ?_⟩
    · by_cases ha : id = state.devices.activeDevice
      · simp only [if_pos ha]
        rw [JS.hasField_rest_ne _ _ _ hid]
        exact hlocal
      · simp only [if_neg ha]
        rw [JS.hasField_rest_ne _ _ _ ha]
        exact hactive
    · intro _ ha
      exact ⟨if_pos ha, if_pos ha⟩
    · intro _ ha
      exact ⟨if_neg ha, if_neg ha⟩
    · intro _
      refine ⟨rfl, ?_⟩
      simp [JS.hasField, JS.rest, List.any_filter]

/-- A cluster is added and made the active device; removing it makes `local` active again. -/
theorem removeDevice_active_listed_witness :
    (dashboardReducer (dispatchAll initialState
        [.addDevice clusterPayload, .setActiveDevice "pve"]).1
      (.removeDevice "pve")).1.devices.activeDevice = "local" ∧
    (dashboardReducer (dispatchAll initialState
        [.addDevice clusterPayload, .setActiveDevice "pve"]).1
      (.removeDevice "pve")).1.devices.selectedNode = Val.null :=
  (removeDevice_active_listed
    (dispatchAll initialState [.addDevice clusterPayload, .setActiveDevice "pve"]).1 "pve"
    (by decide) (by decide)).2.2.1 (by decide) (by decide)

end DashboardContext

namespace DeviceService

/-- A normalized address begins with the letters `http`. -/
theorem startsWith_normalizeAddress (a : String) :
    JS.startsWith (normalizeAddress a) "http" = true := by
  unfold normalizeAddress
  by_cases h : JS.startsWith a "http" = true
  · rw [if_pos h]; exact h
  · rw [if_neg h]
    unfold JS.startsWith
    simp only [String.data_append]
    rfl

/-- Normalizing an address twice is normalizing it once: the scheme is not put in front a second
time. -/
theorem normalizeAddress_idem (a : String) :
    normalizeAddress (normalizeAddress a) = normalizeAddress a := by
  have h := startsWith_normalizeAddress a
  have hunfold : normalizeAddress (normalizeAddress a) =
      if JS.startsWith (normalizeAddress a) "http" then normalizeAddress a
      else "https://" ++ normalizeAddress a := rfl
  rw [hunfold, if_pos h]

/-- A normalized address is not empty. -/
theorem normalizeAddress_ne_empty (a : String) (ha : a ≠ "") : normalizeAddress a ≠ "" := by
  unfold normalizeAddress
  split
  · exact ha
  · intro h
    have := congrArg String.length h
    simp only [String.length_append] at this
    have h8 : "https://".length = 8 := by decide
    have h0 : "".length = 0 := by decide
    omega

/-- A validated descriptor passes validation again and comes back as it is. -/
theorem validateConfig_fixed (c d : DeviceConfig) (hv : validateConfig (some c) = .ok d) :
    validateConfig (some d) = .ok d := by
  have hd := (validateConfig_ok c d hv).1
  obtain ⟨id, type, address, node, credentials⟩ := c
  subst hd
  simp only [validateConfig] at hv ⊢
  by_cases h1 : JS.truthy type = true
  · by_cases h4 : type = some "proxmox"
    · cases address with
      | none => simp_all [JS.truthy]
      | some a =>
        have ha : a ≠ "" := by
          intro h; subst h; simp_all [JS.truthy]
        have hn := normalizeAddress_ne_empty a ha
        have hi := normalizeAddress_idem a
        cases credentials with
        | none => simp_all [JS.truthy]
        | some cr =>
          by_cases h5 : JS.truthy cr.tokenId = true <;>
            by_cases h6 : JS.truthy cr.username = true <;>
            by_cases h7 : JS.truthy cr.tokenSecret = true <;>
            by_cases h8 : JS.truthy cr.password = true <;>
            simp_all [JS.truthy]
    · by_cases h2 : JS.truthy address = true
      · simp_all
      · by_cases h3 : type = some "host"
        · simp_all
        · simp_all
  · simp_all

/-- C28: `validateConfig` is idempotent. A descriptor `d` returned by a successful validation
passes validation again and comes back equal to itself, any number of times; for a cluster
descriptor the address of `d` is the normalized address, and normalizing it again does not put
the scheme in front a second time. So the methods that validate once more on the way
(`getMetrics`, `getProxmoxMetrics`, `executeProxmoxCommand`, `createProxmoxClient`) do on the
validated descriptor what they do on the original one, and look the client up under the key of
the once validated descriptor. -/
theorem validateConfig_idempotent (c d : DeviceConfig)
    (hv : validateConfig (some c) = .ok d) :
    validateConfig (some d) = .ok d ∧
    (∀ n : Nat, (fun r : Except JS.Error DeviceConfig =>
        r.bind (fun x => validateConfig (some x)))^[n] (.ok d) = .ok d) ∧
    (c.type = some "proxmox" → ∃ a, c.address = some a ∧
      d.address = some (normalizeAddress a) ∧
      normalizeAddress (normalizeAddress a) = normalizeAddress a) ∧
    (validateConfig (some d)).map clientKey = .ok (clientKey d) ∧
    (∀ (w : World) (s : Service),
      createProxmoxClient w s (some d) = createProxmoxClient w s (some c) ∧
      executeProxmoxCommand w s (some d) = executeProxmoxCommand w s (some c) ∧
      getProxmoxMetrics w s (some d) = getProxmoxMetrics w s (some c) ∧
      getMetrics w s (some d) = getMetrics w s (some c)) := by
  have hfix := validateConfig_fixed c d hv
  refine ⟨hfix, ?_, ?_, ?_, ?_⟩
  · intro n
    induction n with
    | zero => rfl
    | succ n ih =>
      rw [Function.iterate_succ_apply]
      have hstep : (Except.ok d : Except JS.Error DeviceConfig).bind
          (fun x => validateConfig (some x)) = .ok d := hfix
      rw [hstep]
      exact ih
  · intro htype
    obtain ⟨hd, _, hp⟩ := validateConfig_ok c d hv
    rw [if_pos htype] at hd
    cases ha : c.address with
    | none =>
      have := (hp htype).1
      rw [ha] at this
      simp [JS.truthy] at this
    | some a =>
      refine ⟨a, rfl, ?_, normalizeAddress_idem a⟩
      rw [hd, ha]
      rfl
  · rw [hfix]
    rfl
  · intro w s
    refine ⟨?_, ?_, ?_, ?_⟩
    · unfold createProxmoxClient
      rw [hfix, hv]
    · unfold executeProxmoxCommand
      rw [hfix, hv]
    · unfold getProxmoxMetrics
      rw [hfix, hv]
    · unfold getMetrics
      rw [hfix, hv]

/-- The scenario descriptor: the validated address is `https://10.0.0.5`, and a second validation
returns the same descriptor. -/
theorem validateConfig_idempotent_witness :
    validateConfig (some scenarioConfig) =
      .ok { scenarioConfig with address := some "https://10.0.0.5" } ∧
    validateConfig (some { scenarioConfig with address := some "https://10.0.0.5" }) =
      .ok { scenarioConfig with address := some "https://10.0.0.5" } :=
  ⟨rfl, (validateConfig_idempotent scenarioConfig
    { scenarioConfig with address := some "https://10.0.0.5" } rfl).1⟩

/-- C24: the outcomes of `getProxmoxTicket`, by the answer to the POST of the credentials. When
the response carries a ticket, the ticket is returned. When no ticket is obtained the call fails:
with `Proxmox authentication failed: ` followed by the message of the remote API when the
rejection carries one, and with the generic message when the request was rejected without such a
message or when the response carries no ticket. -/
theorem getProxmoxTicket_outcomes (w : World) (s : Service) (client : Client)
    (credentials : Credentials) :
    (∀ ticket, w.post s.trace.length client "/api2/json/access/ticket"
        (ticketForm credentials) = .ok (some ticket) → ticket ≠ "" →
      (getProxmoxTicket w s client credentials).1 = .ok ticket) ∧
    (∀ ticket, w.post s.trace.length client "/api2/json/access/ticket"
        (ticketForm credentials) = .ok ticket → JS.truthy ticket = false →
      (getProxmoxTicket w s client credentials).1 = .error (JS.Error.new
        "Proxmox authentication failed: Invalid credentials or server unreachable")) ∧
    (∀ e message, w.post s.trace.length client "/api2/json/access/ticket"
        (ticketForm credentials) = .error e → e.responseMessage = some message →
        message ≠ "" →
      (getProxmoxTicket w s client credentials).1 = .error (JS.Error.new
        ("Proxmox authentication failed: " ++ message))) ∧
    (∀ e, w.post s.trace.length client "/api2/json/access/ticket"
        (ticketForm credentials) = .error e → JS.truthy e.responseMessage = false →
      (getProxmoxTicket w s client credentials).1 = .error (JS.Error.new
        "Proxmox authentication failed: Invalid credentials or server unreachable")) := by
  refine ⟨?_, ?_, ?_, ?_⟩
  · intro ticket hpost hne
    unfold getProxmoxTicket
    unfold ticketForm at hpost
    simp only [hpost]
    simp [JS.truthy, JS.render, hne]
  · intro ticket hpost hno
    unfold getProxmoxTicket
    unfold ticketForm at hpost
    simp only [hpost]
    simp [hno]
  · intro e message hpost hmsg hne
    unfold getProxmoxTicket
    unfold ticketForm at hpost
    simp only [hpost]
    simp [hmsg, JS.truthy, JS.render, hne]
  · intro e hpost hno
    unfold getProxmoxTicket
    unfold ticketForm at hpost
    simp only [hpost]
    simp [hno]

/-- A cluster that rejects the credentials with the message `authentication failure`. -/
theorem getProxmoxTicket_outcomes_witness :
    (getProxmoxTicket rejectingWorld {} someClient
      { username := some "alice", password := some "wrong" }).1 =
      .error (JS.Error.new "Proxmox authentication failed: authentication failure") :=
  (getProxmoxTicket_outcomes rejectingWorld {} someClient
    { username := some "alice", password := some "wrong" }).2.2.1
    ⟨"Request failed with status code 401", some "authentication failure"⟩
    "authentication failure" rfl rfl (by decide)

/-- A successful call of `createProxmoxClient` leaves the returned client in the cache, under the
key of the validated descriptor. -/
theorem createProxmoxClient_stores (w : World) (s s₁ : Service) (c d : DeviceConfig)
    (client : Client) (hfirst : createProxmoxClient w s (some c) = (.ok client, s₁))
    (hv : validateConfig (some c) = .ok d) :
    clientsGet s₁.clients (clientKey d) = some client := by
  have hstore : ∀ (s0 : Service) (cl : Client),
      probeAndStore w s0 (clientKey d) cl = (.ok client, s₁) →
      clientsGet s₁.clients (clientKey d) = some client := by
    intro s0 cl h
    unfold probeAndStore at h
    split at h
    · simp at h
    · simp only [Prod.mk.injEq, Except.ok.injEq] at h
      obtain ⟨h1, h2⟩ := h
      subst h1 h2
      exact clientsGet_clientsSet _ _ _
  unfold createProxmoxClient at hfirst
  rw [hv] at hfirst
  simp only at hfirst
  split at hfirst
  · next cached hc =>
    simp only [Prod.mk.injEq, Except.ok.injEq] at hfirst
    obtain ⟨h1, h2⟩ := hfirst
    subst h1 h2
    exact hc
  · split at hfirst
    · simp at hfirst
    · split at hfirst
      · exact hstore _ _ hfirst
      · split at hfirst
        · split at hfirst
          · simp at hfirst
          · exact hstore _ _ hfirst
        · exact hstore _ _ hfirst

/-- C27: a cache hit of `createProxmoxClient` does not depend on the secret. After a successful
call for `c₁`, a call for any descriptor `c₂` with the same normalized address and the same
identity, carrying any token secret and any password with which it passes validation, returns
the client of the first call and leaves the service as it was: nothing is added to the trace, so
neither a ticket exchange nor a probe is sent, whatever the world would answer. -/
theorem createProxmoxClient_hit_ignores_secret (w w' : World) (s s₁ : Service)
    (c₁ c₂ d₁ d₂ : DeviceConfig) (client : Client) (tokenSecret password : Option String)
    (hfirst : createProxmoxClient w s (some c₁) = (.ok client, s₁))
    (hv₁ : validateConfig (some c₁) = .ok d₁)
    (hv₂ : validateConfig (some (withSecrets c₂ tokenSecret password)) = .ok d₂)
    (haddr : d₁.address = d₂.address) (hid : identity d₁ = identity d₂) :
    createProxmoxClient w' s₁ (some (withSecrets c₂ tokenSecret password)) = (.ok client, s₁) ∧
    newEffects s₁
      (createProxmoxClient w' s₁ (some (withSecrets c₂ tokenSecret password))).2 = [] ∧
    identity d₂ = identity c₂ := by
  have hkey : clientKey d₂ = clientKey d₁ := by
    unfold clientKey; unfold identity at hid; rw [haddr, hid]
  have hcached := createProxmoxClient_stores w s s₁ c₁ d₁ client hfirst hv₁
  have hcall : createProxmoxClient w' s₁ (some (withSecrets c₂ tokenSecret password)) =
      (.ok client, s₁) := by
    unfold createProxmoxClient
    rw [hv₂]
    simp only [hkey, hcached]
  refine ⟨hcall, ?_, ?_⟩
  · rw [hcall]
    simp [newEffects]
  · have hd := (validateConfig_ok _ d₂ hv₂).1
    rw [hd]
    unfold identity withSecrets
    cases c₂.credentials <;> rfl

/-- The scenario descriptor, then the same cluster with the scheme written out and another
secret, in a world that refuses everything: the client of the first call comes back, with the
header of the first secret. -/
theorem createProxmoxClient_hit_ignores_secret_witness :
    createProxmoxClient deadWorld (createProxmoxClient liveWorld {} (some scenarioConfig)).2
        (some (withSecrets { scenarioConfig with address := some "https://10.0.0.5" }
          (some "not-the-secret") none))
      = (.ok { handle := 0, baseURL := some "https://10.0.0.5",
               authorization := some "PVEAPIToken=u@pam!t=abc" },
          (createProxmoxClient liveWorld {} (some scenarioConfig)).2) :=
  (createProxmoxClient_hit_ignores_secret liveWorld deadWorld {} _ scenarioConfig
    { scenarioConfig with address := some "https://10.0.0.5" }
    { scenarioConfig with address := some "https://10.0.0.5" }
    (withSecrets { scenarioConfig with address := some "https://10.0.0.5" }
      (some "not-the-secret") none)
    _ (some "not-the-secret") none (by rfl) (by rfl) (by rfl) rfl rfl).1

end DeviceService

namespace JS

/-- The first piece of a split is the text up to its first separator. -/
theorem splitChars_head (sep : Char) (l : List Char) :
    (splitChars sep l).head? = some (l.takeWhile (fun c => c != sep)) := by
  induction l with
  | nil => rfl
  | cons c cs ih =>
    unfold splitChars
    by_cases hc : c = sep
    · simp [hc]
    · simp only [hc, if_false]
      have hne : (c != sep) = true := by simpa using hc
      rw [List.takeWhile_cons, hne]
      cases hs : splitChars sep cs with
      | nil => exact absurd hs (splitChars_ne_nil sep cs)
      | cons piece pieces =>
        rw [hs] at ih
        simp only [List.head?_cons, Option.some.injEq] at ih
        simp [ih]

end JS

namespace Node

/-- The UTF-8 bytes of a text of ASCII characters are the character codes. -/
theorem utf8Encode_ascii (text : List Char) (h : ∀ c ∈ text, c.toNat < 0x80) :
    utf8Encode text = text.map Char.toNat := by
  induction text with
  | nil => rfl
  | cons c cs ih =>
    have hc := h c (List.mem_cons_self _ _)
    have ih' := ih (fun d hd => h d (List.mem_cons_of_mem _ hd))
    unfold utf8Encode at ih' ⊢
    rw [List.flatMap_cons, ih']
    simp [utf8EncodeChar, hc]

end Node

namespace Server

open DeviceService (Credentials)

/-- What `extractCredentials` reads from the header `Basic <base64 of username:password>`: the
first two pieces of `username:password` split at `:`. -/
theorem extractCredentials_basicHeader (username password : String) :
    extractCredentials (some (basicHeader username password)) =
      some { username := (JS.split (username ++ ":" ++ password) ':').get? 0,
             password := (JS.split (username ++ ":" ++ password) ':').get? 1,
             realm := some "pam" } := by
  have hbytes := Node.utf8Encode_lt (username ++ ":" ++ password).data
  have hdata : (basicHeader username password).data =
      "Basic".data ++ ' ' :: Node.base64Encode
        (Node.utf8Encode (username ++ ":" ++ password).data) := by
    simp [basicHeader, String.data_append]
  have hne : basicHeader username password ≠ "" := by
    intro hh
    have := congrArg String.data hh
    rw [hdata] at this
    simp at this
  have hnomatch : tokenMatch (basicHeader username password).data = none := by
    apply tokenMatch_padded
    rw [hdata]
    have : ("Basic".data ++ ' ' :: Node.base64Encode
        (Node.utf8Encode (username ++ ":" ++ password).data)).dropWhile (fun c => c != '=') =
        (Node.base64Encode
          (Node.utf8Encode (username ++ ":" ++ password).data)).dropWhile (fun c => c != '=') := by
      simp [List.dropWhile]
    rw [this]
    exact Node.base64Encode_padding _ hbytes
  have hstarts : JS.startsWith (basicHeader username password) "Basic " = true := by
    unfold JS.startsWith
    rw [hdata, List.isPrefixOf_iff_prefix]
    exact ⟨Node.base64Encode (Node.utf8Encode (username ++ ":" ++ password).data), by simp⟩
  have hsplit : JS.split (basicHeader username password) ' ' =
      ["Basic", String.mk (Node.base64Encode
        (Node.utf8Encode (username ++ ":" ++ password).data))] := by
    unfold JS.split
    rw [hdata, JS.splitChars_append _ _ _ (by decide),
      JS.splitChars_no_sep _ _ (Node.base64Encode_no_space _ hbytes)]
    rfl
  have hdecoded : String.mk (Node.utf8Decode (Node.base64Decode
      (Node.base64Encode (Node.utf8Encode (username ++ ":" ++ password).data)))) =
      username ++ ":" ++ password := by
    rw [Node.base64Decode_encode _ hbytes, Node.utf8Decode_encode]
  unfold extractCredentials
  simp only [hne, if_false, hnomatch, hstarts, if_true]
  rw [hsplit]
  simp only [List.get?]
  rw [hdecoded]

/-- The header that the client builds from a username and a password of ASCII characters is the
header `Basic <base64 of username:password>` as the server reads it. -/
theorem authToken_basic_ascii (username password : String)
    (hu : username ≠ "") (hp : password ≠ "")
    (hascii : ∀ c ∈ (username ++ ":" ++ password).data, c.toNat < 0x80) :
    SystemApi.authToken (some { username := some username, password := some password }) =
      .ok (basicHeader username password) := by
  have hall : (username ++ ":" ++ password).data.all (fun c => decide (c.toNat ≤ 255)) = true := by
    rw [List.all_eq_true]
    intro c hc
    have := hascii c hc
    simp only [decide_eq_true_eq]
    omega
  unfold SystemApi.authToken
  simp only [JS.truthy, JS.render, SystemApi.btoa, hall, bne_iff_ne, ne_eq, hu, hp,
    not_false_eq_true, Bool.and_self, if_true, Bool.false_and, Bool.false_eq_true, if_false,
    not_true_eq_false, decide_True, decide_False]
  rw [← Node.utf8Encode_ascii _ hascii]
  have hboth : (username != "" && password != "") = true := by simp [hu, hp]
  rw [if_pos hboth]
  rfl

/-- C29: for a username without `:` and a password `p1:p2`, `extractCredentials` applied to
`Basic ` followed by the base64 encoding of `username:p1:p2` returns the username and, as the
password, the text of `p1` up to its first `:` (all of `p1` when it has none): everything from
the first `:` of the password on is dropped, so the record is not the one the header was built
from. That header is the one the client builds for ASCII credentials. -/
theorem extractCredentials_password_truncated (username p1 p2 : String)
    (husername : ':' ∉ username.data) :
    extractCredentials (some (basicHeader username (p1 ++ ":" ++ p2))) =
      some { username := some username,
             password := some (String.mk (p1.data.takeWhile (fun c => c != ':'))),
             realm := some "pam" } ∧
    (':' ∉ p1.data →
      extractCredentials (some (basicHeader username (p1 ++ ":" ++ p2))) =
        some { username := some username, password := some p1, realm := some "pam" }) ∧
    extractCredentials (some (basicHeader username (p1 ++ ":" ++ p2))) ≠
      some { username := some username, password := some (p1 ++ ":" ++ p2),
             realm := some "pam" } ∧
    (username ≠ "" →
      (∀ c ∈ (username ++ ":" ++ (p1 ++ ":" ++ p2)).data, c.toNat < 0x80) →
      SystemApi.authToken
          (some { username := some username, password := some (p1 ++ ":" ++ p2) }) =
        .ok (basicHeader username (p1 ++ ":" ++ p2))) := by
  have hpw : (p1 ++ ":" ++ p2).data = p1.data ++ ':' :: p2.data := by
    simp [String.data_append]
  have hall : (username ++ ":" ++ (p1 ++ ":" ++ p2)).data =
      username.data ++ ':' :: (p1.data ++ ':' :: p2.data) := by
    simp [String.data_append]
  have htake : (p1.data ++ ':' :: p2.data).takeWhile (fun c => c != ':') =
      p1.data.takeWhile (fun c => c != ':') := by
    induction p1.data with
    | nil => simp [List.takeWhile]
    | cons c cs ih =>
      rw [List.cons_append, List.takeWhile_cons, List.takeWhile_cons, ih]
  have hparts : ∃ pieces, JS.split (username ++ ":" ++ (p1 ++ ":" ++ p2)) ':' =
      username :: String.mk (p1.data.takeWhile (fun c => c != ':')) :: pieces := by
    unfold JS.split
    rw [hall, JS.splitChars_append _ _ _ husername]
    have hhead := JS.splitChars_head ':' (p1.data ++ ':' :: p2.data)
    rw [htake] at hhead
    cases hs : JS.splitChars ':' (p1.data ++ ':' :: p2.data) with
    | nil => exact absurd hs (JS.splitChars_ne_nil _ _)
    | cons piece pieces =>
      rw [hs] at hhead
      simp only [List.head?_cons, Option.some.injEq] at hhead
      exact ⟨pieces.map String.mk, by simp [hhead]⟩
  obtain ⟨pieces, hpieces⟩ := hparts
  have hmain : extractCredentials (some (basicHeader username (p1 ++ ":" ++ p2))) =
      some { username := some username,
             password := some (String.mk (p1.data.takeWhile (fun c => c != ':'))),
             realm := some "pam" } := by
    rw [extractCredentials_basicHeader, hpieces]
    rfl
  refine ⟨hmain, ?_, ?_, ?_⟩
  · intro hp1
    rw [hmain]
    have hwhole : p1.data.takeWhile (fun c => c != ':') = p1.data := by
      rw [List.takeWhile_eq_self_iff]
      intro c hc
      have : c ≠ ':' := fun e => hp1 (e ▸ hc)
      simpa using this
    rw [hwhole]
  · rw [hmain]
    intro heq
    simp only [Option.some.injEq, Credentials.mk.injEq, and_true, true_and] at heq
    have hdata := congrArg String.data heq
    rw [hpw] at hdata
    have hmem : ':' ∈ p1.data.takeWhile (fun c => c != ':') := by
      simp only at hdata
      rw [hdata]
      simp
    have := List.mem_takeWhile_imp hmem
    simp at this
  · intro hu hascii
    apply authToken_basic_ascii _ _ hu _ hascii
    intro hempty
    have hlen := congrArg String.length hempty
    simp only [String.length_append] at hlen
    have h1 : ":".length = 1 := by decide
    have h0 : "".length = 0 := by decide
    omega

/-- The password `pa:ss:word` of alice: the client sends it whole, the server keeps `pa`. -/
theorem extractCredentials_password_truncated_witness :
    SystemApi.authToken (some { username := some "alice", password := some "pa:ss:word" }) =
      .ok "Basic YWxpY2U6cGE6c3M6d29yZA==" ∧
    extractCredentials (some "Basic YWxpY2U6cGE6c3M6d29yZA==") =
      some { username := some "alice", password := some "pa", realm := some "pam" } :=
  ⟨by rfl, (extractCredentials_password_truncated "alice" "pa" "ss:word" (by decide)).1⟩

end Server

namespace UseSystemData

/-- What the effect body leaves in the bookkeeping: no recorded error, a retry counter of 0, the
fetches in flight as they were, and a call `setDeviceError(null)` exactly when an error was
recorded. -/
theorem effect_fields (h : Hook) (target : Target) (interval now : Int) :
    (effect h target interval now).lastError = none ∧
    (effect h target interval now).retryCount = 0 ∧
    (effect h target interval now).inFlight = h.inFlight ∧
    (effect h target interval now).deviceErrors =
      (if h.lastError != none then h.deviceErrors ++ [none] else h.deviceErrors) := by
  unfold effect
  simp only
  repeat' split
  all_goals simp_all

/-- A render of the hook at rest announces nothing and leaves it at rest. -/
theorem render_settled (h : Hook) (target : Target) (interval now : Int) (hs : Settled h) :
    (step h (.render target interval now)).deviceErrors = h.deviceErrors ∧
    Settled (step h (.render target interval now)) := by
  obtain ⟨hlast, hretry, hpolled⟩ := hs
  simp only [step]
  split
  · exact ⟨rfl, hlast, hretry, hpolled⟩
  · obtain ⟨e1, e2, e3, e4⟩ := effect_fields (cleanup { h with now := now }) target interval now
    have hl : (cleanup { h with now := now }).lastError = none := hlast
    rw [hl] at e4
    refine ⟨e4, e1, e2, ?_⟩
    unfold FetchesPolled
    rw [e3]
    exact hpolled

/-- The re-run of the effect after an announced message calls `setDeviceError(null)` and leaves
the hook at rest. -/
theorem rerun_after_message (h : Hook) (m : String) (hlast : h.lastError = some m)
    (hpolled : FetchesPolled h) :
    (rerun h).deviceErrors = h.deviceErrors ++ [none] ∧ Settled (rerun h) := by
  simp only [rerun, step, lt_self_iff_false, if_false]
  obtain ⟨e1, e2, e3, e4⟩ :=
    effect_fields (cleanup { h with now := h.now }) h.target h.safeInterval h.now
  have hl : (cleanup { h with now := h.now }).lastError = some m := hlast
  rw [hl] at e4
  refine ⟨e4, e1, e2, ?_⟩
  unfold FetchesPolled
  rw [e3]
  exact hpolled

/-- The error path on the hook at rest, for a fetch that was started for a polled target: the
message is announced, and the retry counter is at most 1. -/
theorem onError_settled (h : Hook) (t : Target) (m : String) (hlast : h.lastError = none)
    (hretry : h.retryCount = 0) (hawait : awaitingNode t = false) :
    (onError h t m).deviceErrors = h.deviceErrors ++ [some m] ∧
    (onError h t m).lastError = some m ∧
    (onError h t m).retryCount ≤ 1 ∧
    (onError h t m).inFlight = h.inFlight := by
  unfold onError
  simp only [hawait, hlast]
  repeat' split
  all_goals simp_all

/-- The success path on the hook at rest announces nothing and leaves the bookkeeping at rest. -/
theorem onSuccess_settled (h : Hook) (data : JS.Val) (now : Int) (hlast : h.lastError = none) :
    (onSuccess h data now).deviceErrors = h.deviceErrors ∧
    (onSuccess h data now).lastError = none ∧
    (onSuccess h data now).retryCount = 0 ∧
    (onSuccess h data now).inFlight = h.inFlight := by
  unfold onSuccess
  simp only [hlast]
  repeat' split
  all_goals simp_all

/-- A call of `updateData` on the hook at rest either announces nothing and leaves it at rest, or
announces a failure. -/
theorem updateData_settled (h : Hook) (now : Int) (hs : Settled h) :
    ((updateData h now).deviceErrors = h.deviceErrors ∧ Settled (updateData h now)) ∨
    Announcing h (updateData h now) := by
  obtain ⟨hlast, hretry, hpolled⟩ := hs
  unfold updateData
  split
  · exact Or.inl ⟨rfl, hlast, hretry, hpolled⟩
  · split
    · exact Or.inl ⟨rfl, hlast, hretry, hpolled⟩
    · split
      · split
        · exact Or.inl ⟨rfl, hlast, hretry, hpolled⟩
        · exact Or.inl ⟨rfl, hlast, hretry, hpolled⟩
      · next hawait =>
        have hawait' : awaitingNode h.target = false := by simpa using hawait
        have hstart : ∀ api : String, FetchesPolled
            { h with inFlight := h.inFlight ++ [{ id := h.started, target := h.target,
                                                  api := api, controller := h.started }] } := by
          intro api r hr
          simp only [List.mem_append, List.mem_singleton] at hr
          rcases hr with hr | hr
          · exact hpolled r hr
          · rw [hr]; exact hawait'
        simp only
        split
        · exact Or.inl ⟨rfl, hlast, hretry, hstart _⟩
        · split
          · exact Or.inl ⟨rfl, hlast, hretry, hstart _⟩
          · split
            · obtain ⟨e1, e2, e3, e4⟩ := onError_settled
                { h with aborted := h.aborted ++ h.abortController.toList,
                         abortController := some h.started, updateInProgress := true,
                         started := h.started + 1 } h.target
                "Device address is not configured" hlast hretry hawait'
              refine Or.inr ⟨⟨_, e1, e2⟩, e3, ?_⟩
              unfold FetchesPolled
              rw [e4]
              exact hpolled
            · exact Or.inl ⟨rfl, hlast, hretry, hstart _⟩

/-- The settling of a fetch on the hook at rest either announces nothing and leaves it at rest,
or announces a failure. -/
theorem settle_settled (h : Hook) (id : Nat) (outcome : Except String JS.Val) (now : Int)
    (hs : Settled h) :
    ((settle h id outcome now).deviceErrors = h.deviceErrors ∧
      Settled (settle h id outcome now)) ∨
    Announcing h (settle h id outcome now) := by
  obtain ⟨hlast, hretry, hpolled⟩ := hs
  unfold settle
  split
  · exact Or.inl ⟨rfl, hlast, hretry, hpolled⟩
  · next r hfind =>
    have hr : awaitingNode r.target = false := hpolled r (List.mem_of_find?_eq_some hfind)
    have hrest : FetchesPolled { h with inFlight := h.inFlight.filter (fun q => q.id != id) } := by
      intro q hq
      exact hpolled q (List.mem_filter.mp hq).1
    simp only
    split
    · next data _ =>
      obtain ⟨e1, e2, e3, e4⟩ := onSuccess_settled
        { h with inFlight := h.inFlight.filter (fun q => q.id != id) } data now hlast
      refine Or.inl ⟨e1, e2, e3, ?_⟩
      unfold FetchesPolled
      rw [e4]
      exact hrest
    · next m _ =>
      obtain ⟨e1, e2, e3, e4⟩ := onError_settled
        { h with inFlight := h.inFlight.filter (fun q => q.id != id) } r.target m hlast hretry hr
      refine Or.inr ⟨⟨m, e1, e2⟩, e3, ?_⟩
      unfold FetchesPolled
      rw [e4]
      exact hrest

/-- An event on the hook at rest either announces nothing and leaves it at rest, or announces a
failure. -/
theorem step_settled (h : Hook) (e : Event) (hs : Settled h) :
    ((step h e).deviceErrors = h.deviceErrors ∧ Settled (step h e)) ∨
    Announcing h (step h e) := by
  cases e with
  | render target interval now => exact Or.inl (render_settled h target interval now hs)
  | timeout now =>
    simp only [step]
    split
    · exact Or.inl ⟨rfl, hs⟩
    · split
      · exact Or.inl ⟨rfl, hs⟩
      · split
        · exact updateData_settled { h with now := now, timeoutDue := none } now hs
        · exact Or.inl ⟨rfl, hs⟩
  | tick now =>
    simp only [step]
    split
    · exact Or.inl ⟨rfl, hs⟩
    · split
      · exact Or.inl ⟨rfl, hs⟩
      · next due _ =>
        split
        · split
          · exact updateData_settled
              { h with now := now, intervalDue := some (due + h.safeInterval) } now hs
          · exact Or.inl ⟨rfl, hs⟩
        · exact Or.inl ⟨rfl, hs⟩
  | settle id outcome now =>
    simp only [step]
    split
    · exact Or.inl ⟨rfl, hs⟩
    · exact settle_settled { h with now := now } id outcome now hs

/-- Under the provider every event leaves the hook at rest, and the retry counter is at most 1
in between. -/
theorem stepUnderProvider_settled (h : Hook) (e : Event) (hs : Settled h) :
    Settled (stepUnderProvider h e) ∧ (step h e).retryCount ≤ 1 := by
  unfold stepUnderProvider
  simp only
  rcases step_settled h e hs with ⟨hsame, hrest⟩ | ⟨⟨m, herrs, hlast⟩, hretry, hpolled⟩
  · rw [if_pos (by rw [hsame])]
    exact ⟨hrest, by rw [hrest.2.1]; exact Nat.zero_le _⟩
  · have hlen : ¬ (step h e).deviceErrors.length = h.deviceErrors.length := by
      rw [herrs]; simp
    rw [if_neg hlen]
    obtain ⟨hmore, hrest⟩ := rerun_after_message (step h e) m hlast hpolled
    have hlen' : ¬ (rerun (step h e)).deviceErrors.length = (step h e).deviceErrors.length := by
      rw [hmore]; simp
    rw [if_neg hlen']
    exact ⟨(render_settled _ _ _ _ hrest).2, hretry⟩

/-- Every run under the provider leaves the hook at rest. -/
theorem runUnderProvider_settled (events : List Event) : Settled (runUnderProvider events) := by
  unfold runUnderProvider
  have hgen : ∀ (es : List Event) (h : Hook), Settled h →
      Settled (es.foldl stepUnderProvider h) := by
    intro es
    induction es with
    | nil => intro h hs; exact hs
    | cons e es ih => intro h hs; exact ih _ (stepUnderProvider_settled h e hs).1
  exact hgen events {} ⟨rfl, rfl, fun r hr => by cases hr⟩

/-- C7: in every run of the hook under the provider, on one target or on several, the retry
counter is 0 after every event and at most 1 between a refusal and the re-run of the effect that
the announcement of the refusal causes. So the counter never exceeds 3; it never reaches 3
either, and there is no state from which automatic fetches would have to stop. -/
theorem runUnderProvider_retryCount_bounded (events : List Event) (e : Event) :
    (runUnderProvider events).retryCount = 0 ∧
    (step (runUnderProvider events) e).retryCount ≤ 1 ∧
    (step (runUnderProvider events) e).retryCount < MAX_RETRIES ∧
    (runUnderProvider (events ++ [e])).retryCount = 0 ∧
    (runUnderProvider events).retryCount ≤ MAX_RETRIES := by
  have hs := runUnderProvider_settled events
  have hstep := (stepUnderProvider_settled (runUnderProvider events) e hs).2
  have hnext := runUnderProvider_settled (events ++ [e])
  refine ⟨hs.2.1, hstep, ?_, hnext.2.1, ?_⟩
  · unfold MAX_RETRIES; omega
  · rw [hs.2.1]; exact Nat.zero_le _

/-- Evaluation of `exhaustedRun` under the provider: after each of the five refusals the retry
counter is back at 0, and the initial fetch of the re-run effect starts a sixth fetch. -/
theorem exhaustedRun_keeps_fetching :
    (runUnderProvider (exhaustedRun.take 3)).retryCount = 0 ∧
    (step (runUnderProvider (exhaustedRun.take 2)) (.settle 0 (.error exhausted) 1000600)).retryCount
      = 1 ∧
    (runUnderProvider (exhaustedRun.take 11)).retryCount = 0 ∧
    (runUnderProvider (exhaustedRun.take 11)).inFlight = [] ∧
    (runUnderProvider exhaustedRun).started = 6 ∧
    (runUnderProvider exhaustedRun).inFlight =
      [{ id := 5, target := vmA, api := "fetchVMStats", controller := 5 }] := by
  decide

/-- With nothing pending, an event other than a render changes neither the envelope nor the
announcements, and nothing is pending afterwards. -/
theorem step_idle (h : Hook) (e : Event) (hidle : Idle h) (hkeeps : e.keepsEffect = true) :
    (step h e).systemData = h.systemData ∧ (step h e).deviceErrors = h.deviceErrors ∧
    Idle (step h e) := by
  obtain ⟨ht, hi, hf⟩ := hidle
  cases e with
  | render target interval now => simp [Event.keepsEffect] at hkeeps
  | timeout now =>
    simp only [step, ht]
    split <;> exact ⟨rfl, rfl, ht, hi, hf⟩
  | tick now =>
    simp only [step, hi]
    split <;> exact ⟨rfl, rfl, ht, hi, hf⟩
  | settle id outcome now =>
    simp only [step]
    split
    · exact ⟨rfl, rfl, ht, hi, hf⟩
    · have hsettle : settle { h with now := now } id outcome now = { h with now := now } := by
        unfold settle
        simp [hf]
      rw [hsettle]
      exact ⟨rfl, rfl, ht, hi, hf⟩

/-- With nothing pending, no sequence of timer events and settlings under the provider changes
the envelope. -/
theorem idle_forever (events : List Event) (h : Hook) (hidle : Idle h)
    (hkeeps : ∀ e ∈ events, e.keepsEffect = true) :
    (events.foldl stepUnderProvider h).systemData = h.systemData := by
  induction events generalizing h with
  | nil => rfl
  | cons e es ih =>
    obtain ⟨hdata, herrs, hnext⟩ := step_idle h e hidle (hkeeps e (List.mem_cons_self _ _))
    have hstep : stepUnderProvider h e = step h e := by
      unfold stepUnderProvider
      simp only
      rw [if_pos (by rw [herrs])]
    rw [List.foldl_cons, hstep, ih _ hnext (fun e' he' => hkeeps e' (List.mem_cons_of_mem _ he'))]
    exact hdata

/-- C20, evaluated on `localErrorThenCluster` and `localBodyThenCluster` under the provider: the
active device is a cluster without a selected node, and the fetch issued for the local host
before the switch settles. Its refusal becomes the error of the hook and is announced with
`setDeviceError`. Its body is stored as the envelope and sets the timestamp of the last fetch,
so the debounced initial fetch of the cluster is held back by the minimum interval and emits no
placeholder; after that nothing is pending, and whatever timer events and settlings follow, the
envelope stays the body of the local host. -/
theorem staleLocalResponse_under_cluster :
    awaitingNode clusterTarget = true ∧
    (runUnderProvider (localErrorThenCluster.take 3)).target = clusterTarget ∧
    (runUnderProvider (localErrorThenCluster.take 3)).inFlight =
      [{ id := 0, target := localTarget, api := "fetchSystemData", controller := 0 }] ∧
    (step (runUnderProvider (localErrorThenCluster.take 3))
      (.settle 0 (.error unreachable) 1000700)).error = some unreachable ∧
    (runUnderProvider localErrorThenCluster).deviceErrors = [some unreachable, none] ∧
    (runUnderProvider (localBodyThenCluster.take 4)).target = clusterTarget ∧
    (runUnderProvider (localBodyThenCluster.take 4)).systemData = localBody ∧
    (runUnderProvider (localBodyThenCluster.take 4)).lastUpdate = 1000700 ∧
    (runUnderProvider (localBodyThenCluster.take 4)).timeoutDue = some 1001100 ∧
    (runUnderProvider localBodyThenCluster).systemData = localBody ∧
    (runUnderProvider localBodyThenCluster).started = 1 ∧
    Idle (runUnderProvider localBodyThenCluster) ∧
    (∀ events : List Event, (∀ e ∈ events, e.keepsEffect = true) →
      (events.foldl stepUnderProvider (runUnderProvider localBodyThenCluster)).systemData =
        localBody) := by
  have hidle : Idle (runUnderProvider localBodyThenCluster) :=
    ⟨by decide, by decide, by decide⟩
  have hbody : (runUnderProvider localBodyThenCluster).systemData = localBody := by rfl
  refine ⟨by decide, by decide, by decide, by decide, by decide, by decide, by rfl, by decide,
    by decide, hbody, by decide, hidle, ?_⟩
  intro events hkeeps
  rw [idle_forever events _ hidle hkeeps]
  exact hbody

end UseSystemData
